import Mathlib

/-!
# go_pos_backend: token service, authorization middleware and resource handlers

A shallow embedding of the Go sources:

* `token/payload.go`, `token/jwt_maker.go` : the JWT maker;
* `api/server.go`, `api/user.go`, `api/product.go`, `api/menu.go`, `api/order.go` :
  the route table and the handlers;
* `utils/catalog.go`, `utils/format.go`.

External libraries (golang-jwt/jwt v5, crypto/hmac, gin binding, the store) are
represented by explicit models, each documented where it is introduced.
-/

namespace PosBackend

/-! ## Go runtime values -/

/-- One byte. -/
abbrev Byte := Fin 256

/-- A Go `[]byte`, and the contents of a Go `string` used as key material. -/
abbrev Bytes := List Byte

/-- An instant of `time.Time`, in nanoseconds since the Unix epoch. -/
abbrev Time := Int

/-- A `time.Duration`: a count of nanoseconds. -/
abbrev Duration := Int

/-- The constant `time.Second`. -/
def Second : Duration := 1000000000

/-- A `uuid.UUID` read as a 128-bit number; `0` is `uuid.Nil`. -/
abbrev UUID := Nat

/-! ## Errors -/

/-- Package-level error values, compared by identity in Go (`==`, `errors.Is`). -/
inductive Sentinel
  | ErrInvalidToken
  | ErrExpiredToken
  | ErrInvalidKeySize
  | jwtErrTokenMalformed
  | jwtErrTokenUnverifiable
  | jwtErrTokenSignatureInvalid
  | jwtErrTokenExpired
  | jwtErrTokenNotValidYet
  | jwtErrTokenInvalidClaims
  | jwtErrSignatureInvalid
  | jwtErrInvalidKeyType
  | jwtNoneSignatureTypeDisallowedError
  | sqlErrNoRows
  | sqlErrConnDone
  deriving DecidableEq, Repr

/-- The constant `minSecretKeySize` of `token/jwt_maker.go`. -/
def minSecretKeySize : Nat := 32

/-- The text of each package-level error (`errors.New`, `fmt.Errorf`). -/
def Sentinel.Error : Sentinel → String
  | .ErrInvalidToken => "token is invalid"
  | .ErrExpiredToken => "token is expired"
  | .ErrInvalidKeySize => "invalid key size: must be at least " ++ toString minSecretKeySize
  | .jwtErrTokenMalformed => "token is malformed"
  | .jwtErrTokenUnverifiable => "token is unverifiable"
  | .jwtErrTokenSignatureInvalid => "token signature is invalid"
  | .jwtErrTokenExpired => "token is expired"
  | .jwtErrTokenNotValidYet => "token is not valid yet"
  | .jwtErrTokenInvalidClaims => "token has invalid claims"
  | .jwtErrSignatureInvalid => "signature is invalid"
  | .jwtErrInvalidKeyType => "key is of invalid type"
  | .jwtNoneSignatureTypeDisallowedError => "\x27none\x27 signature type is not allowed"
  | .sqlErrNoRows => "sql: no rows in result set"
  | .sqlErrConnDone => "sql: connection is already closed"

/-- A Go `error` value. `wrapped` is an error built by `fmt.Errorf` with `%w`
verbs (or `errors.Join`): its text, and the package-level errors it wraps.
`pq` is a `*pq.Error` with its SQLSTATE code. -/
inductive GoError
  | sentinel (s : Sentinel)
  | wrapped (msg : String) (chain : List Sentinel)
  | pq (code : String) (msg : String)
  | other (msg : String)
  deriving DecidableEq, Repr

/-- The method `Error()`. -/
def GoError.Error : GoError → String
  | .sentinel s => s.Error
  | .wrapped msg _ => msg
  | .pq _ msg => "pq: " ++ msg
  | .other msg => msg

/-- The package-level errors that `errors.Is` finds in an error. -/
def GoError.chain : GoError → List Sentinel
  | .sentinel s => [s]
  | .wrapped _ c => c
  | .pq _ _ => []
  | .other _ => []

/-- The test `errors.Is(err, target)` for a package-level target. -/
def GoError.Is (err : GoError) (target : Sentinel) : Bool :=
  decide (target ∈ err.chain)

/-! ## token/payload.go -/

/-- The struct `Payload`. -/
structure Payload where
  ID : UUID
  Username : String
  IssuedAt : Time
  ExpiredAt : Time
  deriving DecidableEq, Repr

/-- What `NewPayload` reads from its environment, in program order: the result
of `uuid.New()`, then the two successive results of `time.Now()`. -/
structure IssueEnv where
  uuid : UUID
  now1 : Time
  now2 : Time
  deriving DecidableEq, Repr

/-- The function `NewPayload`. -/
def NewPayload (env : IssueEnv) (username : String) (duration : Duration) : Payload :=
  { ID := env.uuid
    Username := username
    IssuedAt := env.now1
    ExpiredAt := env.now2 + duration }

/-! ## golang-jwt/jwt v5 (model of the library) -/

/-- Hash functions the HMAC signing methods use. -/
inductive CryptoHash
  | SHA256
  | SHA384
  | SHA512
  deriving DecidableEq, Repr

/-- The signing methods registered by the library. -/
inductive SigningMethod
  | hmac (h : CryptoHash)
  | rsa (h : CryptoHash)
  | rsapss (h : CryptoHash)
  | ecdsa (h : CryptoHash)
  | ed25519
  | none
  deriving DecidableEq, Repr

/-- The constant `jwt.SigningMethodHS256`. -/
def SigningMethodHS256 : SigningMethod := .hmac .SHA256

/-- The constant `jwt.SigningMethodNone`. -/
def SigningMethodNone : SigningMethod := .none

/-- The method `Alg()`. -/
def SigningMethod.Alg : SigningMethod → String
  | .hmac .SHA256 => "HS256"
  | .hmac .SHA384 => "HS384"
  | .hmac .SHA512 => "HS512"
  | .rsa .SHA256 => "RS256"
  | .rsa .SHA384 => "RS384"
  | .rsa .SHA512 => "RS512"
  | .rsapss .SHA256 => "PS256"
  | .rsapss .SHA384 => "PS384"
  | .rsapss .SHA512 => "PS512"
  | .ecdsa .SHA256 => "ES256"
  | .ecdsa .SHA384 => "ES384"
  | .ecdsa .SHA512 => "ES512"
  | .ed25519 => "EdDSA"
  | .none => "none"

/-- The function `jwt.GetSigningMethod`: the registered method of that name. -/
def GetSigningMethod (alg : String) : Option SigningMethod :=
  [SigningMethod.hmac .SHA256, .hmac .SHA384, .hmac .SHA512,
   .rsa .SHA256, .rsa .SHA384, .rsa .SHA512,
   .rsapss .SHA256, .rsapss .SHA384, .rsapss .SHA512,
   .ecdsa .SHA256, .ecdsa .SHA384, .ecdsa .SHA512,
   .ed25519, .none].find? (fun m => m.Alg == alg)

/-- The type assertion `token.Method.(*jwt.SigningMethodHMAC)`. -/
def SigningMethod.isHMAC : SigningMethod → Bool
  | .hmac _ => true
  | _ => false

/-- The struct `jwt.RegisteredClaims`; `NumericDate` pointers are options. -/
structure RegisteredClaims where
  Issuer : String := ""
  Subject : String := ""
  Audience : List String := []
  ExpiresAt : Option Time := Option.none
  NotBefore : Option Time := Option.none
  IssuedAt : Option Time := Option.none
  ID : String := ""
  deriving DecidableEq, Repr

/-- The struct `JWTClaims` of `token/jwt_maker.go`: the two embedded structs. -/
structure JWTClaims where
  payload : Payload
  registered : RegisteredClaims
  deriving DecidableEq, Repr

/-- The JOSE header of a token: `typ` and, when present as a string, `alg`. -/
structure Header where
  typ : String
  alg : Option String
  deriving DecidableEq, Repr

/-- A key handed to `Sign`/`Verify` as `interface{}`: a byte slice, or the
constant `jwt.UnsafeAllowNoneSignatureType`. -/
inductive Key
  | bytes (b : Bytes)
  | allowNoneSignature
  deriving DecidableEq, Repr

/-- The struct `jwt.Token` as far as the program reads it. -/
structure Token where
  Method : SigningMethod
  Header : Header
  Claims : JWTClaims
  deriving DecidableEq, Repr

/-- The text layer of the library and the hash functions of the standard
library, over a type `Seg` of dot-separated token segments (base64url text).
A compact token `a.b.c` is the list `[a, b, c]`.

* `hash` : SHA-256/384/512;
* `encodeHeader`, `encodeClaims`, `encodeSegment` : `json.Marshal` followed by
  `EncodeSegment` (only the latter for a signature); `json.Marshal` of the claims
  fails when a `time.Time` lies outside the years 0 to 9999;
* `decodeHeader`, `decodeClaims`, `decodeSegment` : `DecodeSegment` followed by
  the JSON decoder; on failure, the error the parser reports;
* `signingString a b` : the bytes of the text `a + "." + b`. -/
structure JwtLib (Seg : Type) where
  hash : CryptoHash → Bytes → Bytes
  encodeHeader : Header → Seg
  decodeHeader : Seg → Except GoError Header
  encodeClaims : JWTClaims → Except GoError Seg
  decodeClaims : Seg → Except GoError JWTClaims
  encodeSegment : Bytes → Seg
  decodeSegment : Seg → Except GoError Bytes
  signingString : Seg → Seg → Bytes

/-- The range of an `int64`: of a `time.Duration`, and of the nanoseconds since
the epoch that `UnixNano` can hold (years 1678 to 2262). -/
def isInt64 (n : Int) : Prop := -9223372036854775808 ≤ n ∧ n < 9223372036854775808

instance (n : Int) : Decidable (isInt64 n) := by
  unfold isInt64
  exact inferInstance

/-- Instants within 2^64 nanoseconds of the epoch (years 1385 to 2554): inside the
years 0 to 9999 that `time.Time.MarshalJSON` accepts, in every time zone. -/
def marshalsTime (t : Time) : Prop := -18446744073709551616 ≤ t ∧ t < 18446744073709551616

instance (t : Time) : Decidable (marshalsTime t) := by
  unfold marshalsTime
  exact inferInstance

/-- A `*NumericDate` that its JSON form, a number of seconds, renders exactly:
nil, or a whole number of seconds within the same range. -/
def marshalsDate (d : Option Time) : Prop :=
  match d with
  | Option.none => True
  | some t => t % Second = 0 ∧ marshalsTime t

instance (d : Option Time) : Decidable (marshalsDate d) := by
  unfold marshalsDate
  cases d <;> exact inferInstance

/-- Clock readings that `UnixNano` can hold and that are not before the epoch. -/
def IssueEnv.valid (env : IssueEnv) : Prop :=
  (0 ≤ env.now1 ∧ isInt64 env.now1) ∧ (0 ≤ env.now2 ∧ isInt64 env.now2)

instance (env : IssueEnv) : Decidable env.valid := by
  unfold IssueEnv.valid
  exact inferInstance

/-- Claims that `json.Marshal` writes and `json.Unmarshal` reads back unchanged. -/
def JWTClaims.marshals (c : JWTClaims) : Prop :=
  marshalsTime c.payload.IssuedAt ∧ marshalsTime c.payload.ExpiredAt ∧
    marshalsDate c.registered.ExpiresAt ∧ marshalsDate c.registered.NotBefore ∧
    marshalsDate c.registered.IssuedAt

instance (c : JWTClaims) : Decidable c.marshals := by
  unfold JWTClaims.marshals
  exact inferInstance

/-- Decoding inverts encoding: what `EncodeSegment`/`json.Marshal` produce,
`DecodeSegment`/`json.Unmarshal` read back; claims within `JWTClaims.marshals`
are encoded without error. -/
structure JwtLib.Lawful {Seg : Type} (L : JwtLib Seg) : Prop where
  header : ∀ h, L.decodeHeader (L.encodeHeader h) = .ok h
  claims : ∀ c, c.marshals → ∃ s, L.encodeClaims c = .ok s ∧ L.decodeClaims s = .ok c
  segment : ∀ b, L.decodeSegment (L.encodeSegment b) = .ok b

/-- The block size in bytes of each hash (`hash.Hash.BlockSize`). -/
def CryptoHash.BlockSize : CryptoHash → Nat
  | .SHA256 => 64
  | .SHA384 => 128
  | .SHA512 => 128

/-- The key block of `crypto/hmac.New`: a key longer than the block is hashed,
then the key is copied into a zeroed block. -/
def hmacKeyBlock {Seg : Type} (L : JwtLib Seg) (h : CryptoHash) (key : Bytes) : Bytes :=
  let k := if key.length > h.BlockSize then L.hash h key else key
  (k ++ List.replicate (h.BlockSize - k.length) 0).take h.BlockSize

/-- The function `hmac.New(h, key)` followed by `Write(msg)` and `Sum(nil)`. -/
def hmacSum {Seg : Type} (L : JwtLib Seg) (h : CryptoHash) (key msg : Bytes) : Bytes :=
  let block := hmacKeyBlock L h key
  let ipad := block.map (fun b => b ^^^ 0x36)
  let opad := block.map (fun b => b ^^^ 0x5c)
  L.hash h (opad ++ L.hash h (ipad ++ msg))

/-- The library function `newError(message, err, more...)`. -/
def newError (message : String) (err : Sentinel) (more : List GoError) : GoError :=
  let head := if message = "" then err.Error else err.Error ++ ": " ++ message
  .wrapped (more.foldl (fun acc e => acc ++ ": " ++ e.Error) head)
    (err :: more.flatMap GoError.chain)

/-- The method `Sign` of the signing methods, for the keys of type `Key`. -/
def SigningMethod.Sign {Seg : Type} (L : JwtLib Seg) (m : SigningMethod)
    (signingString : Bytes) (key : Key) : Except GoError Bytes :=
  match m, key with
  | .hmac h, .bytes k => .ok (hmacSum L h k signingString)
  | .none, .allowNoneSignature => .ok []
  | .none, _ => .error (.sentinel .jwtNoneSignatureTypeDisallowedError)
  | _, _ => .error (.sentinel .jwtErrInvalidKeyType)

/-- The method `Verify` of the signing methods, for the keys of type `Key`. -/
def SigningMethod.Verify {Seg : Type} (L : JwtLib Seg) (m : SigningMethod)
    (signingString sig : Bytes) (key : Key) : Except GoError Unit :=
  match m, key with
  | .hmac h, .bytes k =>
    if sig = hmacSum L h k signingString then .ok ()
    else .error (.sentinel .jwtErrSignatureInvalid)
  | .none, .allowNoneSignature =>
    if sig = [] then .ok () else .error (.sentinel .jwtErrSignatureInvalid)
  | .none, _ => .error (.sentinel .jwtNoneSignatureTypeDisallowedError)
  | _, _ => .error (.sentinel .jwtErrInvalidKeyType)

/-- The function `jwt.NewNumericDate`: the time truncated to `TimePrecision`,
which is one second. -/
def NewNumericDate (t : Time) : Time := t - t % Second

/-- The function `jwt.NewWithClaims`. -/
def NewWithClaims (method : SigningMethod) (claims : JWTClaims) : Token :=
  { Method := method
    Header := { typ := "JWT", alg := some method.Alg }
    Claims := claims }

/-- The method `Token.SignedString`. -/
def Token.SignedString {Seg : Type} (L : JwtLib Seg) (t : Token) (key : Key) :
    Except GoError (List Seg) :=
  let h := L.encodeHeader t.Header
  match L.encodeClaims t.Claims with
  | .error err => .error err
  | .ok c =>
    match t.Method.Sign L (L.signingString h c) key with
    | .error err => .error err
    | .ok sig => .ok [h, c, L.encodeSegment sig]

/-- The method `Validator.Validate` with the default options: `exp` and `nbf`
are checked against the clock when present, nothing else is; the texts of the
failures are joined with ", " (`joinedError`). -/
def Validate (now : Time) (claims : JWTClaims) : Except GoError Unit :=
  let expErr : List Sentinel :=
    match claims.registered.ExpiresAt with
    | some exp => if now < exp then [] else [.jwtErrTokenExpired]
    | Option.none => []
  let nbfErr : List Sentinel :=
    match claims.registered.NotBefore with
    | some nbf => if now < nbf then [.jwtErrTokenNotValidYet] else []
    | Option.none => []
  match expErr ++ nbfErr with
  | [] => .ok ()
  | errs => .error (.wrapped (", ".intercalate (errs.map Sentinel.Error)) errs)

/-- The method `Parser.ParseUnverified`, on the segments of the token. -/
def ParseUnverified {Seg : Type} (L : JwtLib Seg) (tokenString : List Seg) :
    Except GoError (Token × Seg × Seg × Seg) :=
  match tokenString with
  | [p0, p1, p2] =>
    match L.decodeHeader p0 with
    | .error err => .error err
    | .ok header =>
      match L.decodeClaims p1 with
      | .error err => .error err
      | .ok claims =>
        match header.alg with
        | Option.none =>
          .error (newError "signing method (alg) is unspecified" .jwtErrTokenUnverifiable [])
        | some alg =>
          match GetSigningMethod alg with
          | Option.none =>
            .error (newError "signing method (alg) is unavailable" .jwtErrTokenUnverifiable [])
          | some method =>
            .ok ({ Method := method, Header := header, Claims := claims }, p0, p1, p2)
  | _ => .error (newError "token contains an invalid number of segments" .jwtErrTokenMalformed [])

/-- The function `jwt.ParseWithClaims` with the default parser; `now` is the
reading of the clock taken by the claims validator. -/
def ParseWithClaims {Seg : Type} (L : JwtLib Seg) (now : Time) (tokenString : List Seg)
    (keyFunc : Token → Except GoError Key) : Except GoError Token :=
  match ParseUnverified L tokenString with
  | .error err => .error err
  | .ok (token, p0, p1, p2) =>
    match L.decodeSegment p2 with
    | .error err => .error err
    | .ok sig =>
      match keyFunc token with
      | .error err =>
        .error (newError "error while executing keyfunc" .jwtErrTokenUnverifiable [err])
      | .ok key =>
        match token.Method.Verify L (L.signingString p0 p1) sig key with
        | .error err => .error (newError "" .jwtErrTokenSignatureInvalid [err])
        | .ok () =>
          match Validate now token.Claims with
          | .error err => .error (newError "" .jwtErrTokenInvalidClaims [err])
          | .ok () => .ok token

/-! ## token/jwt_maker.go -/

/-- The struct `JWTMaker`. -/
structure JWTMaker where
  secretKey : Bytes
  deriving DecidableEq, Repr

/-- The function `NewJWTMaker`. -/
def NewJWTMaker (secretKey : Bytes) : Except GoError JWTMaker :=
  if secretKey.length < minSecretKeySize then
    .error (.sentinel .ErrInvalidKeySize)
  else
    .ok { secretKey := secretKey }

/-- The method `JWTMaker.CreateToken`. -/
def JWTMaker.CreateToken {Seg : Type} (L : JwtLib Seg) (maker : JWTMaker) (env : IssueEnv)
    (username : String) (duration : Duration) : Except GoError (List Seg) :=
  let payload := NewPayload env username duration
  let claims : JWTClaims :=
    { payload := payload
      registered := { Issuer := "server", ExpiresAt := some (NewNumericDate payload.ExpiredAt) } }
  let jwtToken := NewWithClaims SigningMethodHS256 claims
  jwtToken.SignedString L (.bytes maker.secretKey)

/-- The closure `keyFunc` of `JWTMaker.VerifyToken`. -/
def JWTMaker.keyFunc (maker : JWTMaker) (token : Token) : Except GoError Key :=
  if !token.Method.isHMAC then
    .error (.sentinel .ErrInvalidToken)
  else
    .ok (.bytes maker.secretKey)

/-- The method `JWTMaker.VerifyToken`; `now` is the clock at verification. The
type assertion on `jwtToken.Claims` cannot fail: the parser fills the
`*JWTClaims` it was given. -/
def JWTMaker.VerifyToken {Seg : Type} (L : JwtLib Seg) (maker : JWTMaker) (now : Time)
    (token : List Seg) : Except GoError Payload :=
  match ParseWithClaims L now token maker.keyFunc with
  | .error err => .error err
  | .ok jwtToken => .ok jwtToken.Claims.payload

/-! ## utils -/

/-- A finite `float64`: the value `(-1)^neg * mant * 2^exp`. The JSON decoder
yields finite values only. -/
structure Float64 where
  neg : Bool
  mant : Nat
  exp : Int
  deriving DecidableEq, Repr

/-- The zero-value test of the `required` rule on a float (`reflect.Value.IsZero`). -/
def Float64.isZero (d : Float64) : Bool := d.mant == 0

/-- The comparison `d >= 0`. -/
def Float64.nonneg (d : Float64) : Bool := !d.neg || d.mant == 0

/-- The function `FormottedDecimalToString`: `fmt.Sprintf("%.2f", d)`, the value
rounded to two decimals, halves to even. -/
def FormottedDecimalToString (d : Float64) : String :=
  let num := d.mant * 100 * 2 ^ d.exp.toNat
  let den := 2 ^ (-d.exp).toNat
  let q := num / den
  let r := num % den
  let n := if 2 * r < den then q else if den < 2 * r then q + 1 else if q % 2 = 0 then q else q + 1
  (if d.neg then "-" else "") ++ toString (n / 100) ++ "." ++
    (if n % 100 < 10 then "0" else "") ++ toString (n % 100)

/-- The constant `Breakfast`. -/
def Breakfast : String := "breakfast"

/-- The constant `Lunch`. -/
def Lunch : String := "lunch"

/-- The constant `Dinner`. -/
def Dinner : String := "dinner"

/-- The function `IsValidCatalog`. -/
def IsValidCatalog (catalog : String) : Bool :=
  if catalog = Breakfast ∨ catalog = Lunch ∨ catalog = Dinner then true else false

/-- The fields of `utils.Config` the server reads. -/
structure Config where
  TokenSecretKey : Bytes
  AccessTokenDuration : Duration
  deriving DecidableEq, Repr

/-! ## internal/database: rows, parameters, the `Store` interface -/

/-- The row type `User`. -/
structure User where
  ID : UUID
  Username : String
  HashedPassword : String
  CreatedAt : Time
  deriving DecidableEq, Repr

/-- The row type `Product`. -/
structure Product where
  ID : UUID
  UserID : UUID
  Name : String
  Price : String
  Description : String
  CreatedAt : Time
  deriving DecidableEq, Repr

/-- The row type `Menu`. -/
structure Menu where
  ID : UUID
  UserID : UUID
  ShopName : String
  ProductID : UUID
  ProductName : String
  ProductPrice : String
  Catalog : String
  Description : String
  CreatedAt : Time
  deriving DecidableEq, Repr

/-- The row type `Order`. -/
structure Order where
  ID : UUID
  ShopName : String
  OrderID : UUID
  OrderDay : String
  ProductName : String
  ProductPrice : String
  Amount : Int
  Status : String
  CreatedAt : Time
  deriving DecidableEq, Repr

/-- The struct `CreateUserParams`. -/
structure CreateUserParams where
  ID : UUID
  Username : String
  HashedPassword : String
  deriving DecidableEq, Repr

/-- The struct `CreateProductParams`. -/
structure CreateProductParams where
  ID : UUID
  UserID : UUID
  Name : String
  Price : String
  Description : String
  deriving DecidableEq, Repr

/-- The struct `UpdateProductParams`. -/
structure UpdateProductParams where
  UserID : UUID
  ID : UUID
  Name : String
  Price : String
  Description : String
  deriving DecidableEq, Repr

/-- The struct `DeleteProductParams`. -/
structure DeleteProductParams where
  UserID : UUID
  ID : UUID
  deriving DecidableEq, Repr

/-- The struct `AddMenuItemParams`. -/
structure AddMenuItemParams where
  ID : UUID
  UserID : UUID
  ShopName : String
  ProductID : UUID
  ProductName : String
  ProductPrice : String
  Catalog : String
  Description : String
  deriving DecidableEq, Repr

/-- The struct `UpdateMenuItemParams`. -/
structure UpdateMenuItemParams where
  UserID : UUID
  ID : UUID
  ProductName : String
  ProductPrice : String
  Catalog : String
  Description : String
  deriving DecidableEq, Repr

/-- The struct `DeleteMenuItemParams`. -/
structure DeleteMenuItemParams where
  UserID : UUID
  ID : UUID
  deriving DecidableEq, Repr

/-- The struct `CreateOrderItemParams`. -/
structure CreateOrderItemParams where
  ID : UUID
  ShopName : String
  OrderID : UUID
  OrderDay : String
  ProductName : String
  ProductPrice : String
  Amount : Int
  Status : String
  deriving DecidableEq, Repr

/-- The struct `UpdateOrderItemParams`. -/
structure UpdateOrderItemParams where
  ShopName : String
  ID : UUID
  Amount : Int
  Status : String
  deriving DecidableEq, Repr

/-- The struct `DeleteOrderItemParams`. -/
structure DeleteOrderItemParams where
  ShopName : String
  ID : UUID
  deriving DecidableEq, Repr

/-- The struct `GetOrdersByDayParams`. -/
structure GetOrdersByDayParams where
  ShopName : String
  OrderDay : String
  deriving DecidableEq, Repr

/-- The struct `GetOrdersByOrderIDParams`. -/
structure GetOrdersByOrderIDParams where
  ShopName : String
  OrderID : UUID
  deriving DecidableEq, Repr

/-- One invocation of a method of the `Store` interface, with its argument. -/
inductive StoreCall
  | CreateUser (arg : CreateUserParams)
  | GetUser (username : String)
  | CreateProduct (arg : CreateProductParams)
  | GetAllProducts (userID : UUID)
  | UpdateProduct (arg : UpdateProductParams)
  | DeleteProduct (arg : DeleteProductParams)
  | AddMenuItem (arg : AddMenuItemParams)
  | UpdateMenuItem (arg : UpdateMenuItemParams)
  | DeleteMenuItem (arg : DeleteMenuItemParams)
  | GetAllMenuItems (shopName : String)
  | CreateOrderItem (arg : CreateOrderItemParams)
  | UpdateOrderItem (arg : UpdateOrderItemParams)
  | DeleteOrderItem (arg : DeleteOrderItemParams)
  | GetOrdersByDay (arg : GetOrdersByDayParams)
  | GetOrdersByOrderID (arg : GetOrdersByOrderIDParams)
  deriving DecidableEq, Repr

/-- The interface `Store` as the handlers use it: each method maps its argument
and the state `σ` of the collaborator to a result and a new state. -/
structure Store (σ : Type) where
  CreateUser : CreateUserParams → σ → Except GoError User × σ
  GetUser : String → σ → Except GoError User × σ
  CreateProduct : CreateProductParams → σ → Except GoError Product × σ
  GetAllProducts : UUID → σ → Except GoError (List Product) × σ
  UpdateProduct : UpdateProductParams → σ → Except GoError Product × σ
  DeleteProduct : DeleteProductParams → σ → Except GoError Unit × σ
  AddMenuItem : AddMenuItemParams → σ → Except GoError Menu × σ
  UpdateMenuItem : UpdateMenuItemParams → σ → Except GoError Menu × σ
  DeleteMenuItem : DeleteMenuItemParams → σ → Except GoError Unit × σ
  GetAllMenuItems : String → σ → Except GoError (List Menu) × σ
  CreateOrderItem : CreateOrderItemParams → σ → Except GoError Order × σ
  UpdateOrderItem : UpdateOrderItemParams → σ → Except GoError Order × σ
  DeleteOrderItem : DeleteOrderItemParams → σ → Except GoError Unit × σ
  GetOrdersByDay : GetOrdersByDayParams → σ → Except GoError (List Order) × σ
  GetOrdersByOrderID : GetOrdersByOrderIDParams → σ → Except GoError (List Order) × σ

/-! ## gin: context, binding, responses (model of the library) -/

/-- What a handler reads from its `*gin.Context`, for a request struct `β`:
the path parameters, the body as `encoding/json` decodes it into `β` (or the
decoding error), the value stored under `authorizationPayloadKey`, the
successive results of `uuid.New()`, and the environment of `CreateToken`. -/
structure Context (β : Type) where
  params : List (String × String)
  json : Except GoError β
  authPayload : Option Payload
  uuid : Nat → UUID
  issue : IssueEnv

/-- The method `ctx.Param(key)`: the empty string when the parameter is absent. -/
def Context.Param {β : Type} (ctx : Context β) (key : String) : String :=
  ((ctx.params.find? (fun p => p.1 == key)).map Prod.snd).getD ""

/-- The error of the validator: the fields that failed, each with the rule that
failed first. -/
def validationError (structName : String) (failed : List (String × String)) : GoError :=
  .other ("\n".intercalate (failed.map (fun f =>
    "Key: \x27" ++ structName ++ "." ++ f.1 ++ "\x27 Error:Field validation for \x27" ++ f.1 ++
      "\x27 failed on the \x27" ++ f.2 ++ "\x27 tag")))

/-- The rules of one field, in the order of its `binding` tag: the first rule
that fails, if any. -/
def checkField (field : String) (rules : List (String × Bool)) : List (String × String) :=
  match rules.find? (fun r => !r.2) with
  | some r => [(field, r.1)]
  | Option.none => []

/-- The validation step of `ShouldBindJSON` and `ShouldBindUri`. -/
def validateStruct {β : Type} (structName : String) (failed : List (String × String))
    (req : β) : Except GoError β :=
  if failed.isEmpty then .ok req else .error (validationError structName failed)

/-- The method `ctx.ShouldBindJSON(&req)`: the body decoded into the request
struct, then validated against its `binding` tags. -/
def ShouldBindJSON {β : Type} (ctx : Context β) (structName : String)
    (failed : β → List (String × String)) : Except GoError β :=
  match ctx.json with
  | .error err => .error err
  | .ok r => validateStruct structName (failed r) r

/-- The rule `alphanum`: one or more ASCII letters or digits. -/
def alphanum (s : String) : Bool := s != "" && s.data.all Char.isAlphanum

/-- The rule `required` on a string. -/
def requiredString (s : String) : Bool := s != ""

/-- The rule `required` on a `uuid.UUID`. -/
def requiredUUID (u : UUID) : Bool := u != 0

/-- The rule `min=n` on a string: at least `n` characters. -/
def minLen (n : Nat) (s : String) : Bool := decide (n ≤ s.length)

/-- The struct `userResponse` of `api/user.go`. -/
structure userResponse where
  ID : UUID
  Username : String
  CreatedAt : Time
  deriving DecidableEq, Repr

/-- The struct `loginUserRespone` of `api/user.go`; the token is its segments. -/
structure loginUserRespone (Seg : Type) where
  AccessToken : List Seg
  User : userResponse
  deriving DecidableEq, Repr

/-- A value written by `ctx.JSON`. `H` is a `gin.H` with string values; `null`
is a nil slice. -/
inductive Body (Seg : Type)
  | H (fields : List (String × String))
  | str (s : String)
  | null
  | user (r : userResponse)
  | login (r : loginUserRespone Seg)
  | product (p : Product)
  | products (ps : List Product)
  | menu (m : Menu)
  | menus (ms : List Menu)
  | order (o : Order)
  | orders (os : List Order)
  deriving DecidableEq, Repr

/-- The function `errorResponse` of `api/server.go`. -/
def errorResponse {Seg : Type} (err : GoError) : Body Seg :=
  .H [("error", err.Error)]

/-- The function `textResponse` of `api/server.go`. -/
def textResponse {Seg : Type} (s : String) : Body Seg :=
  .H [("respond", s)]

/-- What is written to the response: one `ctx.JSON(status, body)`, a status with
a plain text (written by the framework itself), or nothing because the handler
panicked. -/
inductive Reply (Seg : Type)
  | json (status : Nat) (body : Body Seg)
  | plain (status : Nat) (text : String)
  | panic
  deriving DecidableEq, Repr

/-- The run of a handler: its reply, the store calls it made in order, and the
state of the store afterwards. -/
structure Outcome (σ Seg : Type) where
  reply : Reply Seg
  calls : List StoreCall
  state : σ

/-- The status written, if any. -/
def Outcome.status {σ Seg : Type} (o : Outcome σ Seg) : Option Nat :=
  match o.reply with
  | .json status _ => some status
  | .plain status _ => some status
  | .panic => Option.none

/-- The constant `http.StatusOK`. -/
def StatusOK : Nat := 200

/-- The constant `http.StatusBadRequest`. -/
def StatusBadRequest : Nat := 400

/-- The constant `http.StatusUnauthorized`. -/
def StatusUnauthorized : Nat := 401

/-- The constant `http.StatusForbidden`. -/
def StatusForbidden : Nat := 403

/-- The constant `http.StatusNotFound`. -/
def StatusNotFound : Nat := 404

/-- The constant `http.StatusInternalServerError`. -/
def StatusInternalServerError : Nat := 500

/-! ## api/server.go: the server -/

/-- The struct `Server`, with the collaborators of `utils/password.go`
(`HashPassword`, `CheckPassword`) and the text layer of the token library. -/
structure Server (σ Seg : Type) where
  config : Config
  store : Store σ
  tokenMaker : JWTMaker
  jwt : JwtLib Seg
  HashPassword : String → Except GoError String
  CheckPassword : String → String → Except GoError Unit

/-! ## api/user.go -/

/-- The struct `createUserRequest`. -/
structure createUserRequest where
  Username : String
  Password : String
  deriving DecidableEq, Repr

/-- The `binding` tags of `createUserRequest`. -/
def createUserRequest.failed (r : createUserRequest) : List (String × String) :=
  checkField "Username" [("required", requiredString r.Username), ("alphanum", alphanum r.Username)] ++
  checkField "Password" [("required", requiredString r.Password), ("min", minLen 8 r.Password)]

/-- The call `ctx.ShouldBindJSON(&req)` for `createUserRequest`. -/
def createUserRequest.bind (ctx : Context createUserRequest) : Except GoError createUserRequest :=
  ShouldBindJSON ctx "createUserRequest" createUserRequest.failed

/-- The handler `createUser`. -/
def Server.createUser {σ Seg : Type} (server : Server σ Seg) (ctx : Context createUserRequest)
    (st : σ) : Outcome σ Seg :=
  match createUserRequest.bind ctx with
  | .error err => ⟨.json StatusBadRequest (errorResponse err), [], st⟩
  | .ok req =>
    match server.HashPassword req.Password with
    | .error err => ⟨.json StatusBadRequest (errorResponse err), [], st⟩
    | .ok hashedPassword =>
      let arg : CreateUserParams :=
        { ID := ctx.uuid 0, Username := req.Username, HashedPassword := hashedPassword }
      match server.store.CreateUser arg st with
      | (.error err, st1) =>
        match err with
        | .pq "23505" _ => ⟨.json StatusForbidden (errorResponse err), [.CreateUser arg], st1⟩
        | _ => ⟨.json StatusInternalServerError (errorResponse err), [.CreateUser arg], st1⟩
      | (.ok user, st1) =>
        ⟨.json StatusOK (.user { ID := user.ID, Username := user.Username, CreatedAt := user.CreatedAt }),
          [.CreateUser arg], st1⟩

/-- The struct `getUserRequest`. -/
structure getUserRequest where
  Username : String
  deriving DecidableEq, Repr

/-- The `binding` tags of `getUserRequest`. -/
def getUserRequest.failed (r : getUserRequest) : List (String × String) :=
  checkField "Username"
    [("required", requiredString r.Username), ("alphanum", alphanum r.Username),
     ("min", minLen 1 r.Username)]

/-- The call `ctx.ShouldBindUri(&req)` for `getUserRequest`. -/
def getUserRequest.bind {β : Type} (ctx : Context β) : Except GoError getUserRequest :=
  let r : getUserRequest := { Username := ctx.Param "username" }
  validateStruct "getUserRequest" r.failed r

/-- The handler `getUser`. The branch `err == nil && len(req.Username) < 1`
evaluates `errorResponse(nil)`, a nil dereference. -/
def Server.getUser {σ Seg : Type} (server : Server σ Seg) (ctx : Context Unit) (st : σ) :
    Outcome σ Seg :=
  match getUserRequest.bind ctx with
  | .error err => ⟨.json StatusBadRequest (errorResponse err), [], st⟩
  | .ok req =>
    if req.Username.utf8ByteSize < 1 then ⟨.panic, [], st⟩
    else
      match ctx.authPayload with
      | Option.none => ⟨.panic, [], st⟩
      | some authPayload =>
        if req.Username ≠ authPayload.Username then
          ⟨.json StatusUnauthorized (errorResponse (.other "unauthorized user")), [], st⟩
        else
          match server.store.GetUser req.Username st with
          | (.error err, st1) =>
            if err = .sentinel .sqlErrNoRows then
              ⟨.json StatusNotFound (errorResponse err), [.GetUser req.Username], st1⟩
            else
              ⟨.json StatusInternalServerError (errorResponse err), [.GetUser req.Username], st1⟩
          | (.ok user, st1) =>
            ⟨.json StatusOK
                (.user { ID := user.ID, Username := user.Username, CreatedAt := user.CreatedAt }),
              [.GetUser req.Username], st1⟩

/-- The struct `loginUserRequest`. -/
structure loginUserRequest where
  Username : String
  Password : String
  deriving DecidableEq, Repr

/-- The `binding` tags of `loginUserRequest`. -/
def loginUserRequest.failed (r : loginUserRequest) : List (String × String) :=
  checkField "Username"
    [("required", requiredString r.Username), ("alphanum", alphanum r.Username),
     ("min", minLen 1 r.Username)] ++
  checkField "Password" [("required", requiredString r.Password), ("min", minLen 8 r.Password)]

/-- The call `ctx.ShouldBindJSON(&req)` for `loginUserRequest`. -/
def loginUserRequest.bind (ctx : Context loginUserRequest) : Except GoError loginUserRequest :=
  ShouldBindJSON ctx "loginUserRequest" loginUserRequest.failed

/-- The handler `loginUser`. -/
def Server.loginUser {σ Seg : Type} (server : Server σ Seg) (ctx : Context loginUserRequest)
    (st : σ) : Outcome σ Seg :=
  match loginUserRequest.bind ctx with
  | .error err => ⟨.json StatusBadRequest (errorResponse err), [], st⟩
  | .ok req =>
    match server.store.GetUser req.Username st with
    | (.error err, st1) =>
      if err = .sentinel .sqlErrNoRows then
        ⟨.json StatusNotFound (errorResponse err), [.GetUser req.Username], st1⟩
      else
        ⟨.json StatusInternalServerError (errorResponse err), [.GetUser req.Username], st1⟩
    | (.ok user, st1) =>
      match server.CheckPassword req.Password user.HashedPassword with
      | .error err => ⟨.json StatusUnauthorized (errorResponse err), [.GetUser req.Username], st1⟩
      | .ok () =>
        match server.tokenMaker.CreateToken server.jwt ctx.issue user.Username
            server.config.AccessTokenDuration with
        | .error err =>
          ⟨.json StatusInternalServerError (errorResponse err), [.GetUser req.Username], st1⟩
        | .ok token =>
          let userRes : userResponse :=
            { ID := user.ID, Username := user.Username, CreatedAt := user.CreatedAt }
          ⟨.json StatusOK (.login { AccessToken := token, User := userRes }),
            [.GetUser req.Username], st1⟩

/-! ## api/product.go -/

/-- The struct `usersProductsUri`. -/
structure usersProductsUri where
  Username : String
  deriving DecidableEq, Repr

/-- The `binding` tags of `usersProductsUri`. -/
def usersProductsUri.failed (r : usersProductsUri) : List (String × String) :=
  checkField "Username"
    [("required", requiredString r.Username), ("alphanum", alphanum r.Username),
     ("min", minLen 1 r.Username)]

/-- The call `ctx.ShouldBindUri(&uri)` for `usersProductsUri`. -/
def usersProductsUri.bind {β : Type} (ctx : Context β) : Except GoError usersProductsUri :=
  let r : usersProductsUri := { Username := ctx.Param "username" }
  validateStruct "usersProductsUri" r.failed r

/-- The struct `createProductRequest`. -/
structure createProductRequest where
  UserID : UUID
  Username : String
  Name : String
  Price : Float64
  Description : String
  deriving DecidableEq, Repr

/-- The `binding` tags of `createProductRequest`. -/
def createProductRequest.failed (r : createProductRequest) : List (String × String) :=
  checkField "UserID" [("required", requiredUUID r.UserID)] ++
  checkField "Username" [("required", requiredString r.Username)] ++
  checkField "Name" [("required", requiredString r.Name)] ++
  checkField "Price" [("required", !r.Price.isZero), ("min", r.Price.nonneg)] ++
  checkField "Description" [("required", requiredString r.Description)]

/-- The call `ctx.ShouldBindJSON(&req)` for `createProductRequest`. -/
def createProductRequest.bind (ctx : Context createProductRequest) :
    Except GoError createProductRequest :=
  ShouldBindJSON ctx "createProductRequest" createProductRequest.failed

/-- The handler `createProduct`. -/
def Server.createProduct {σ Seg : Type} (server : Server σ Seg)
    (ctx : Context createProductRequest) (st : σ) : Outcome σ Seg :=
  match createProductRequest.bind ctx with
  | .error err => ⟨.json StatusBadRequest (errorResponse err), [], st⟩
  | .ok req =>
    match ctx.authPayload with
    | Option.none => ⟨.panic, [], st⟩
    | some authPayload =>
      if req.Username ≠ authPayload.Username then
        ⟨.json StatusUnauthorized (errorResponse (.other "unauthorized user")), [], st⟩
      else
        let arg : CreateProductParams :=
          { ID := ctx.uuid 0
            UserID := req.UserID
            Name := req.Name
            Price := FormottedDecimalToString req.Price
            Description := req.Description }
        match server.store.CreateProduct arg st with
        | (.error err, st1) =>
          ⟨.json StatusInternalServerError (errorResponse err), [.CreateProduct arg], st1⟩
        | (.ok product, st1) => ⟨.json StatusOK (.product product), [.CreateProduct arg], st1⟩

/-- The struct `getAllProductsRequest`. -/
structure getAllProductsRequest where
  UserID : UUID
  deriving DecidableEq, Repr

/-- The `binding` tags of `getAllProductsRequest`. -/
def getAllProductsRequest.failed (r : getAllProductsRequest) : List (String × String) :=
  checkField "UserID" [("required", requiredUUID r.UserID)]

/-- The call `ctx.ShouldBindJSON(&req)` for `getAllProductsRequest`. -/
def getAllProductsRequest.bind (ctx : Context getAllProductsRequest) :
    Except GoError getAllProductsRequest :=
  ShouldBindJSON ctx "getAllProductsRequest" getAllProductsRequest.failed

/-- The handler `getAllProducts`. -/
def Server.getAllProducts {σ Seg : Type} (server : Server σ Seg)
    (ctx : Context getAllProductsRequest) (st : σ) : Outcome σ Seg :=
  match usersProductsUri.bind ctx with
  | .error err => ⟨.json StatusBadRequest (errorResponse err), [], st⟩
  | .ok uri =>
    match getAllProductsRequest.bind ctx with
    | .error err => ⟨.json StatusBadRequest (errorResponse err), [], st⟩
    | .ok req =>
      match ctx.authPayload with
      | Option.none => ⟨.panic, [], st⟩
      | some authPayload =>
        if uri.Username ≠ authPayload.Username then
          ⟨.json StatusUnauthorized (errorResponse (.other "unauthorized user")), [], st⟩
        else
          match server.store.GetAllProducts req.UserID st with
          | (.error err, st1) =>
            ⟨.json StatusInternalServerError (errorResponse err), [.GetAllProducts req.UserID], st1⟩
          | (.ok products, st1) =>
            ⟨.json StatusOK (.products products), [.GetAllProducts req.UserID], st1⟩

/-- The struct `updateProductRequest`. -/
structure updateProductRequest where
  UserID : UUID
  ID : UUID
  Name : String
  Price : Float64
  Description : String
  deriving DecidableEq, Repr

/-- The `binding` tags of `updateProductRequest`. -/
def updateProductRequest.failed (r : updateProductRequest) : List (String × String) :=
  checkField "UserID" [("required", requiredUUID r.UserID)] ++
  checkField "ID" [("required", requiredUUID r.ID)] ++
  checkField "Name" [("required", requiredString r.Name)] ++
  checkField "Price" [("required", !r.Price.isZero)]

/-- The call `ctx.ShouldBindJSON(&req)` for `updateProductRequest`. -/
def updateProductRequest.bind (ctx : Context updateProductRequest) :
    Except GoError updateProductRequest :=
  ShouldBindJSON ctx "updateProductRequest" updateProductRequest.failed

/-- The handler `updateProduct`. -/
def Server.updateProduct {σ Seg : Type} (server : Server σ Seg)
    (ctx : Context updateProductRequest) (st : σ) : Outcome σ Seg :=
  match usersProductsUri.bind ctx with
  | .error err => ⟨.json StatusBadRequest (errorResponse err), [], st⟩
  | .ok uri =>
    match updateProductRequest.bind ctx with
    | .error err => ⟨.json StatusBadRequest (errorResponse err), [], st⟩
    | .ok req =>
      match ctx.authPayload with
      | Option.none => ⟨.panic, [], st⟩
      | some authPayload =>
        if uri.Username ≠ authPayload.Username then
          ⟨.json StatusUnauthorized (errorResponse (.other "unauthorized user")), [], st⟩
        else
          let arg : UpdateProductParams :=
            { UserID := req.UserID
              ID := req.ID
              Name := req.Name
              Price := FormottedDecimalToString req.Price
              Description := req.Description }
          match server.store.UpdateProduct arg st with
          | (.error err, st1) =>
            ⟨.json StatusInternalServerError (errorResponse err), [.UpdateProduct arg], st1⟩
          | (.ok updatedProduct, st1) =>
            ⟨.json StatusOK (.product updatedProduct), [.UpdateProduct arg], st1⟩

/-- The struct `deleteProductRequest`. -/
structure deleteProductRequest where
  UserID : UUID
  Username : String
  ProductID : UUID
  deriving DecidableEq, Repr

/-- The `binding` tags of `deleteProductRequest`. -/
def deleteProductRequest.failed (r : deleteProductRequest) : List (String × String) :=
  checkField "UserID" [("required", requiredUUID r.UserID)] ++
  checkField "Username"
    [("required", requiredString r.Username), ("alphanum", alphanum r.Username),
     ("min", minLen 1 r.Username)] ++
  checkField "ProductID" [("required", requiredUUID r.ProductID)]

/-- The call `ctx.ShouldBindJSON(&req)` for `deleteProductRequest`. -/
def deleteProductRequest.bind (ctx : Context deleteProductRequest) :
    Except GoError deleteProductRequest :=
  ShouldBindJSON ctx "deleteProductRequest" deleteProductRequest.failed

/-- The handler `deleteProduct`. -/
def Server.deleteProduct {σ Seg : Type} (server : Server σ Seg)
    (ctx : Context deleteProductRequest) (st : σ) : Outcome σ Seg :=
  match deleteProductRequest.bind ctx with
  | .error err => ⟨.json StatusBadRequest (errorResponse err), [], st⟩
  | .ok req =>
    match ctx.authPayload with
    | Option.none => ⟨.panic, [], st⟩
    | some authPayload =>
      if req.Username ≠ authPayload.Username then
        ⟨.json StatusUnauthorized (errorResponse (.other "unauthorized user")), [], st⟩
      else
        let arg : DeleteProductParams := { UserID := req.UserID, ID := req.ProductID }
        match server.store.DeleteProduct arg st with
        | (.error err, st1) =>
          ⟨.json StatusInternalServerError (errorResponse err), [.DeleteProduct arg], st1⟩
        | (.ok (), st1) => ⟨.json StatusOK (.str "delete successfully"), [.DeleteProduct arg], st1⟩

/-! ## api/menu.go -/

/-- The struct `addMenuItemRequest`. -/
structure addMenuItemRequest where
  UserID : UUID
  ShopName : String
  ProductID : UUID
  ProductName : String
  ProductPrice : Float64
  Catalog : String
  Description : String
  deriving DecidableEq, Repr

/-- The `binding` tags of `addMenuItemRequest`. -/
def addMenuItemRequest.failed (r : addMenuItemRequest) : List (String × String) :=
  checkField "UserID" [("required", requiredUUID r.UserID)] ++
  checkField "ShopName" [("required", requiredString r.ShopName)] ++
  checkField "ProductID" [("required", requiredUUID r.ProductID)] ++
  checkField "ProductName" [("required", requiredString r.ProductName)] ++
  checkField "ProductPrice" [("required", !r.ProductPrice.isZero)] ++
  checkField "Catalog" [("required", requiredString r.Catalog)] ++
  checkField "Description" [("required", requiredString r.Description)]

/-- The call `ctx.ShouldBindJSON(&req)` for `addMenuItemRequest`. -/
def addMenuItemRequest.bind (ctx : Context addMenuItemRequest) :
    Except GoError addMenuItemRequest :=
  ShouldBindJSON ctx "addMenuItemRequest" addMenuItemRequest.failed

/-- The handler `addMenuItem`. -/
def Server.addMenuItem {σ Seg : Type} (server : Server σ Seg)
    (ctx : Context addMenuItemRequest) (st : σ) : Outcome σ Seg :=
  match addMenuItemRequest.bind ctx with
  | .error err => ⟨.json StatusBadRequest (errorResponse err), [], st⟩
  | .ok req =>
    match ctx.authPayload with
    | Option.none => ⟨.panic, [], st⟩
    | some authPayload =>
      if authPayload.Username ≠ req.ShopName then
        ⟨.json StatusUnauthorized (errorResponse (.other "unauthorizated user")), [], st⟩
      else
        let arg : AddMenuItemParams :=
          { ID := ctx.uuid 0
            UserID := req.UserID
            ShopName := req.ShopName
            ProductID := req.ProductID
            ProductName := req.ProductName
            ProductPrice := FormottedDecimalToString req.ProductPrice
            Catalog := req.Catalog
            Description := req.Description }
        match server.store.AddMenuItem arg st with
        | (.error err, st1) =>
          ⟨.json StatusInternalServerError (errorResponse err), [.AddMenuItem arg], st1⟩
        | (.ok menuItem, st1) => ⟨.json StatusOK (.menu menuItem), [.AddMenuItem arg], st1⟩

/-- The struct `updateMenuItemRequest`. -/
structure updateMenuItemRequest where
  ID : UUID
  UserID : UUID
  ShopName : String
  ProductName : String
  ProductPrice : Float64
  Catalog : String
  Description : String
  deriving DecidableEq, Repr

/-- The `binding` tags of `updateMenuItemRequest`. -/
def updateMenuItemRequest.failed (r : updateMenuItemRequest) : List (String × String) :=
  checkField "ID" [("required", requiredUUID r.ID)] ++
  checkField "UserID" [("required", requiredUUID r.UserID)] ++
  checkField "ShopName" [("required", requiredString r.ShopName)] ++
  checkField "ProductName" [("required", requiredString r.ProductName)] ++
  checkField "ProductPrice" [("required", !r.ProductPrice.isZero)] ++
  checkField "Catalog" [("required", requiredString r.Catalog)] ++
  checkField "Description" [("required", requiredString r.Description)]

/-- The call `ctx.ShouldBindJSON(&req)` for `updateMenuItemRequest`. -/
def updateMenuItemRequest.bind (ctx : Context updateMenuItemRequest) :
    Except GoError updateMenuItemRequest :=
  ShouldBindJSON ctx "updateMenuItemRequest" updateMenuItemRequest.failed

/-- The handler `updateMenuItem`. -/
def Server.updateMenuItem {σ Seg : Type} (server : Server σ Seg)
    (ctx : Context updateMenuItemRequest) (st : σ) : Outcome σ Seg :=
  match updateMenuItemRequest.bind ctx with
  | .error err => ⟨.json StatusBadRequest (errorResponse err), [], st⟩
  | .ok req =>
    match ctx.authPayload with
    | Option.none => ⟨.panic, [], st⟩
    | some authPayload =>
      if authPayload.Username ≠ req.ShopName then
        ⟨.json StatusUnauthorized (errorResponse (.other "unauthorizated user")), [], st⟩
      else
        let arg : UpdateMenuItemParams :=
          { UserID := req.UserID
            ID := req.ID
            ProductName := req.ProductName
            ProductPrice := FormottedDecimalToString req.ProductPrice
            Catalog := req.Catalog
            Description := req.Description }
        match server.store.UpdateMenuItem arg st with
        | (.error err, st1) =>
          ⟨.json StatusInternalServerError (errorResponse err), [.UpdateMenuItem arg], st1⟩
        | (.ok updatedItem, st1) => ⟨.json StatusOK (.menu updatedItem), [.UpdateMenuItem arg], st1⟩

/-- The struct `deleteMenuItemRequest`. -/
structure deleteMenuItemRequest where
  ID : UUID
  UserID : UUID
  ShopName : String
  deriving DecidableEq, Repr

/-- The `binding` tags of `deleteMenuItemRequest`. -/
def deleteMenuItemRequest.failed (r : deleteMenuItemRequest) : List (String × String) :=
  checkField "ID" [("required", requiredUUID r.ID)] ++
  checkField "UserID" [("required", requiredUUID r.UserID)] ++
  checkField "ShopName" [("required", requiredString r.ShopName)]

/-- The call `ctx.ShouldBindJSON(&req)` for `deleteMenuItemRequest`. -/
def deleteMenuItemRequest.bind (ctx : Context deleteMenuItemRequest) :
    Except GoError deleteMenuItemRequest :=
  ShouldBindJSON ctx "deleteMenuItemRequest" deleteMenuItemRequest.failed

/-- The handler `deleteMenuItem`. -/
def Server.deleteMenuItem {σ Seg : Type} (server : Server σ Seg)
    (ctx : Context deleteMenuItemRequest) (st : σ) : Outcome σ Seg :=
  match deleteMenuItemRequest.bind ctx with
  | .error err => ⟨.json StatusBadRequest (errorResponse err), [], st⟩
  | .ok req =>
    match ctx.authPayload with
    | Option.none => ⟨.panic, [], st⟩
    | some authPayload =>
      if authPayload.Username ≠ req.ShopName then
        ⟨.json StatusUnauthorized (errorResponse (.other "unauthorizated user")), [], st⟩
      else
        let arg : DeleteMenuItemParams := { UserID := req.UserID, ID := req.ID }
        match server.store.DeleteMenuItem arg st with
        | (.error err, st1) =>
          ⟨.json StatusInternalServerError (errorResponse err), [.DeleteMenuItem arg], st1⟩
        | (.ok (), st1) =>
          ⟨.json StatusOK (textResponse "delete successfully"), [.DeleteMenuItem arg], st1⟩

/-- The struct `getAllMenuItemsUri`. -/
structure getAllMenuItemsUri where
  ShopName : String
  deriving DecidableEq, Repr

/-- The `binding` tags of `getAllMenuItemsUri`. -/
def getAllMenuItemsUri.failed (r : getAllMenuItemsUri) : List (String × String) :=
  checkField "ShopName" [("required", requiredString r.ShopName)]

/-- The call `ctx.ShouldBindUri(&uri)` for `getAllMenuItemsUri`. -/
def getAllMenuItemsUri.bind {β : Type} (ctx : Context β) : Except GoError getAllMenuItemsUri :=
  let r : getAllMenuItemsUri := { ShopName := ctx.Param "shop_name" }
  validateStruct "getAllMenuItemsUri" r.failed r

/-- The handler `getAllMenuItems`. -/
def Server.getAllMenuItems {σ Seg : Type} (server : Server σ Seg) (ctx : Context Unit)
    (st : σ) : Outcome σ Seg :=
  match getAllMenuItemsUri.bind ctx with
  | .error err => ⟨.json StatusBadRequest (errorResponse err), [], st⟩
  | .ok uri =>
    match server.store.GetAllMenuItems uri.ShopName st with
    | (.error err, st1) =>
      ⟨.json StatusInternalServerError (errorResponse err), [.GetAllMenuItems uri.ShopName], st1⟩
    | (.ok menuItems, st1) =>
      ⟨.json StatusOK (.menus menuItems), [.GetAllMenuItems uri.ShopName], st1⟩

/-! ## api/order.go -/

/-- The struct `createOrderItemRequest`. -/
structure createOrderItemRequest where
  ShopName : String
  OrderDay : String
  ProductName : String
  ProductPrice : Float64
  Amount : Int
  Status : String
  deriving DecidableEq, Repr

/-- The struct `createOrderRequest`; a nil `Orders` slice is `none`. -/
structure createOrderRequest where
  OrderID : UUID
  Orders : Option (List createOrderItemRequest)
  deriving DecidableEq, Repr

/-- The `binding` tags of `createOrderRequest`. On a slice, `required` asks for a
non-nil slice; the tag of `Orders` has no `dive`, so the validator does not
descend into the elements and the tags of `createOrderItemRequest` are never
evaluated. -/
def createOrderRequest.failed (r : createOrderRequest) : List (String × String) :=
  checkField "OrderID" [("required", requiredUUID r.OrderID)] ++
  checkField "Orders" [("required", r.Orders.isSome)]

/-- The call `ctx.ShouldBindJSON(&orderReq)` for `createOrderRequest`. -/
def createOrderRequest.bind (ctx : Context createOrderRequest) :
    Except GoError createOrderRequest :=
  ShouldBindJSON ctx "createOrderRequest" createOrderRequest.failed

/-- The argument `createOrders` builds for the item at index `i`. -/
def createOrderItemArg (ctx : Context createOrderRequest) (orderID : UUID) (i : Nat)
    (req : createOrderItemRequest) : CreateOrderItemParams :=
  { ID := ctx.uuid i
    ShopName := req.ShopName
    OrderID := orderID
    OrderDay := req.OrderDay
    ProductName := req.ProductName
    ProductPrice := FormottedDecimalToString req.ProductPrice
    Amount := req.Amount
    Status := req.Status }

/-- The loop of `createOrders` over the remaining items: `i` is the index of the
next item, `orders` and `calls` what has been accumulated. -/
def createOrdersLoop {σ Seg : Type} (server : Server σ Seg) (ctx : Context createOrderRequest)
    (orderID : UUID) : List createOrderItemRequest → Nat → List Order → List StoreCall → σ →
    Outcome σ Seg
  | [], _, orders, calls, st =>
    match orders with
    | [] => ⟨.json StatusOK .null, calls, st⟩
    | _ => ⟨.json StatusOK (.orders orders), calls, st⟩
  | req :: rest, i, orders, calls, st =>
    let arg := createOrderItemArg ctx orderID i req
    match server.store.CreateOrderItem arg st with
    | (.error err, st1) =>
      ⟨.json StatusInternalServerError (errorResponse err), calls ++ [.CreateOrderItem arg], st1⟩
    | (.ok orderItem, st1) =>
      createOrdersLoop server ctx orderID rest (i + 1) (orders ++ [orderItem])
        (calls ++ [.CreateOrderItem arg]) st1

/-- The handler `createOrders`. -/
def Server.createOrders {σ Seg : Type} (server : Server σ Seg)
    (ctx : Context createOrderRequest) (st : σ) : Outcome σ Seg :=
  match createOrderRequest.bind ctx with
  | .error err => ⟨.json StatusBadRequest (errorResponse err), [], st⟩
  | .ok orderReq =>
    createOrdersLoop server ctx orderReq.OrderID (orderReq.Orders.getD []) 0 [] [] st

/-- The struct `updateOrderItemRequest`. -/
structure updateOrderItemRequest where
  ID : UUID
  ShopName : String
  Amount : Int
  Status : String
  deriving DecidableEq, Repr

/-- The `binding` tags of `updateOrderItemRequest`. -/
def updateOrderItemRequest.failed (r : updateOrderItemRequest) : List (String × String) :=
  checkField "ID" [("required", requiredUUID r.ID)] ++
  checkField "ShopName" [("required", requiredString r.ShopName)] ++
  checkField "Amount" [("required", r.Amount != 0)] ++
  checkField "Status" [("required", requiredString r.Status)]

/-- The call `ctx.ShouldBindJSON(&req)` for `updateOrderItemRequest`. -/
def updateOrderItemRequest.bind (ctx : Context updateOrderItemRequest) :
    Except GoError updateOrderItemRequest :=
  ShouldBindJSON ctx "updateOrderItemRequest" updateOrderItemRequest.failed

/-- The handler `updateOrderItem`. -/
def Server.updateOrderItem {σ Seg : Type} (server : Server σ Seg)
    (ctx : Context updateOrderItemRequest) (st : σ) : Outcome σ Seg :=
  match updateOrderItemRequest.bind ctx with
  | .error err => ⟨.json StatusBadRequest (errorResponse err), [], st⟩
  | .ok req =>
    match ctx.authPayload with
    | Option.none => ⟨.panic, [], st⟩
    | some authPayload =>
      if authPayload.Username ≠ req.ShopName then
        ⟨.json StatusUnauthorized (errorResponse (.other "unauthorizated user")), [], st⟩
      else
        let arg : UpdateOrderItemParams :=
          { ShopName := req.ShopName, ID := req.ID, Amount := req.Amount, Status := req.Status }
        match server.store.UpdateOrderItem arg st with
        | (.error err, st1) =>
          ⟨.json StatusInternalServerError (errorResponse err), [.UpdateOrderItem arg], st1⟩
        | (.ok updatedOrder, st1) =>
          ⟨.json StatusOK (.order updatedOrder), [.UpdateOrderItem arg], st1⟩

/-- The struct `deleteOrderItemRequest`. -/
structure deleteOrderItemRequest where
  ShopName : String
  ID : UUID
  deriving DecidableEq, Repr

/-- The `binding` tags of `deleteOrderItemRequest`. -/
def deleteOrderItemRequest.failed (r : deleteOrderItemRequest) : List (String × String) :=
  checkField "ShopName" [("required", requiredString r.ShopName)] ++
  checkField "ID" [("required", requiredUUID r.ID)]

/-- The call `ctx.ShouldBindJSON(&req)` for `deleteOrderItemRequest`. -/
def deleteOrderItemRequest.bind (ctx : Context deleteOrderItemRequest) :
    Except GoError deleteOrderItemRequest :=
  ShouldBindJSON ctx "deleteOrderItemRequest" deleteOrderItemRequest.failed

/-- The handler `deleteOrderItem`. -/
def Server.deleteOrderItem {σ Seg : Type} (server : Server σ Seg)
    (ctx : Context deleteOrderItemRequest) (st : σ) : Outcome σ Seg :=
  match deleteOrderItemRequest.bind ctx with
  | .error err => ⟨.json StatusBadRequest (errorResponse err), [], st⟩
  | .ok req =>
    match ctx.authPayload with
    | Option.none => ⟨.panic, [], st⟩
    | some authPayload =>
      if authPayload.Username ≠ req.ShopName then
        ⟨.json StatusUnauthorized (errorResponse (.other "unauthorizated user")), [], st⟩
      else
        let arg : DeleteOrderItemParams := { ShopName := req.ShopName, ID := req.ID }
        match server.store.DeleteOrderItem arg st with
        | (.error err, st1) =>
          ⟨.json StatusInternalServerError (errorResponse err), [.DeleteOrderItem arg], st1⟩
        | (.ok (), st1) =>
          ⟨.json StatusOK (textResponse "delete successfully"), [.DeleteOrderItem arg], st1⟩

/-- The struct `getOrdersByDayRequest`. -/
structure getOrdersByDayRequest where
  ShopName : String
  OrderDay : String
  deriving DecidableEq, Repr

/-- The `binding` tags of `getOrdersByDayRequest`. -/
def getOrdersByDayRequest.failed (r : getOrdersByDayRequest) : List (String × String) :=
  checkField "ShopName" [("required", requiredString r.ShopName)] ++
  checkField "OrderDay" [("required", requiredString r.OrderDay)]

/-- The call `ctx.ShouldBindJSON(&req)` for `getOrdersByDayRequest`. -/
def getOrdersByDayRequest.bind (ctx : Context getOrdersByDayRequest) :
    Except GoError getOrdersByDayRequest :=
  ShouldBindJSON ctx "getOrdersByDayRequest" getOrdersByDayRequest.failed

/-- The handler `getOrdersByDay`. -/
def Server.getOrdersByDay {σ Seg : Type} (server : Server σ Seg)
    (ctx : Context getOrdersByDayRequest) (st : σ) : Outcome σ Seg :=
  match getOrdersByDayRequest.bind ctx with
  | .error err => ⟨.json StatusBadRequest (errorResponse err), [], st⟩
  | .ok req =>
    match ctx.authPayload with
    | Option.none => ⟨.panic, [], st⟩
    | some authPayload =>
      if authPayload.Username ≠ req.ShopName then
        ⟨.json StatusUnauthorized (errorResponse (.other "unauthorizated user")), [], st⟩
      else
        let arg : GetOrdersByDayParams := { ShopName := req.ShopName, OrderDay := req.OrderDay }
        match server.store.GetOrdersByDay arg st with
        | (.error err, st1) =>
          ⟨.json StatusInternalServerError (errorResponse err), [.GetOrdersByDay arg], st1⟩
        | (.ok orders, st1) => ⟨.json StatusOK (.orders orders), [.GetOrdersByDay arg], st1⟩

/-- The struct `getOrdersByOrderIDRequest`. -/
structure getOrdersByOrderIDRequest where
  ShopName : String
  OrderID : UUID
  deriving DecidableEq, Repr

/-- The `binding` tags of `getOrdersByOrderIDRequest`. -/
def getOrdersByOrderIDRequest.failed (r : getOrdersByOrderIDRequest) : List (String × String) :=
  checkField "ShopName" [("required", requiredString r.ShopName)] ++
  checkField "OrderID" [("required", requiredUUID r.OrderID)]

/-- The call `ctx.ShouldBindJSON(&req)` for `getOrdersByOrderIDRequest`. -/
def getOrdersByOrderIDRequest.bind (ctx : Context getOrdersByOrderIDRequest) :
    Except GoError getOrdersByOrderIDRequest :=
  ShouldBindJSON ctx "getOrdersByOrderIDRequest" getOrdersByOrderIDRequest.failed

/-- The handler `getOrdersByOrderID`. -/
def Server.getOrdersByOrderID {σ Seg : Type} (server : Server σ Seg)
    (ctx : Context getOrdersByOrderIDRequest) (st : σ) : Outcome σ Seg :=
  match getOrdersByOrderIDRequest.bind ctx with
  | .error err => ⟨.json StatusBadRequest (errorResponse err), [], st⟩
  | .ok req =>
    let arg : GetOrdersByOrderIDParams := { ShopName := req.ShopName, OrderID := req.OrderID }
    match server.store.GetOrdersByOrderID arg st with
    | (.error err, st1) =>
      ⟨.json StatusInternalServerError (errorResponse err), [.GetOrdersByOrderID arg], st1⟩
    | (.ok orders, st1) => ⟨.json StatusOK (.orders orders), [.GetOrdersByOrderID arg], st1⟩

/-! ## api/middleware.go -/

/-- The `Authorization` header of a request: absent, of the form
`Bearer <token>` (the token as its segments), or any other value. -/
inductive AuthorizationHeader (Seg : Type)
  | absent
  | bearer (token : List Seg)
  | malformed (value : String)
  deriving DecidableEq, Repr

/-- Modelled from the spec: the function `authMiddleware` of `api/middleware.go`,
which is not among the sources. It reads the `Authorization` header, requires the
form `Bearer <token>` (failing with `MissingOrMalformedHeader` otherwise) and
calls `VerifyToken`; the result is the identity claim to attach, or the error
with which the request is answered 401 and the pipeline halted. -/
def authMiddleware {Seg : Type} (L : JwtLib Seg) (tokenMaker : JWTMaker) (now : Time)
    (header : AuthorizationHeader Seg) : Except GoError Payload :=
  match header with
  | .absent => .error (.other "MissingOrMalformedHeader")
  | .malformed _ => .error (.other "MissingOrMalformedHeader")
  | .bearer token => tokenMaker.VerifyToken L now token

/-! ## api/server.go: the route table -/

/-- The handlers of the server. -/
inductive Handler
  | createUser
  | loginUser
  | getAllMenuItems
  | createOrders
  | getOrdersByOrderID
  | getUser
  | getAllProducts
  | createProduct
  | updateProduct
  | deleteProduct
  | addMenuItem
  | updateMenuItem
  | deleteMenuItem
  | updateOrderItem
  | getOrdersByDay
  | deleteOrderItem
  deriving DecidableEq, Repr

/-- The request struct each handler binds the JSON body to (`Unit`: none). -/
def Handler.Req : Handler → Type
  | .createUser => createUserRequest
  | .loginUser => loginUserRequest
  | .getAllMenuItems => Unit
  | .createOrders => createOrderRequest
  | .getOrdersByOrderID => getOrdersByOrderIDRequest
  | .getUser => Unit
  | .getAllProducts => getAllProductsRequest
  | .createProduct => createProductRequest
  | .updateProduct => updateProductRequest
  | .deleteProduct => deleteProductRequest
  | .addMenuItem => addMenuItemRequest
  | .updateMenuItem => updateMenuItemRequest
  | .deleteMenuItem => deleteMenuItemRequest
  | .updateOrderItem => updateOrderItemRequest
  | .getOrdersByDay => getOrdersByDayRequest
  | .deleteOrderItem => deleteOrderItemRequest

/-- The method value `server.<handler>` applied to a context. -/
def Server.run {σ Seg : Type} (server : Server σ Seg) :
    (h : Handler) → Context h.Req → σ → Outcome σ Seg
  | .createUser => server.createUser
  | .loginUser => server.loginUser
  | .getAllMenuItems => server.getAllMenuItems
  | .createOrders => server.createOrders
  | .getOrdersByOrderID => server.getOrdersByOrderID
  | .getUser => server.getUser
  | .getAllProducts => server.getAllProducts
  | .createProduct => server.createProduct
  | .updateProduct => server.updateProduct
  | .deleteProduct => server.deleteProduct
  | .addMenuItem => server.addMenuItem
  | .updateMenuItem => server.updateMenuItem
  | .deleteMenuItem => server.deleteMenuItem
  | .updateOrderItem => server.updateOrderItem
  | .getOrdersByDay => server.getOrdersByDay
  | .deleteOrderItem => server.deleteOrderItem

/-- HTTP methods used by the route table. -/
inductive Method
  | GET
  | POST
  | PATCH
  | DELETE
  deriving DecidableEq, Repr

/-- One segment of a route pattern: literal text, or a named parameter `:name`. -/
inductive PathSeg
  | lit (s : String)
  | param (name : String)
  deriving DecidableEq, Repr

/-- One registration of the router: method, pattern, handler, and whether it was
registered on `authRoutes`, the group that uses `authMiddleware`. -/
structure Route where
  method : Method
  pattern : List PathSeg
  handler : Handler
  auth : Bool
  deriving DecidableEq, Repr

/-- The registrations of `setupRouter`, in source order. -/
def setupRouter : List Route :=
  [ ⟨.POST, [.lit "users"], .createUser, false⟩,
    ⟨.POST, [.lit "users", .lit "login"], .loginUser, false⟩,
    ⟨.GET, [.param "shop_name", .lit "menus"], .getAllMenuItems, false⟩,
    ⟨.POST, [.param "shop_name", .lit "order"], .createOrders, false⟩,
    ⟨.GET, [.param "shop_name", .lit "order", .param "order_id"], .getOrdersByOrderID, false⟩,
    ⟨.GET, [.lit "users", .param "username"], .getUser, true⟩,
    ⟨.GET, [.lit "users", .param "username", .lit "products"], .getAllProducts, true⟩,
    ⟨.POST, [.lit "users", .param "username", .lit "products"], .createProduct, true⟩,
    ⟨.PATCH, [.lit "users", .param "username", .lit "products", .param "productid"],
      .updateProduct, true⟩,
    ⟨.DELETE, [.lit "users", .param "username", .lit "products", .param "productid"],
      .deleteProduct, true⟩,
    ⟨.POST, [.lit "users", .param "username", .lit "menus"], .addMenuItem, true⟩,
    ⟨.PATCH, [.lit "users", .param "username", .lit "menus", .param "menu_item_id"],
      .updateMenuItem, true⟩,
    ⟨.DELETE, [.lit "users", .param "username", .lit "menus", .param "menu_item_id"],
      .deleteMenuItem, true⟩,
    ⟨.PATCH, [.lit "users", .param "username", .lit "orders", .param "order_id"],
      .updateOrderItem, true⟩,
    ⟨.GET, [.lit "users", .param "username", .lit "orders"], .getOrdersByDay, true⟩,
    ⟨.DELETE, [.lit "users", .param "username", .lit "orders", .param "order_id"],
      .deleteOrderItem, true⟩ ]

/-- The parameters a pattern binds on a path (its non-empty segments), if the
path matches the pattern. -/
def matchPattern : List PathSeg → List String → Option (List (String × String))
  | [], [] => some []
  | .lit s :: ps, x :: xs => if s = x then matchPattern ps xs else Option.none
  | .param name :: ps, x :: xs => (matchPattern ps xs).map (fun m => (name, x) :: m)
  | _, _ => Option.none

/-- How a walk of the route tree of gin ends below a node: at a route; at a dead
end from which the walk rolls back to the last node where it took a literal child
although the node has a parameter child; or at a dead end where the walk gives up. -/
inductive Lookup
  | found (route : Route)
  | rollback
  | notFound
  deriving DecidableEq, Repr

/-- The children of a node under the literal `seg`: the routes below the node
whose pattern goes on with that literal, with what follows it. A node is given by
the routes below it, each with what remains of its pattern. -/
def literalChild (node : List (List PathSeg × Route)) (seg : String) :
    List (List PathSeg × Route) :=
  node.filterMap (fun e =>
    match e.1 with
    | .lit s :: ps => if s = seg then some (ps, e.2) else Option.none
    | _ => Option.none)

/-- The parameter child of a node: the routes below the node whose pattern goes on
with a parameter, with what follows it. -/
def paramChild (node : List (List PathSeg × Route)) : List (List PathSeg × Route) :=
  node.filterMap (fun e =>
    match e.1 with
    | .param _ :: ps => some (ps, e.2)
    | _ => Option.none)

/-- The route registered at a node itself, if any. -/
def handlersAt (node : List (List PathSeg × Route)) : Option Route :=
  (node.find? (fun e => e.1.isEmpty)).map Prod.snd

/-- The method `node.getValue` of the route tree of gin, on a path given by its
non-empty segments (no trailing slash). At a node the literal child that matches
the next segment is tried first. The parameter child is tried when there is no such
literal child, or when the walk below the literal child rolled back. A walk rolls
back when no child fits the next segment or when the path ends at a literal node
without handlers; it gives up, without rolling back, when a parameter takes the
last segment at a node without handlers, or takes a segment at a node without
children while segments remain. -/
def getValue : List (List PathSeg × Route) → List String → Lookup
  | node, [] =>
    match handlersAt node with
    | some r => .found r
    | Option.none => .rollback
  | node, seg :: rest =>
    let viaParam : Lookup :=
      if (paramChild node).isEmpty then .rollback
      else
        match rest with
        | [] =>
          match handlersAt (paramChild node) with
          | some r => .found r
          | Option.none => .notFound
        | _ :: _ =>
          if (paramChild node).all (fun e => e.1.isEmpty) then .notFound
          else getValue (paramChild node) rest
    if (literalChild node seg).isEmpty then viaParam
    else
      match getValue (literalChild node seg) rest with
      | .rollback => viaParam
      | r => r

/-- The route the router selects for a method and a path, with the parameters
bound: the walk of the tree of the method, which holds the routes registered for
it. -/
def findRoute (routes : List Route) (method : Method) (path : List String) :
    Option (Route × List (String × String)) :=
  match getValue ((routes.filter (fun r => r.method = method)).map (fun r => (r.pattern, r)))
      path with
  | .found r => (matchPattern r.pattern path).map (fun params => (r, params))
  | _ => Option.none

/-- An HTTP request as the server reads it: method, path segments, the
`Authorization` header, how the body decodes into the request struct of each
handler, and the readings of the environment (`uuid.New()`, the clocks). -/
structure Request (Seg : Type) where
  method : Method
  path : List String
  authorization : AuthorizationHeader Seg
  json : (h : Handler) → Except GoError h.Req
  uuid : Nat → UUID
  issue : IssueEnv
  now : Time

/-- A route applied to a request whose path bound `params`: on `authRoutes` the
middleware runs first and a failure is answered 401 without running the handler. -/
def Server.serveRoute {σ Seg : Type} (server : Server σ Seg) (route : Route)
    (params : List (String × String)) (req : Request Seg) (st : σ) : Outcome σ Seg :=
  let ctx : Context route.handler.Req :=
    { params := params
      json := req.json route.handler
      authPayload := Option.none
      uuid := req.uuid
      issue := req.issue }
  if route.auth then
    match authMiddleware server.jwt server.tokenMaker req.now req.authorization with
    | .error err => ⟨.json StatusUnauthorized (errorResponse err), [], st⟩
    | .ok payload => server.run route.handler { ctx with authPayload := some payload } st
  else
    server.run route.handler ctx st

/-- The method `router.ServeHTTP` of the engine built by `setupRouter`: no route,
404; a panic of the handler is recovered as a bare 500 (`gin.Default`). -/
def Server.ServeHTTP {σ Seg : Type} (server : Server σ Seg) (req : Request Seg) (st : σ) :
    Outcome σ Seg :=
  match findRoute setupRouter req.method req.path with
  | Option.none => ⟨.plain StatusNotFound "404 page not found", [], st⟩
  | some (route, params) =>
    let out := server.serveRoute route params req st
    match out.reply with
    | .panic => { out with reply := .plain StatusInternalServerError "" }
    | _ => out

/-- The function `NewServer`, given the collaborators the server is linked with. -/
def NewServer {σ Seg : Type} (config : Config) (store : Store σ) (jwt : JwtLib Seg)
    (HashPassword : String → Except GoError String)
    (CheckPassword : String → String → Except GoError Unit) :
    Except GoError (Server σ Seg) :=
  match NewJWTMaker config.TokenSecretKey with
  | .error err => .error (.wrapped ("cannot create token maker: " ++ err.Error) err.chain)
  | .ok tokenMaker =>
    .ok { config := config, store := store, tokenMaker := tokenMaker, jwt := jwt,
          HashPassword := HashPassword, CheckPassword := CheckPassword }

/-- The claims that `CreateToken` signs. -/
def issuedClaims (env : IssueEnv) (username : String) (duration : Duration) : JWTClaims :=
  { payload := NewPayload env username duration
    registered :=
      { Issuer := "server"
        ExpiresAt := some (NewNumericDate (NewPayload env username duration).ExpiredAt) } }

/-- The header `CreateToken` signs. -/
def issuedHeader : Header := { typ := "JWT", alg := some "HS256" }

/-- The token made of the header of `CreateToken`, a claims segment `c`, and the
HS256 signature of both under `key`. -/
def signedSegments {Seg : Type} (L : JwtLib Seg) (key : Bytes) (c : Seg) : List Seg :=
  [L.encodeHeader issuedHeader, c,
   L.encodeSegment (hmacSum L .SHA256 key (L.signingString (L.encodeHeader issuedHeader) c))]

/-! ## An executable instance of the text layer -/

/-- A token segment kept as the value it encodes. -/
inductive StructSeg
  | header (h : Header)
  | claims (c : JWTClaims)
  | signature (b : Bytes)
  deriving DecidableEq, Repr

/-- The bytes of a string, one per character (code modulo 256). -/
def stringBytes (s : String) : Bytes :=
  s.toList.map (fun c => Fin.ofNat c.toNat)

/-- The bytes that stand for a structured segment in a signing string. -/
def StructSeg.bytes : StructSeg → Bytes
  | .header h => stringBytes h.typ ++ stringBytes (h.alg.getD "")
  | .claims c => stringBytes c.payload.Username ++ [Fin.ofNat c.payload.ID]
  | .signature b => b

/-- The text layer over structured segments, with the identity as hash. It
satisfies `JwtLib.Lawful` and evaluates by computation. -/
def structLib : JwtLib StructSeg where
  hash := fun _ b => b
  encodeHeader := .header
  decodeHeader := fun s =>
    match s with
    | .header h => .ok h
    | _ => .error (newError "could not JSON decode header" .jwtErrTokenMalformed [])
  encodeClaims := fun c => .ok (.claims c)
  decodeClaims := fun s =>
    match s with
    | .claims c => .ok c
    | _ => .error (newError "could not JSON decode claim" .jwtErrTokenMalformed [])
  encodeSegment := .signature
  decodeSegment := fun s =>
    match s with
    | .signature b => .ok b
    | _ => .error (newError "could not base64 decode signature" .jwtErrTokenMalformed [])
  signingString := fun a b => a.bytes ++ [46] ++ b.bytes

/-- A 32-byte secret: the letter `a` thirty-two times. -/
def sampleKey : Bytes := List.replicate 32 97

/-- Another 32-byte secret: the letter `b` thirty-two times. -/
def otherKey : Bytes := List.replicate 32 98

/-- The environment of the sample issuance: the clock reads 1700000000.5s. -/
def sampleEnv : IssueEnv := ⟨1, 1700000000500000000, 1700000000500000000⟩

/-- Header segment of the sample token. -/
def sampleHeaderSeg : StructSeg := .header ⟨"JWT", some "HS256"⟩

/-- Claims segment of the sample token: "alice", one minute. -/
def sampleClaimsSeg : StructSeg :=
  .claims
    { payload := NewPayload sampleEnv "alice" (60 * Second)
      registered :=
        { Issuer := "server"
          ExpiresAt := some (NewNumericDate (NewPayload sampleEnv "alice" (60 * Second)).ExpiredAt) } }

/-- Signature segment of the sample token under `sampleKey`. -/
def sampleSigSeg : StructSeg :=
  .signature (hmacSum structLib .SHA256 sampleKey
    (structLib.signingString sampleHeaderSeg sampleClaimsSeg))

/-! ## Readings of the handlers -/

/-- Whether `setupRouter` registers the handler on `authRoutes`. -/
def Handler.isProtected (h : Handler) : Bool :=
  setupRouter.any (fun r => r.handler == h && r.auth)

/-- Whether a binding call succeeded. -/
def bound {α : Type} (r : Except GoError α) : Bool :=
  match r with
  | .ok _ => true
  | .error _ => false

/-- Whether every `ShouldBindUri` and `ShouldBindJSON` call of the handler
succeeds on the context. -/
def Handler.bindOk : (h : Handler) → Context h.Req → Bool
  | .createUser, ctx => bound (createUserRequest.bind ctx)
  | .loginUser, ctx => bound (loginUserRequest.bind ctx)
  | .getAllMenuItems, ctx => bound (getAllMenuItemsUri.bind ctx)
  | .createOrders, ctx => bound (createOrderRequest.bind ctx)
  | .getOrdersByOrderID, ctx => bound (getOrdersByOrderIDRequest.bind ctx)
  | .getUser, ctx => bound (getUserRequest.bind ctx)
  | .getAllProducts, ctx =>
    bound (usersProductsUri.bind ctx) && bound (getAllProductsRequest.bind ctx)
  | .createProduct, ctx => bound (createProductRequest.bind ctx)
  | .updateProduct, ctx =>
    bound (usersProductsUri.bind ctx) && bound (updateProductRequest.bind ctx)
  | .deleteProduct, ctx => bound (deleteProductRequest.bind ctx)
  | .addMenuItem, ctx => bound (addMenuItemRequest.bind ctx)
  | .updateMenuItem, ctx => bound (updateMenuItemRequest.bind ctx)
  | .deleteMenuItem, ctx => bound (deleteMenuItemRequest.bind ctx)
  | .updateOrderItem, ctx => bound (updateOrderItemRequest.bind ctx)
  | .getOrdersByDay, ctx => bound (getOrdersByDayRequest.bind ctx)
  | .deleteOrderItem, ctx => bound (deleteOrderItemRequest.bind ctx)

/-- The owner field a handler compares with the `Username` of the token
payload: the URI username, the body username or the body shop name; `none` for
a handler that makes no comparison or a body that did not decode. -/
def Handler.owner : (h : Handler) → Context h.Req → Option String
  | .getUser, ctx => some (ctx.Param "username")
  | .getAllProducts, ctx => some (ctx.Param "username")
  | .updateProduct, ctx => some (ctx.Param "username")
  | .createProduct, ctx =>
    match ctx.json with
    | .ok (r : createProductRequest) => some r.Username
    | .error _ => Option.none
  | .deleteProduct, ctx =>
    match ctx.json with
    | .ok (r : deleteProductRequest) => some r.Username
    | .error _ => Option.none
  | .addMenuItem, ctx =>
    match ctx.json with
    | .ok (r : addMenuItemRequest) => some r.ShopName
    | .error _ => Option.none
  | .updateMenuItem, ctx =>
    match ctx.json with
    | .ok (r : updateMenuItemRequest) => some r.ShopName
    | .error _ => Option.none
  | .deleteMenuItem, ctx =>
    match ctx.json with
    | .ok (r : deleteMenuItemRequest) => some r.ShopName
    | .error _ => Option.none
  | .updateOrderItem, ctx =>
    match ctx.json with
    | .ok (r : updateOrderItemRequest) => some r.ShopName
    | .error _ => Option.none
  | .deleteOrderItem, ctx =>
    match ctx.json with
    | .ok (r : deleteOrderItemRequest) => some r.ShopName
    | .error _ => Option.none
  | .getOrdersByDay, ctx =>
    match ctx.json with
    | .ok (r : getOrdersByDayRequest) => some r.ShopName
    | .error _ => Option.none
  | .createUser, _ => Option.none
  | .loginUser, _ => Option.none
  | .getAllMenuItems, _ => Option.none
  | .createOrders, _ => Option.none
  | .getOrdersByOrderID, _ => Option.none

/-! ## A sample server -/

/-- A store whose state counts the calls made and which answers every call with
a row built from its argument. -/
def sampleStore : Store Nat where
  CreateUser := fun a n => (.ok ⟨a.ID, a.Username, a.HashedPassword, 0⟩, n + 1)
  GetUser := fun u n => (.ok ⟨7, u, "hash:password", 0⟩, n + 1)
  CreateProduct := fun a n => (.ok ⟨a.ID, a.UserID, a.Name, a.Price, a.Description, 0⟩, n + 1)
  GetAllProducts := fun _ n => (.ok [], n + 1)
  UpdateProduct := fun a n => (.ok ⟨a.ID, a.UserID, a.Name, a.Price, a.Description, 0⟩, n + 1)
  DeleteProduct := fun _ n => (.ok (), n + 1)
  AddMenuItem := fun a n =>
    (.ok ⟨a.ID, a.UserID, a.ShopName, a.ProductID, a.ProductName, a.ProductPrice, a.Catalog,
      a.Description, 0⟩, n + 1)
  UpdateMenuItem := fun a n =>
    (.ok ⟨a.ID, a.UserID, "", 0, a.ProductName, a.ProductPrice, a.Catalog, a.Description, 0⟩,
      n + 1)
  DeleteMenuItem := fun _ n => (.ok (), n + 1)
  GetAllMenuItems := fun _ n => (.ok [], n + 1)
  CreateOrderItem := fun a n =>
    (.ok ⟨a.ID, a.ShopName, a.OrderID, a.OrderDay, a.ProductName, a.ProductPrice, a.Amount,
      a.Status, 0⟩, n + 1)
  UpdateOrderItem := fun a n => (.ok ⟨a.ID, a.ShopName, 0, "", "", "", a.Amount, a.Status, 0⟩, n + 1)
  DeleteOrderItem := fun _ n => (.ok (), n + 1)
  GetOrdersByDay := fun _ n => (.ok [], n + 1)
  GetOrdersByOrderID := fun _ n => (.ok [], n + 1)

/-- A server over `sampleStore` and `structLib`, with the secret `sampleKey`. -/
def sampleServer : Server Nat StructSeg where
  config := { TokenSecretKey := sampleKey, AccessTokenDuration := 60 * Second }
  store := sampleStore
  tokenMaker := { secretKey := sampleKey }
  jwt := structLib
  HashPassword := fun p => .ok ("hash:" ++ p)
  CheckPassword := fun p h =>
    if h = "hash:" ++ p then .ok () else .error (.other "hashedPassword is not the hash of the given password")

/-- The token `CreateToken("bob", 1m)` of `sampleServer`, issued at `sampleEnv`. -/
def bobToken : List StructSeg :=
  match sampleServer.tokenMaker.CreateToken structLib sampleEnv "bob" (60 * Second) with
  | .ok t => t
  | .error _ => []

/-- A body for `createProduct` naming "bob": price 2.5. -/
def bobProductBody : createProductRequest :=
  { UserID := 7, Username := "bob", Name := "tea", Price := ⟨false, 5, -1⟩, Description := "green" }

/-- The request `POST /users/alice/products` with the token of "bob" and the body
`bobProductBody`. -/
def bobPostsUnderAlice : Request StructSeg where
  method := .POST
  path := ["users", "alice", "products"]
  authorization := .bearer bobToken
  json := fun h =>
    match h with
    | .createProduct => .ok bobProductBody
    | _ => .error (.other "unexpected end of JSON input")
  uuid := fun _ => 9
  issue := sampleEnv
  now := 1700000000500000000

/-- The request `POST /shop/order` whose body is
`{"order_id": <uuid 5>, "orders": [{}]}`: one item with every field absent. -/
def emptyItemOrder : Request StructSeg where
  method := .POST
  path := ["shop", "order"]
  authorization := .absent
  json := fun h =>
    match h with
    | .createOrders =>
      .ok { OrderID := 5, Orders := some [⟨"", "", "", ⟨false, 0, 0⟩, 0, ""⟩] }
    | _ => .error (.other "unexpected end of JSON input")
  uuid := fun _ => 9
  issue := sampleEnv
  now := 1700000000500000000

/-- A context of `createProduct`: the body `bobProductBody`, the payload of a
token issued to "mallory". -/
def malloryProductCtx : Context createProductRequest where
  params := [("username", "bob")]
  json := .ok bobProductBody
  authPayload := some (NewPayload sampleEnv "mallory" (60 * Second))
  uuid := fun _ => 9
  issue := sampleEnv

/-- The request `GET /users/bob` without an `Authorization` header. -/
def anonymousGetUser : Request StructSeg where
  method := .GET
  path := ["users", "bob"]
  authorization := .absent
  json := fun _ => .error (.other "unexpected end of JSON input")
  uuid := fun _ => 9
  issue := sampleEnv
  now := 1700000000500000000

/-- The request `POST /users/alice/products` with the token of "bob" and a body
whose username field is "alice". -/
def bobPostsAliceBody : Request StructSeg where
  method := .POST
  path := ["users", "alice", "products"]
  authorization := .bearer bobToken
  json := fun h =>
    match h with
    | .createProduct => .ok { bobProductBody with Username := "alice" }
    | _ => .error (.other "unexpected end of JSON input")
  uuid := fun _ => 9
  issue := sampleEnv
  now := 1700000000500000000

/-! ## internal/database/error.go -/

/-- The constant `UniqueViolation`. -/
def UniqueViolation : String := "23505"

/-- The variable `ErrRecordNotFound`. -/
def ErrRecordNotFound : GoError := .sentinel .sqlErrNoRows

/-- The variable `ErrUniqueViolation`: a `*pq.Error` with only its code set. -/
def ErrUniqueViolation : GoError := .pq UniqueViolation ""

/-! ## The store seen through its calls -/

/-- What a store method returns on success. -/
inductive StoreRow
  | user (u : User)
  | product (p : Product)
  | products (ps : List Product)
  | menu (m : Menu)
  | menus (ms : List Menu)
  | order (o : Order)
  | orders (os : List Order)
  | done
  deriving DecidableEq, Repr

/-- The result of one recorded call on the store in state `st`. -/
def Store.apply {σ : Type} (s : Store σ) (c : StoreCall) (st : σ) : Except GoError StoreRow × σ :=
  match c with
  | .CreateUser a => ((s.CreateUser a st).1.map .user, (s.CreateUser a st).2)
  | .GetUser u => ((s.GetUser u st).1.map .user, (s.GetUser u st).2)
  | .CreateProduct a => ((s.CreateProduct a st).1.map .product, (s.CreateProduct a st).2)
  | .GetAllProducts u => ((s.GetAllProducts u st).1.map .products, (s.GetAllProducts u st).2)
  | .UpdateProduct a => ((s.UpdateProduct a st).1.map .product, (s.UpdateProduct a st).2)
  | .DeleteProduct a => ((s.DeleteProduct a st).1.map (fun _ => .done), (s.DeleteProduct a st).2)
  | .AddMenuItem a => ((s.AddMenuItem a st).1.map .menu, (s.AddMenuItem a st).2)
  | .UpdateMenuItem a => ((s.UpdateMenuItem a st).1.map .menu, (s.UpdateMenuItem a st).2)
  | .DeleteMenuItem a => ((s.DeleteMenuItem a st).1.map (fun _ => .done), (s.DeleteMenuItem a st).2)
  | .GetAllMenuItems n => ((s.GetAllMenuItems n st).1.map .menus, (s.GetAllMenuItems n st).2)
  | .CreateOrderItem a => ((s.CreateOrderItem a st).1.map .order, (s.CreateOrderItem a st).2)
  | .UpdateOrderItem a => ((s.UpdateOrderItem a st).1.map .order, (s.UpdateOrderItem a st).2)
  | .DeleteOrderItem a => ((s.DeleteOrderItem a st).1.map (fun _ => .done), (s.DeleteOrderItem a st).2)
  | .GetOrdersByDay a => ((s.GetOrdersByDay a st).1.map .orders, (s.GetOrdersByDay a st).2)
  | .GetOrdersByOrderID a =>
    ((s.GetOrdersByOrderID a st).1.map .orders, (s.GetOrdersByOrderID a st).2)

/-- The results of a sequence of calls made one after the other from state `st`,
and the state after the last. -/
def Store.replay {σ : Type} (s : Store σ) : List StoreCall → σ → List (Except GoError StoreRow) × σ
  | [], st => ([], st)
  | c :: cs, st => ((s.apply c st).1 :: (s.replay cs (s.apply c st).2).1,
      (s.replay cs (s.apply c st).2).2)

/-- The results the store gave to the calls of a run that started in state `st`. -/
def Outcome.results {σ Seg : Type} (o : Outcome σ Seg) (s : Store σ) (st : σ) :
    List (Except GoError StoreRow) :=
  (s.replay o.calls st).1

/-- The test of `createUser` on a store error: a `*pq.Error` whose code name is
"unique_violation", that is whose code is `UniqueViolation`. -/
def isUniqueViolation (err : GoError) : Bool :=
  match err with
  | .pq code _ => code == UniqueViolation
  | _ => false

/-- The username a handler passes to `store.GetUser`: the URI username for
`getUser`, the body username for `loginUser`. -/
def Handler.requestedUsername : (h : Handler) → Context h.Req → Option String
  | .getUser, ctx => some (ctx.Param "username")
  | .loginUser, ctx =>
    match ctx.json with
    | .ok (r : loginUserRequest) => some r.Username
    | .error _ => Option.none
  | _, _ => Option.none

/-- The arguments `createOrders` builds for the items of a request, the first
item having index `i`. -/
def createOrderItemArgs (ctx : Context createOrderRequest) (orderID : UUID) :
    List createOrderItemRequest → Nat → List CreateOrderItemParams
  | [], _ => []
  | req :: rest, i => createOrderItemArg ctx orderID i req :: createOrderItemArgs ctx orderID rest (i + 1)

/-- The Go slice of orders a body was written from, a nil slice being empty. -/
def Body.orderRows {Seg : Type} (b : Body Seg) : Option (List Order) :=
  match b with
  | .orders os => some os
  | .null => some []
  | _ => Option.none

/-- Whether a text is a decimal numeral with exactly two decimals: an optional
minus sign, one or more digits, a point, two digits. -/
def hasTwoDecimals (s : String) : Bool :=
  match s.data.reverse with
  | d2 :: d1 :: '.' :: rest =>
    d1.isDigit && d2.isDigit &&
      (match rest.reverse with
       | '-' :: ds => !ds.isEmpty && ds.all Char.isDigit
       | ds => !ds.isEmpty && ds.all Char.isDigit)
  | _ => false

/-! ## More sample data -/

/-- A store every method of which fails with `e`; its state counts the calls. -/
def errorStore (e : GoError) : Store Nat where
  CreateUser := fun _ n => (.error e, n + 1)
  GetUser := fun _ n => (.error e, n + 1)
  CreateProduct := fun _ n => (.error e, n + 1)
  GetAllProducts := fun _ n => (.error e, n + 1)
  UpdateProduct := fun _ n => (.error e, n + 1)
  DeleteProduct := fun _ n => (.error e, n + 1)
  AddMenuItem := fun _ n => (.error e, n + 1)
  UpdateMenuItem := fun _ n => (.error e, n + 1)
  DeleteMenuItem := fun _ n => (.error e, n + 1)
  GetAllMenuItems := fun _ n => (.error e, n + 1)
  CreateOrderItem := fun _ n => (.error e, n + 1)
  UpdateOrderItem := fun _ n => (.error e, n + 1)
  DeleteOrderItem := fun _ n => (.error e, n + 1)
  GetOrdersByDay := fun _ n => (.error e, n + 1)
  GetOrdersByOrderID := fun _ n => (.error e, n + 1)

/-- The sample server over `errorStore e`. -/
def errorServer (e : GoError) : Server Nat StructSeg :=
  { sampleServer with store := errorStore e }

/-- A context of `createUser`: username "alice", password "password1". -/
def aliceSignupCtx : Context createUserRequest where
  params := []
  json := .ok { Username := "alice", Password := "password1" }
  authPayload := Option.none
  uuid := fun _ => 9
  issue := sampleEnv

/-- A context of `getUser`: `GET /users/bob` with the payload of a token of "bob". -/
def bobGetUserCtx : Context Unit where
  params := [("username", "bob")]
  json := .ok ()
  authPayload := some (NewPayload sampleEnv "bob" (60 * Second))
  uuid := fun _ => 9
  issue := sampleEnv

/-- A context of `loginUser`: username "bob", password "password". -/
def bobLoginCtx : Context loginUserRequest where
  params := []
  json := .ok { Username := "bob", Password := "password" }
  authPayload := Option.none
  uuid := fun _ => 9
  issue := sampleEnv

/-- A context of `loginUser`: username "bob", a wrong password. -/
def bobBadLoginCtx : Context loginUserRequest where
  params := []
  json := .ok { Username := "bob", Password := "12345678" }
  authPayload := Option.none
  uuid := fun _ => 9
  issue := sampleEnv

/-- A context of `createProduct`: the body `bobProductBody`, the payload of a
token of "bob". -/
def bobProductCtx : Context createProductRequest where
  params := [("username", "bob")]
  json := .ok bobProductBody
  authPayload := some (NewPayload sampleEnv "bob" (60 * Second))
  uuid := fun _ => 9
  issue := sampleEnv

/-- Two order items: tea at 2.5 and cake at 4. -/
def twoItems : List createOrderItemRequest :=
  [⟨"bob", "2022-01-01", "tea", ⟨false, 5, -1⟩, 1, "Pending"⟩,
   ⟨"bob", "2022-01-01", "cake", ⟨false, 4, 0⟩, 2, "Pending"⟩]

/-- A context of `createOrders`: order 5 with the items `twoItems`; the `k`-th
result of `uuid.New()` is `100 + k`. -/
def twoItemOrderCtx : Context createOrderRequest where
  params := [("shop_name", "bob")]
  json := .ok { OrderID := 5, Orders := some twoItems }
  authPayload := Option.none
  uuid := fun k => 100 + k
  issue := sampleEnv

/-- The request `GET /NotExisted/menus`. -/
def missingShopMenus : Request StructSeg where
  method := .GET
  path := ["NotExisted", "menus"]
  authorization := .absent
  json := fun _ => .error (.other "unexpected end of JSON input")
  uuid := fun _ => 9
  issue := sampleEnv
  now := 1700000000500000000

/-- The status with which a handler answers an error of the store: 404 for
`sql.ErrNoRows` in `getUser` and `loginUser`, 403 for a unique violation in
`createUser`, 500 otherwise. -/
def errorStatus (h : Handler) (err : GoError) : Nat :=
  match h with
  | .getUser => if err = .sentinel .sqlErrNoRows then StatusNotFound else StatusInternalServerError
  | .loginUser => if err = .sentinel .sqlErrNoRows then StatusNotFound else StatusInternalServerError
  | .createUser => if isUniqueViolation err then StatusForbidden else StatusInternalServerError
  | _ => StatusInternalServerError

/-- The order items of the body of a `createOrders` request, none when the body
does not decode or its `orders` is absent. -/
def requestItems (ctx : Context createOrderRequest) : List createOrderItemRequest :=
  match ctx.json with
  | .ok req => req.Orders.getD []
  | .error _ => []

/-- An environment in which the clock advances by one microsecond between the two
readings of `NewPayload`. -/
def driftEnv : IssueEnv := ⟨1, 1700000000500000000, 1700000000500001000⟩

/-- A body of `addMenuItem` for the shop "bob": tea at 2.5 in a given catalog. -/
def bobMenuBody (catalog : String) : addMenuItemRequest :=
  { UserID := 7, ShopName := "bob", ProductID := 3, ProductName := "tea",
    ProductPrice := ⟨false, 5, -1⟩, Catalog := catalog, Description := "green" }

/-- A context of `addMenuItem`: the body `bobMenuBody catalog`, the payload of a
token of "bob". -/
def bobMenuCtx (catalog : String) : Context addMenuItemRequest where
  params := [("username", "bob")]
  json := .ok (bobMenuBody catalog)
  authPayload := some (NewPayload sampleEnv "bob" (60 * Second))
  uuid := fun _ => 9
  issue := sampleEnv

/-- The handlers that bind nothing from the URI: they read the body and, on the
protected routes, the payload of the token. -/
def pathFreeHandlers : List Handler :=
  [.createProduct, .deleteProduct, .addMenuItem, .updateMenuItem, .deleteMenuItem,
   .updateOrderItem, .deleteOrderItem, .getOrdersByDay, .createOrders, .getOrdersByOrderID]

/-- Whether the handler calls `ctx.MustGet(authorizationPayloadKey)`. -/
def Handler.readsPayload : Handler → Bool
  | .createUser => false
  | .loginUser => false
  | .getAllMenuItems => false
  | .createOrders => false
  | .getOrdersByOrderID => false
  | .getUser => true
  | .getAllProducts => true
  | .createProduct => true
  | .updateProduct => true
  | .deleteProduct => true
  | .addMenuItem => true
  | .updateMenuItem => true
  | .deleteMenuItem => true
  | .updateOrderItem => true
  | .getOrdersByDay => true
  | .deleteOrderItem => true

/-- The request `POST /users/bob/products` with the token of "bob" and the body
`bobProductBody`. -/
def bobPostsUnderBob : Request StructSeg :=
  { bobPostsUnderAlice with path := ["users", "bob", "products"] }

/-- The owner id a store call carries: the `UserID` of the argument of the product
and menu methods. -/
def StoreCall.UserID : StoreCall → Option UUID
  | .CreateProduct a => some a.UserID
  | .GetAllProducts userID => some userID
  | .UpdateProduct a => some a.UserID
  | .DeleteProduct a => some a.UserID
  | .AddMenuItem a => some a.UserID
  | .UpdateMenuItem a => some a.UserID
  | .DeleteMenuItem a => some a.UserID
  | _ => Option.none

/-- The `user_id` of the body of a product or menu request, when the body decodes. -/
def Handler.bodyUserID : (h : Handler) → Context h.Req → Option UUID
  | .createProduct, ctx => (ctx.json.toOption).map (fun (r : createProductRequest) => r.UserID)
  | .getAllProducts, ctx => (ctx.json.toOption).map (fun (r : getAllProductsRequest) => r.UserID)
  | .updateProduct, ctx => (ctx.json.toOption).map (fun (r : updateProductRequest) => r.UserID)
  | .deleteProduct, ctx => (ctx.json.toOption).map (fun (r : deleteProductRequest) => r.UserID)
  | .addMenuItem, ctx => (ctx.json.toOption).map (fun (r : addMenuItemRequest) => r.UserID)
  | .updateMenuItem, ctx => (ctx.json.toOption).map (fun (r : updateMenuItemRequest) => r.UserID)
  | .deleteMenuItem, ctx => (ctx.json.toOption).map (fun (r : deleteMenuItemRequest) => r.UserID)
  | _, _ => Option.none

/-- The handlers of the product and menu routes that hand an owner id to the store. -/
def ownerIdHandlers : List Handler :=
  [.createProduct, .getAllProducts, .updateProduct, .deleteProduct, .addMenuItem,
   .updateMenuItem, .deleteMenuItem]

/-- A context of `createProduct`: the body of "bob" with the `user_id` 4242, which
is not the id of the stored user "bob" (7), and the payload of a token of "bob". -/
def bobForeignIdCtx : Context createProductRequest :=
  { bobProductCtx with json := .ok { bobProductBody with UserID := 4242 } }

/-- A store whose state is the rows of the orders table and whose
`CreateOrderItem` inserts a row while the table has fewer than `cap` rows and
fails with `sql.ErrConnDone` afterwards; the other methods fail. -/
def limitedStore (cap : Nat) : Store (List Order) where
  CreateUser := fun _ t => (.error (.sentinel .sqlErrConnDone), t)
  GetUser := fun _ t => (.error (.sentinel .sqlErrConnDone), t)
  CreateProduct := fun _ t => (.error (.sentinel .sqlErrConnDone), t)
  GetAllProducts := fun _ t => (.error (.sentinel .sqlErrConnDone), t)
  UpdateProduct := fun _ t => (.error (.sentinel .sqlErrConnDone), t)
  DeleteProduct := fun _ t => (.error (.sentinel .sqlErrConnDone), t)
  AddMenuItem := fun _ t => (.error (.sentinel .sqlErrConnDone), t)
  UpdateMenuItem := fun _ t => (.error (.sentinel .sqlErrConnDone), t)
  DeleteMenuItem := fun _ t => (.error (.sentinel .sqlErrConnDone), t)
  GetAllMenuItems := fun _ t => (.error (.sentinel .sqlErrConnDone), t)
  CreateOrderItem := fun a t =>
    if t.length < cap then
      (.ok ⟨a.ID, a.ShopName, a.OrderID, a.OrderDay, a.ProductName, a.ProductPrice, a.Amount,
        a.Status, 0⟩,
       t ++ [⟨a.ID, a.ShopName, a.OrderID, a.OrderDay, a.ProductName, a.ProductPrice, a.Amount,
        a.Status, 0⟩])
    else (.error (.sentinel .sqlErrConnDone), t)
  UpdateOrderItem := fun _ t => (.error (.sentinel .sqlErrConnDone), t)
  DeleteOrderItem := fun _ t => (.error (.sentinel .sqlErrConnDone), t)
  GetOrdersByDay := fun _ t => (.error (.sentinel .sqlErrConnDone), t)
  GetOrdersByOrderID := fun _ t => (.error (.sentinel .sqlErrConnDone), t)

/-- The sample server over `limitedStore cap`. -/
def limitedServer (cap : Nat) : Server (List Order) StructSeg where
  config := sampleServer.config
  store := limitedStore cap
  tokenMaker := sampleServer.tokenMaker
  jwt := structLib
  HashPassword := sampleServer.HashPassword
  CheckPassword := sampleServer.CheckPassword

/-- Three order items: tea, cake and water. -/
def threeItems : List createOrderItemRequest :=
  twoItems ++ [⟨"bob", "2022-01-01", "water", ⟨false, 1, 0⟩, 3, "Pending"⟩]

/-- A context of `createOrders`: order 5 with the items `threeItems`; the `k`-th
result of `uuid.New()` is `100 + k`. -/
def threeItemOrderCtx : Context createOrderRequest :=
  { twoItemOrderCtx with json := .ok { OrderID := 5, Orders := some threeItems } }

/-! ## internal/database/orders.sql.go -/

/-- The condition `WHERE shop_name = $1 AND id = $2` of the statement
`updateOrderItem`. -/
def updateOrderItemWhere (arg : UpdateOrderItemParams) (o : Order) : Bool :=
  o.ShopName == arg.ShopName && o.ID == arg.ID

/-- The assignment `SET amount = $3, status = $4` of the statement
`updateOrderItem`. -/
def updateOrderItemSet (arg : UpdateOrderItemParams) (o : Order) : Order :=
  { o with Amount := arg.Amount, Status := arg.Status }

/-- The method `Queries.UpdateOrderItem` on the rows of the table `orders`: the
statement updates every row that satisfies its condition and returns the updated
rows; `QueryRowContext` with `Scan` yields the first of them, or `sql.ErrNoRows`
when there is none. -/
def Queries.UpdateOrderItem (arg : UpdateOrderItemParams) (table : List Order) :
    Except GoError Order × List Order :=
  let updated :=
    table.map (fun o => if updateOrderItemWhere arg o then updateOrderItemSet arg o else o)
  match (table.filter (updateOrderItemWhere arg)).map (updateOrderItemSet arg) with
  | [] => (.error (.sentinel .sqlErrNoRows), updated)
  | i :: _ => (.ok i, updated)

/-- Modelled from the spec: the schema of the table `orders` is not among the
sources; the uniqueness of the records is an invariant the persistence collaborator
enforces, here that no two rows of the table have the same `id`. -/
def ordersKey (table : List Order) : Prop :=
  (table.map (fun o => o.ID)).Nodup

instance (table : List Order) : Decidable (ordersKey table) := by
  unfold ordersKey
  exact inferInstance

/-- A table of two order rows of the shop "bob". -/
def sampleOrders : List Order :=
  [⟨100, "bob", 5, "2022-01-01", "tea", "2.50", 1, "Pending", 11⟩,
   ⟨101, "bob", 5, "2022-01-01", "cake", "4.00", 2, "Pending", 12⟩]

/-- The request `GET /bob/order/5` without an `Authorization` header, with the
body `{"shop_name": "bob", "order_id": <uuid 5>}`. -/
def anonymousOrderLookup : Request StructSeg where
  method := .GET
  path := ["bob", "order", "5"]
  authorization := .absent
  json := fun h =>
    match h with
    | .getOrdersByOrderID => .ok { ShopName := "bob", OrderID := 5 }
    | _ => .error (.other "unexpected end of JSON input")
  uuid := fun _ => 9
  issue := sampleEnv
  now := 1700000000500000000

/-- The request `GET /users/bob/orders` without an `Authorization` header, with
the body `{"shop_name": "bob", "order_day": "2022-01-01"}`. -/
def anonymousOrdersByDay : Request StructSeg where
  method := .GET
  path := ["users", "bob", "orders"]
  authorization := .absent
  json := fun h =>
    match h with
    | .getOrdersByDay => .ok { ShopName := "bob", OrderDay := "2022-01-01" }
    | _ => .error (.other "unexpected end of JSON input")
  uuid := fun _ => 9
  issue := sampleEnv
  now := 1700000000500000000

/-- The body that is a row, or a list of rows, of the store written as it was
returned; a user row is never written as it is, and a delete returns no row. -/
def StoreRow.body {Seg : Type} : StoreRow → Option (Body Seg)
  | .product p => some (.product p)
  | .products ps => some (.products ps)
  | .menu m => some (.menu m)
  | .menus ms => some (.menus ms)
  | .order o => some (.order o)
  | .orders os => some (.orders os)
  | .user _ => Option.none
  | .done => Option.none

/-- The request `DELETE /users/bob/products/3` with the token of "bob" and the
body `{"user_id": <uuid 7>, "username": "bob", "product_id": <uuid 3>}`. -/
def bobDeletesProduct : Request StructSeg where
  method := .DELETE
  path := ["users", "bob", "products", "3"]
  authorization := .bearer bobToken
  json := fun h =>
    match h with
    | .deleteProduct => .ok { UserID := 7, Username := "bob", ProductID := 3 }
    | _ => .error (.other "unexpected end of JSON input")
  uuid := fun _ => 9
  issue := sampleEnv
  now := 1700000000500000000

/-- The request `DELETE /users/bob/menus/3` with the token of "bob" and the body
`{"id": <uuid 3>, "user_id": <uuid 7>, "shop_name": "bob"}`. -/
def bobDeletesMenuItem : Request StructSeg where
  method := .DELETE
  path := ["users", "bob", "menus", "3"]
  authorization := .bearer bobToken
  json := fun h =>
    match h with
    | .deleteMenuItem => .ok { ID := 3, UserID := 7, ShopName := "bob" }
    | _ => .error (.other "unexpected end of JSON input")
  uuid := fun _ => 9
  issue := sampleEnv
  now := 1700000000500000000

/-- The request `DELETE /users/bob/orders/100` with the token of "bob" and the
body `{"shop_name": "bob", "id": <uuid 100>}`. -/
def bobDeletesOrderItem : Request StructSeg where
  method := .DELETE
  path := ["users", "bob", "orders", "100"]
  authorization := .bearer bobToken
  json := fun h =>
    match h with
    | .deleteOrderItem => .ok { ShopName := "bob", ID := 100 }
    | _ => .error (.other "unexpected end of JSON input")
  uuid := fun _ => 9
  issue := sampleEnv
  now := 1700000000500000000

/-! ## Lemmas on the token service -/

theorem structLib_lawful : structLib.Lawful :=
  ⟨fun _ => rfl, fun c _ => ⟨.claims c, rfl, rfl⟩, fun _ => rfl⟩

/-- When the claims encode, `CreateToken` returns them signed. -/
theorem CreateToken_of_encode {Seg : Type} (L : JwtLib Seg) (maker : JWTMaker) (env : IssueEnv)
    (username : String) (duration : Duration) (c : Seg)
    (hc : L.encodeClaims (issuedClaims env username duration) = .ok c) :
    maker.CreateToken L env username duration = .ok (signedSegments L maker.secretKey c) := by
  unfold issuedClaims at hc
  simp only [JWTMaker.CreateToken, Token.SignedString, NewWithClaims, hc]
  rfl

/-- When the claims do not encode, `CreateToken` fails. -/
theorem CreateToken_of_encode_error {Seg : Type} (L : JwtLib Seg) (maker : JWTMaker)
    (env : IssueEnv) (username : String) (duration : Duration) (e : GoError)
    (hc : L.encodeClaims (issuedClaims env username duration) = .error e) :
    maker.CreateToken L env username duration = .error e := by
  unfold issuedClaims at hc
  simp only [JWTMaker.CreateToken, Token.SignedString, NewWithClaims, hc]

/-- A token returned by `CreateToken` is the signed encoding of the issued claims. -/
theorem CreateToken_inv {Seg : Type} (L : JwtLib Seg) (maker : JWTMaker) (env : IssueEnv)
    (username : String) (duration : Duration) (tok : List Seg)
    (h : maker.CreateToken L env username duration = .ok tok) :
    ∃ c, L.encodeClaims (issuedClaims env username duration) = .ok c ∧
      tok = signedSegments L maker.secretKey c := by
  cases hc : L.encodeClaims (issuedClaims env username duration) with
  | error e => rw [CreateToken_of_encode_error L maker env username duration e hc] at h; cases h
  | ok c =>
    rw [CreateToken_of_encode L maker env username duration c hc] at h
    injection h with h
    exact ⟨c, rfl, h.symm⟩

theorem GetSigningMethod_HS256 : GetSigningMethod "HS256" = some (.hmac .SHA256) := by
  decide

/-- Verification of a signed token whose claims segment decodes, by a maker whose
key yields the same HS256 sum: the outcome is decided by the claims validator. -/
theorem VerifyToken_signed {Seg : Type} (L : JwtLib Seg) (hL : L.Lawful)
    (key : Bytes) (verifier : JWTMaker) (now : Time) (c : Seg) (claims : JWTClaims)
    (hdec : L.decodeClaims c = .ok claims)
    (hkey : hmacSum L .SHA256 verifier.secretKey
        (L.signingString (L.encodeHeader issuedHeader) c) =
      hmacSum L .SHA256 key (L.signingString (L.encodeHeader issuedHeader) c)) :
    verifier.VerifyToken L now (signedSegments L key c) =
      match Validate now claims with
      | .error err => .error (newError "" .jwtErrTokenInvalidClaims [err])
      | .ok () => .ok claims.payload := by
  simp only [JWTMaker.VerifyToken, signedSegments, ParseWithClaims, ParseUnverified, hL.header,
    hdec, hL.segment, issuedHeader, GetSigningMethod_HS256, JWTMaker.keyFunc,
    SigningMethod.isHMAC, SigningMethod.Verify]
  simp only [Bool.not_true, Bool.false_eq_true, if_false]
  simp only [issuedHeader] at hkey
  rw [if_pos hkey.symm]
  cases Validate now claims <;> rfl

/-- The token `CreateToken` returns over `structLib`. -/
theorem structLib_CreateToken (maker : JWTMaker) (env : IssueEnv) (username : String)
    (duration : Duration) :
    maker.CreateToken structLib env username duration =
      .ok (signedSegments structLib maker.secretKey
        (.claims (issuedClaims env username duration))) :=
  CreateToken_of_encode structLib maker env username duration _ rfl

/-- Verification over `structLib` of a token issued over it. -/
theorem structLib_VerifyToken (key : Bytes) (verifier : JWTMaker) (now : Time) (env : IssueEnv)
    (username : String) (duration : Duration)
    (hkey : hmacSum structLib .SHA256 verifier.secretKey
        (structLib.signingString (structLib.encodeHeader issuedHeader)
          (.claims (issuedClaims env username duration))) =
      hmacSum structLib .SHA256 key
        (structLib.signingString (structLib.encodeHeader issuedHeader)
          (.claims (issuedClaims env username duration)))) :
    verifier.VerifyToken structLib now
        (signedSegments structLib key (.claims (issuedClaims env username duration))) =
      match Validate now (issuedClaims env username duration) with
      | .error err => .error (newError "" .jwtErrTokenInvalidClaims [err])
      | .ok () => .ok (NewPayload env username duration) :=
  VerifyToken_signed structLib structLib_lawful key verifier now _ _ rfl hkey

theorem NewNumericDate_le (t : Time) : NewNumericDate t ≤ t := by
  have h : 0 ≤ t % Second := Int.emod_nonneg t (by decide)
  show t - t % Second ≤ t
  linarith

theorem NewNumericDate_gt (t : Time) : t - Second < NewNumericDate t := by
  have h : t % Second < Second := Int.emod_lt_of_pos t (by decide)
  show t - Second < t - t % Second
  linarith

theorem NewNumericDate_emod (t : Time) : NewNumericDate t % Second = 0 := by
  show (t - t % Second) % Second = 0
  exact Int.emod_eq_zero_of_dvd (Int.dvd_sub_of_emod_eq rfl)

/-- With a valid clock and an `int64` duration, the issued claims are within the
range that the JSON layer renders exactly. -/
theorem issuedClaims_marshals (env : IssueEnv) (username : String) (duration : Duration)
    (henv : env.valid) (hdur : isInt64 duration) :
    (issuedClaims env username duration).marshals := by
  obtain ⟨⟨h1, _, h2⟩, ⟨h3, _, h4⟩⟩ := henv
  obtain ⟨h5, h6⟩ := hdur
  have hle := NewNumericDate_le (env.now2 + duration)
  have hgt := NewNumericDate_gt (env.now2 + duration)
  have hs : Second = 1000000000 := rfl
  refine ⟨⟨?_, ?_⟩, ⟨?_, ?_⟩, ⟨NewNumericDate_emod _, ?_, ?_⟩, trivial, trivial⟩
  · show (-18446744073709551616 : Int) ≤ env.now1
    linarith
  · show env.now1 < (18446744073709551616 : Int)
    linarith
  · show (-18446744073709551616 : Int) ≤ env.now2 + duration
    linarith
  · show env.now2 + duration < (18446744073709551616 : Int)
    linarith
  · show (-18446744073709551616 : Int) ≤ NewNumericDate (env.now2 + duration)
    linarith
  · show NewNumericDate (env.now2 + duration) < (18446744073709551616 : Int)
    linarith

/-- With a valid clock and an `int64` duration, `CreateToken` succeeds and the
claims segment of its token decodes to the issued claims. -/
theorem CreateToken_ok {Seg : Type} (L : JwtLib Seg) (hL : L.Lawful) (maker : JWTMaker)
    (env : IssueEnv) (username : String) (duration : Duration)
    (henv : env.valid) (hdur : isInt64 duration) :
    ∃ c, L.decodeClaims c = .ok (issuedClaims env username duration) ∧
      maker.CreateToken L env username duration = .ok (signedSegments L maker.secretKey c) := by
  obtain ⟨c, henc, hdec⟩ := hL.claims _ (issuedClaims_marshals env username duration henv hdur)
  exact ⟨c, hdec, CreateToken_of_encode L maker env username duration c henc⟩

theorem Validate_issued_ok (env : IssueEnv) (username : String) (duration : Duration)
    (now : Time) (h : now < NewNumericDate (env.now2 + duration)) :
    Validate now (issuedClaims env username duration) = .ok () := by
  simp [Validate, issuedClaims, NewPayload, h]

theorem Validate_issued_expired (env : IssueEnv) (username : String) (duration : Duration)
    (now : Time) (h : ¬ now < NewNumericDate (env.now2 + duration)) :
    Validate now (issuedClaims env username duration) =
      .error (.wrapped "token is expired" [.jwtErrTokenExpired]) := by
  simp only [Validate, issuedClaims, NewPayload, h, if_false, List.append_nil, List.map]
  rfl

/-- A key shorter than the block and the same key followed by a zero byte
have the same key block, whatever the hash is. -/
theorem hmacKeyBlock_append_zero {Seg : Type} (L : JwtLib Seg) (h : CryptoHash) (key : Bytes)
    (hlen : key.length < h.BlockSize) :
    hmacKeyBlock L h (key ++ [0]) = hmacKeyBlock L h key := by
  have h1 : ¬ key.length + 1 > h.BlockSize := by omega
  have h2 : ¬ key.length > h.BlockSize := by omega
  have h3 : h.BlockSize - key.length = (h.BlockSize - (key.length + 1)) + 1 := by omega
  simp only [hmacKeyBlock, h1, h2, if_false, List.length_append, List.length_singleton]
  rw [h3, List.replicate_succ, List.append_assoc, List.singleton_append]

theorem hmacSum_append_zero {Seg : Type} (L : JwtLib Seg) (h : CryptoHash) (key msg : Bytes)
    (hlen : key.length < h.BlockSize) :
    hmacSum L h (key ++ [0]) msg = hmacSum L h key msg := by
  simp only [hmacSum, hmacKeyBlock_append_zero L h key hlen]

/-- A secret of 32 bytes or more yields a maker holding it. -/
theorem NewJWTMaker_ok (secretKey : Bytes) (h : 32 ≤ secretKey.length) :
    NewJWTMaker secretKey = .ok { secretKey := secretKey } := by
  have h1 : ¬ secretKey.length < 32 := by omega
  simp [NewJWTMaker, minSecretKeySize, h1]

/-- For every hash function and text layer, a token issued under a secret shorter
than 64 bytes is accepted under that secret followed by a zero byte. -/
theorem VerifyToken_zero_padded_secret {Seg : Type} (L : JwtLib Seg) (hL : L.Lawful)
    (secretKey : Bytes) (hlen : secretKey.length < 64) (env : IssueEnv) (S : String)
    (ttl : Duration) (now : Time) (henv : env.valid) (hdur : isInt64 ttl)
    (hnow : now < NewNumericDate (env.now2 + ttl)) :
    ∃ tok, (JWTMaker.mk secretKey).CreateToken L env S ttl = .ok tok ∧
      (JWTMaker.mk (secretKey ++ [0])).VerifyToken L now tok = .ok (NewPayload env S ttl) := by
  obtain ⟨c, hdec, hc⟩ := CreateToken_ok L hL ⟨secretKey⟩ env S ttl henv hdur
  refine ⟨_, hc, ?_⟩
  rw [VerifyToken_signed L hL _ _ _ _ _ hdec (hmacSum_append_zero L .SHA256 secretKey _ hlen),
    Validate_issued_ok _ _ _ _ hnow]
  rfl

/-! ## Theorems on the token service -/

/-- C5: `NewJWTMaker` fails with `ErrInvalidKeySize` exactly when the secret is
shorter than 32 bytes, returns a maker holding exactly that key exactly when the
secret has 32 bytes or more, and the error text is
"invalid key size: must be at least 32". -/
theorem NewJWTMaker_key_size (secretKey : Bytes) :
    (NewJWTMaker secretKey = .error (.sentinel .ErrInvalidKeySize) ↔ secretKey.length < 32) ∧
    (NewJWTMaker secretKey = .ok { secretKey := secretKey } ↔ 32 ≤ secretKey.length) ∧
    (GoError.sentinel .ErrInvalidKeySize).Error = "invalid key size: must be at least 32" := by
  refine ⟨?_, ?_, by decide⟩
  · unfold NewJWTMaker minSecretKeySize
    by_cases h : secretKey.length < 32
    · simp [h]
    · simp [h]
  · unfold NewJWTMaker minSecretKeySize
    by_cases h : secretKey.length < 32
    · simp [h]
    · simp only [h, if_false, true_iff]; omega

/-- C1 (as stated, refuted): with a 32-byte secret, the token issued for "alice"
with ttl = 1ns at clock reading 1700000000.5s and verified at that same reading is
rejected as expired, because `exp` is `ExpiredAt` truncated to whole seconds. -/
theorem verifyToken_subsecond_ttl_rejected :
    (32 ≤ sampleKey.length ∧ (0 : Duration) < 1) ∧
    ∃ tok, (JWTMaker.mk sampleKey).CreateToken structLib sampleEnv "alice" 1 = .ok tok ∧
      (JWTMaker.mk sampleKey).VerifyToken structLib sampleEnv.now2 tok =
        .error (.wrapped "token has invalid claims: token is expired"
          [.jwtErrTokenInvalidClaims, .jwtErrTokenExpired]) := by
  refine ⟨by decide, _, structLib_CreateToken _ _ _ _, ?_⟩
  rw [structLib_VerifyToken _ _ _ _ _ _ rfl, Validate_issued_expired _ _ _ _ (by decide)]
  rfl

/-- C1 (amended): for a secret of at least 32 bytes, every username `S` and every
ttl of at least one second, the token returned by `CreateToken(S, ttl)` is
accepted at the clock reading of issuance, and at every reading up to `ttl - 1s`
after it, and the payload returned has `Username = S`. The clock readings are
within the range of `UnixNano` and the ttl is an `int64`. -/
theorem verifyToken_createToken_username {Seg : Type} (L : JwtLib Seg) (hL : L.Lawful)
    (secretKey : Bytes) (h32 : 32 ≤ secretKey.length) (env : IssueEnv) (S : String)
    (ttl : Duration) (henv : env.valid) (hdur : isInt64 ttl) (httl : Second ≤ ttl) :
    ∃ maker, NewJWTMaker secretKey = .ok maker ∧
      ∃ tok, maker.CreateToken L env S ttl = .ok tok ∧
        (∃ payload, maker.VerifyToken L env.now2 tok = .ok payload ∧ payload.Username = S) ∧
        ∀ now, now ≤ env.now2 + ttl - Second →
          ∃ payload, maker.VerifyToken L now tok = .ok payload ∧ payload.Username = S := by
  have hwin : ∀ now : Time, now ≤ env.now2 + ttl - Second →
      now < NewNumericDate (env.now2 + ttl) := by
    intro now h2
    have h3 := NewNumericDate_gt (env.now2 + ttl)
    linarith
  obtain ⟨c, hdec, hc⟩ := CreateToken_ok L hL ⟨secretKey⟩ env S ttl henv hdur
  refine ⟨{ secretKey := secretKey }, NewJWTMaker_ok secretKey h32, _, hc,
    ⟨NewPayload env S ttl, ?_, rfl⟩, ?_⟩
  · rw [VerifyToken_signed L hL _ _ _ _ _ hdec rfl,
      Validate_issued_ok _ _ _ _ (hwin _ (by linarith))]
    rfl
  · intro now h2
    refine ⟨NewPayload env S ttl, ?_, rfl⟩
    rw [VerifyToken_signed L hL _ _ _ _ _ hdec rfl, Validate_issued_ok _ _ _ _ (hwin _ h2)]
    rfl

theorem verifyToken_createToken_username_witness :
    ∃ maker, NewJWTMaker sampleKey = .ok maker ∧
      ∃ tok, maker.CreateToken structLib sampleEnv "alice" (60 * Second) = .ok tok ∧
        (∃ payload, maker.VerifyToken structLib sampleEnv.now2 tok = .ok payload ∧
          payload.Username = "alice") ∧
        ∀ now, now ≤ sampleEnv.now2 + 60 * Second - Second →
          ∃ payload, maker.VerifyToken structLib now tok = .ok payload ∧
            payload.Username = "alice" :=
  verifyToken_createToken_username structLib structLib_lawful sampleKey (by decide)
    sampleEnv "alice" (60 * Second) (by decide) (by decide) (by decide)

/-- C4: for every username and every ttl < 0, `CreateToken` succeeds with a
non-empty token, and `VerifyToken` on it at any clock reading not before issuance
returns no payload and an error whose text is
"token has invalid claims: token is expired". The clock readings are within the
range of `UnixNano` and the ttl is an `int64`. -/
theorem verifyToken_negative_ttl_expired {Seg : Type} (L : JwtLib Seg) (hL : L.Lawful)
    (secretKey : Bytes) (h32 : 32 ≤ secretKey.length) (env : IssueEnv) (S : String)
    (ttl : Duration) (now : Time) (henv : env.valid) (hdur : isInt64 ttl) (httl : ttl < 0)
    (hnow : env.now2 ≤ now) :
    ∃ maker, NewJWTMaker secretKey = .ok maker ∧
      ∃ tok, maker.CreateToken L env S ttl = .ok tok ∧ tok ≠ [] ∧
        ∃ err, maker.VerifyToken L now tok = .error err ∧
          err.Error = "token has invalid claims: token is expired" := by
  have hge : ¬ now < NewNumericDate (env.now2 + ttl) := by
    have h3 := NewNumericDate_le (env.now2 + ttl)
    intro h
    linarith
  obtain ⟨c, hdec, hc⟩ := CreateToken_ok L hL ⟨secretKey⟩ env S ttl henv hdur
  refine ⟨{ secretKey := secretKey }, NewJWTMaker_ok secretKey h32, _, hc,
    by simp [signedSegments],
    newError "" .jwtErrTokenInvalidClaims [.wrapped "token is expired" [.jwtErrTokenExpired]],
    ?_, by decide⟩
  rw [VerifyToken_signed L hL _ _ _ _ _ hdec rfl, Validate_issued_expired _ _ _ _ hge]

theorem verifyToken_negative_ttl_expired_witness :
    ∃ maker, NewJWTMaker sampleKey = .ok maker ∧
      ∃ tok, maker.CreateToken structLib sampleEnv "alice" (-(60 * Second)) = .ok tok ∧
        tok ≠ [] ∧
        ∃ err, maker.VerifyToken structLib 1700000000500000001 tok = .error err ∧
          err.Error = "token has invalid claims: token is expired" :=
  verifyToken_negative_ttl_expired structLib structLib_lawful sampleKey (by decide)
    sampleEnv "alice" (-(60 * Second)) 1700000000500000001 (by decide) (by decide)
    (by decide) (by decide)

/-- C7: whenever `VerifyToken` succeeds on a token produced by `CreateToken(S, ttl)`
of the same maker, the payload returned is the payload built at issuance: the same
ID, the same Username, and the same IssuedAt and ExpiredAt instants. The clock
readings are within the range of `UnixNano` and the ttl is an `int64`. -/
theorem verifyToken_returns_issued_payload {Seg : Type} (L : JwtLib Seg) (hL : L.Lawful)
    (maker : JWTMaker) (env : IssueEnv) (S : String) (ttl : Duration) (now : Time)
    (tok : List Seg) (payload : Payload) (henv : env.valid) (hdur : isInt64 ttl)
    (hc : maker.CreateToken L env S ttl = .ok tok)
    (hv : maker.VerifyToken L now tok = .ok payload) :
    payload = NewPayload env S ttl ∧ payload.ID = env.uuid ∧ payload.Username = S ∧
      payload.IssuedAt = env.now1 ∧ payload.ExpiredAt = env.now2 + ttl := by
  obtain ⟨c, hdec, hc1⟩ := CreateToken_ok L hL maker env S ttl henv hdur
  rw [hc1] at hc
  injection hc with hc
  subst hc
  rw [VerifyToken_signed L hL _ _ _ _ _ hdec rfl] at hv
  have hp : payload = NewPayload env S ttl := by
    cases hval : Validate now (issuedClaims env S ttl) with
    | error e => rw [hval] at hv; cases hv
    | ok u => rw [hval] at hv; injection hv with hv; exact hv.symm
  subst hp
  exact ⟨rfl, rfl, rfl, rfl, rfl⟩

theorem verifyToken_returns_issued_payload_witness :
    NewPayload sampleEnv "alice" (60 * Second) = NewPayload sampleEnv "alice" (60 * Second) ∧
      (NewPayload sampleEnv "alice" (60 * Second)).ID = sampleEnv.uuid ∧
      (NewPayload sampleEnv "alice" (60 * Second)).Username = "alice" ∧
      (NewPayload sampleEnv "alice" (60 * Second)).IssuedAt = sampleEnv.now1 ∧
      (NewPayload sampleEnv "alice" (60 * Second)).ExpiredAt = sampleEnv.now2 + 60 * Second :=
  verifyToken_returns_issued_payload structLib structLib_lawful ⟨sampleKey⟩
    sampleEnv "alice" (60 * Second) 1700000000500000009 _
    (NewPayload sampleEnv "alice" (60 * Second)) (by decide) (by decide)
    (structLib_CreateToken _ _ _ _)
    (by
      rw [structLib_VerifyToken _ _ _ _ _ _ rfl, Validate_issued_ok _ _ _ _ (by decide)])

/-- C3: a token whose three segments decode and whose header names a registered
signing method that is not HMAC is rejected by `VerifyToken` with no payload and
the error "token is unverifiable: error while executing keyfunc: token is invalid",
which wraps `ErrInvalidToken`, whatever its claims and signature are. -/
theorem verifyToken_rejects_non_hmac {Seg : Type} (L : JwtLib Seg) (maker : JWTMaker)
    (now : Time) (p0 p1 p2 : Seg) (header : Header) (claims : JWTClaims) (sig : Bytes)
    (alg : String) (m : SigningMethod)
    (h0 : L.decodeHeader p0 = .ok header) (h1 : L.decodeClaims p1 = .ok claims)
    (h2 : L.decodeSegment p2 = .ok sig) (halg : header.alg = some alg)
    (hm : GetSigningMethod alg = some m) (hnot : m.isHMAC = false) :
    ∃ err, maker.VerifyToken L now [p0, p1, p2] = .error err ∧
      err.Error = "token is unverifiable: error while executing keyfunc: token is invalid" ∧
      err.Is .ErrInvalidToken = true := by
  refine ⟨newError "error while executing keyfunc" .jwtErrTokenUnverifiable
    [.sentinel .ErrInvalidToken], ?_, by decide, by decide⟩
  simp only [JWTMaker.VerifyToken, ParseWithClaims, ParseUnverified, h0, h1, h2, halg, hm,
    JWTMaker.keyFunc, hnot]
  rfl

theorem verifyToken_rejects_non_hmac_witness :
    ∃ err, (JWTMaker.mk sampleKey).VerifyToken structLib 1700000000500000000
        [.header ⟨"JWT", some "none"⟩,
         .claims (issuedClaims sampleEnv "alice" (60 * Second)),
         .signature []] = .error err ∧
      err.Error = "token is unverifiable: error while executing keyfunc: token is invalid" ∧
      err.Is .ErrInvalidToken = true :=
  verifyToken_rejects_non_hmac structLib ⟨sampleKey⟩ 1700000000500000000 _ _ _
    ⟨"JWT", some "none"⟩ (issuedClaims sampleEnv "alice" (60 * Second)) []
    "none" .none rfl rfl rfl rfl (by decide) rfl

/-- C8 (as stated, refuted): the 32-byte secret `sampleKey` and the 33-byte secret
`sampleKey ++ [0]` differ, yet the token issued by the maker of the first is
accepted by the maker of the second: HMAC pads a key shorter than the block with
zero bytes, so both have the same key block. -/
theorem verifyToken_accepts_zero_padded_secret :
    (sampleKey ≠ sampleKey ++ [0] ∧ 32 ≤ sampleKey.length ∧ 32 ≤ (sampleKey ++ [0]).length) ∧
    ∃ tok, (JWTMaker.mk sampleKey).CreateToken structLib sampleEnv "alice" (60 * Second)
        = .ok tok ∧
      (JWTMaker.mk (sampleKey ++ [0])).VerifyToken structLib sampleEnv.now2 tok =
        .ok (NewPayload sampleEnv "alice" (60 * Second)) := by
  exact ⟨by decide, VerifyToken_zero_padded_secret structLib structLib_lawful sampleKey
    (by decide) _ _ _ _ (by decide) (by decide) (by decide)⟩

/-- C8 (amended): `VerifyToken` recomputes the HS256 sum of the signing input under
the own secret of the maker and compares it with the signature. A token issued by
the `k1` maker is rejected by the `k2` maker, with no payload, whenever the sum
under `k2` differs from the sum under `k1`; and a token whose claims segment was
replaced after signing is rejected by the issuing maker whenever the sum of the
altered signing input differs from the signature. -/
theorem verifyToken_checks_signature {Seg : Type} (L : JwtLib Seg) (hL : L.Lawful)
    (k1 k2 : Bytes) (env : IssueEnv) (S : String) (ttl : Duration) (now : Time)
    (p0 p1 p2 : Seg)
    (hc : (JWTMaker.mk k1).CreateToken L env S ttl = .ok [p0, p1, p2])
    (hdiff : hmacSum L .SHA256 k2 (L.signingString p0 p1) ≠
      hmacSum L .SHA256 k1 (L.signingString p0 p1)) :
    (∃ err, (JWTMaker.mk k2).VerifyToken L now [p0, p1, p2] = .error err) ∧
    ∀ q1 : Seg, hmacSum L .SHA256 k1 (L.signingString p0 q1) ≠
        hmacSum L .SHA256 k1 (L.signingString p0 p1) →
      ∃ err, (JWTMaker.mk k1).VerifyToken L now [p0, q1, p2] = .error err := by
  obtain ⟨c, _, htok⟩ := CreateToken_inv L _ env S ttl _ hc
  simp only [signedSegments] at htok
  injection htok with e0 htok
  injection htok with e1 htok
  injection htok with e2 _
  subst e0 e1 e2
  have key : ∀ (k : Bytes) (q : Seg),
      hmacSum L .SHA256 k (L.signingString (L.encodeHeader issuedHeader) q) ≠
        hmacSum L .SHA256 k1 (L.signingString (L.encodeHeader issuedHeader) p1) →
      ∃ err, (JWTMaker.mk k).VerifyToken L now
        [L.encodeHeader issuedHeader, q,
         L.encodeSegment (hmacSum L .SHA256 k1
           (L.signingString (L.encodeHeader issuedHeader) p1))] = .error err := by
    intro k q hq
    simp only [JWTMaker.VerifyToken, ParseWithClaims, ParseUnverified, hL.header, hL.segment,
      issuedHeader, GetSigningMethod_HS256, JWTMaker.keyFunc, SigningMethod.isHMAC,
      SigningMethod.Verify]
    cases hq1 : L.decodeClaims q with
    | error e => exact ⟨e, rfl⟩
    | ok c1 =>
      simp only [hL.segment, Bool.not_true, Bool.false_eq_true, if_false]
      rw [if_neg (fun h => hq h.symm)]
      exact ⟨_, rfl⟩
  exact ⟨key k2 p1 hdiff, fun q1 hq => key k1 q1 hq⟩

theorem verifyToken_checks_signature_witness :
    (∃ err, (JWTMaker.mk otherKey).VerifyToken structLib 1700000000500000000
        [sampleHeaderSeg, sampleClaimsSeg, sampleSigSeg] = .error err) ∧
    ∀ q1 : StructSeg, hmacSum structLib .SHA256 sampleKey
          (structLib.signingString sampleHeaderSeg q1) ≠
        hmacSum structLib .SHA256 sampleKey
          (structLib.signingString sampleHeaderSeg sampleClaimsSeg) →
      ∃ err, (JWTMaker.mk sampleKey).VerifyToken structLib 1700000000500000000
        [sampleHeaderSeg, q1, sampleSigSeg] = .error err :=
  verifyToken_checks_signature structLib structLib_lawful sampleKey otherKey sampleEnv "alice"
    (60 * Second) 1700000000500000000 sampleHeaderSeg sampleClaimsSeg sampleSigSeg rfl
    (by decide)

/-! ## Theorems on the handlers -/

theorem findRoute_alice_products :
    findRoute setupRouter .POST ["users", "alice", "products"] =
      some (⟨.POST, [.lit "users", .param "username", .lit "products"], .createProduct, true⟩,
        [("username", "alice")]) := by
  decide

theorem bobToken_verifies :
    sampleServer.tokenMaker.VerifyToken structLib 1700000000500000000 bobToken =
      .ok (NewPayload sampleEnv "bob" (60 * Second)) := by
  have h : bobToken = _ := congrArg (fun r => match r with | .ok t => t | .error _ => [])
    (structLib_CreateToken sampleServer.tokenMaker sampleEnv "bob" (60 * Second))
  rw [h]
  show sampleServer.tokenMaker.VerifyToken structLib 1700000000500000000 _ = _
  rw [structLib_VerifyToken _ _ _ _ _ _ rfl, Validate_issued_ok _ _ _ _ (by decide)]

/-- C9 (as stated, refuted): `POST /users/alice/products` with a valid token of
"bob" and a body whose username field is "bob" is answered 200 and calls
`CreateProduct` once: the handler compares the body username, not the URI one. -/
theorem createProduct_ignores_uri_username :
    bobPostsUnderAlice.path = ["users", "alice", "products"] ∧
    sampleServer.tokenMaker.VerifyToken structLib bobPostsUnderAlice.now bobToken =
      .ok (NewPayload sampleEnv "bob" (60 * Second)) ∧
    (sampleServer.ServeHTTP bobPostsUnderAlice 0).status = some 200 ∧
    (sampleServer.ServeHTTP bobPostsUnderAlice 0).calls =
      [.CreateProduct ⟨9, 7, "tea", "2.50", "green"⟩] := by
  refine ⟨rfl, bobToken_verifies, ?_, ?_⟩
  · rfl
  · rfl

theorem validateStruct_ok {β : Type} (name : String) (failed : List (String × String))
    (r r1 : β) (h : validateStruct name failed r = .ok r1) : r1 = r := by
  unfold validateStruct at h
  split at h
  · injection h with h; exact h.symm
  · cases h

theorem bound_ok {α : Type} (r : Except GoError α) (h : bound r = true) : ∃ a, r = .ok a := by
  cases r with
  | error e => cases h
  | ok a => exact ⟨a, rfl⟩

theorem bound_and {α β : Type} (r : Except GoError α) (q : Except GoError β)
    (h : (bound r && bound q) = true) : (∃ a, r = .ok a) ∧ ∃ b, q = .ok b := by
  rw [Bool.and_eq_true] at h
  exact ⟨bound_ok r h.1, bound_ok q h.2⟩

theorem utf8ByteSize_pos_of_ne (s : String) (h : s ≠ "") : ¬ s.utf8ByteSize < 1 := by
  obtain ⟨l⟩ := s
  cases l with
  | nil => exact absurd rfl h
  | cons c cs =>
    have := Char.utf8Size_pos c
    show ¬ String.utf8ByteSize.go (c :: cs) < 1
    simp only [String.utf8ByteSize.go]
    omega

theorem ShouldBindJSON_ok {β : Type} (ctx : Context β) (name : String)
    (failed : β → List (String × String)) (req : β)
    (h : ShouldBindJSON ctx name failed = .ok req) : ctx.json = .ok req := by
  unfold ShouldBindJSON at h
  cases hj : ctx.json with
  | error e => rw [hj] at h; cases h
  | ok r => rw [hj] at h; rw [validateStruct_ok _ _ _ _ h]

theorem usersProductsUri_bind_ok {β : Type} (ctx : Context β) (uri : usersProductsUri)
    (h : usersProductsUri.bind ctx = .ok uri) : uri.Username = ctx.Param "username" := by
  unfold usersProductsUri.bind at h
  rw [validateStruct_ok _ _ _ _ h]

theorem getUserRequest_bind_ok {β : Type} (ctx : Context β) (req : getUserRequest)
    (h : getUserRequest.bind ctx = .ok req) :
    req.Username = ctx.Param "username" ∧ ¬ req.Username.utf8ByteSize < 1 := by
  unfold getUserRequest.bind at h
  have hr := validateStruct_ok _ _ _ _ h
  subst hr
  refine ⟨rfl, utf8ByteSize_pos_of_ne _ ?_⟩
  intro he
  have he1 : ctx.Param "username" = "" := he
  simp only [validateStruct] at h
  split at h
  · rename_i hf
    simp only [getUserRequest.failed, checkField] at hf
    rw [he1] at hf
    revert hf
    decide
  · cases h

/-- C2: for every handler registered behind the authorization middleware and every
request that passes binding, if the `Username` of the attached token payload
differs from the owner field the handler compares, the handler answers 401, makes
no store call and leaves the store as it was. -/
theorem protected_handler_rejects_other_owner {σ Seg : Type} (server : Server σ Seg)
    (h : Handler) (ctx : Context h.Req) (st : σ) (payload : Payload) (owner : String)
    (hp : h.isProtected = true) (hauth : ctx.authPayload = some payload)
    (hb : h.bindOk ctx = true) (ho : h.owner ctx = some owner)
    (hne : payload.Username ≠ owner) :
    (server.run h ctx st).status = some StatusUnauthorized ∧
      (server.run h ctx st).calls = [] ∧ (server.run h ctx st).state = st := by
  cases h with
  | createUser => exact absurd hp (by decide)
  | loginUser => exact absurd hp (by decide)
  | getAllMenuItems => exact absurd hp (by decide)
  | createOrders => exact absurd hp (by decide)
  | getOrdersByOrderID => exact absurd hp (by decide)
  | getUser =>
    obtain ⟨req, hreq⟩ := bound_ok _ hb
    obtain ⟨hu, hlen⟩ := getUserRequest_bind_ok ctx req hreq
    have hlen1 : (ctx.Param "username").utf8ByteSize ≠ 0 := by rw [← hu]; omega
    simp only [Handler.owner, Option.some.injEq] at ho
    subst ho
    simp [Server.run, Server.getUser, hreq, hauth, Outcome.status, hu, hlen1, Ne.symm hne]
  | getAllProducts =>
    obtain ⟨⟨uri, huri⟩, ⟨req, hreq⟩⟩ := bound_and _ _ hb
    have hu := usersProductsUri_bind_ok ctx uri huri
    simp only [Handler.owner, Option.some.injEq] at ho
    subst ho
    simp [Server.run, Server.getAllProducts, huri, hreq, hauth, Outcome.status, hu, Ne.symm hne]
  | updateProduct =>
    obtain ⟨⟨uri, huri⟩, ⟨req, hreq⟩⟩ := bound_and _ _ hb
    have hu := usersProductsUri_bind_ok ctx uri huri
    simp only [Handler.owner, Option.some.injEq] at ho
    subst ho
    simp [Server.run, Server.updateProduct, huri, hreq, hauth, Outcome.status, hu, Ne.symm hne]
  | createProduct =>
    obtain ⟨req, hreq⟩ := bound_ok _ hb
    have hj := ShouldBindJSON_ok ctx _ _ req hreq
    simp only [Handler.owner, hj, Option.some.injEq] at ho
    subst ho
    simp [Server.run, Server.createProduct, hreq, hauth, Outcome.status, hne, Ne.symm hne]
  | deleteProduct =>
    obtain ⟨req, hreq⟩ := bound_ok _ hb
    have hj := ShouldBindJSON_ok ctx _ _ req hreq
    simp only [Handler.owner, hj, Option.some.injEq] at ho
    subst ho
    simp [Server.run, Server.deleteProduct, hreq, hauth, Outcome.status, hne, Ne.symm hne]
  | addMenuItem =>
    obtain ⟨req, hreq⟩ := bound_ok _ hb
    have hj := ShouldBindJSON_ok ctx _ _ req hreq
    simp only [Handler.owner, hj, Option.some.injEq] at ho
    subst ho
    simp [Server.run, Server.addMenuItem, hreq, hauth, Outcome.status, hne, Ne.symm hne]
  | updateMenuItem =>
    obtain ⟨req, hreq⟩ := bound_ok _ hb
    have hj := ShouldBindJSON_ok ctx _ _ req hreq
    simp only [Handler.owner, hj, Option.some.injEq] at ho
    subst ho
    simp [Server.run, Server.updateMenuItem, hreq, hauth, Outcome.status, hne, Ne.symm hne]
  | deleteMenuItem =>
    obtain ⟨req, hreq⟩ := bound_ok _ hb
    have hj := ShouldBindJSON_ok ctx _ _ req hreq
    simp only [Handler.owner, hj, Option.some.injEq] at ho
    subst ho
    simp [Server.run, Server.deleteMenuItem, hreq, hauth, Outcome.status, hne, Ne.symm hne]
  | updateOrderItem =>
    obtain ⟨req, hreq⟩ := bound_ok _ hb
    have hj := ShouldBindJSON_ok ctx _ _ req hreq
    simp only [Handler.owner, hj, Option.some.injEq] at ho
    subst ho
    simp [Server.run, Server.updateOrderItem, hreq, hauth, Outcome.status, hne, Ne.symm hne]
  | getOrdersByDay =>
    obtain ⟨req, hreq⟩ := bound_ok _ hb
    have hj := ShouldBindJSON_ok ctx _ _ req hreq
    simp only [Handler.owner, hj, Option.some.injEq] at ho
    subst ho
    simp [Server.run, Server.getOrdersByDay, hreq, hauth, Outcome.status, hne, Ne.symm hne]
  | deleteOrderItem =>
    obtain ⟨req, hreq⟩ := bound_ok _ hb
    have hj := ShouldBindJSON_ok ctx _ _ req hreq
    simp only [Handler.owner, hj, Option.some.injEq] at ho
    subst ho
    simp [Server.run, Server.deleteOrderItem, hreq, hauth, Outcome.status, hne, Ne.symm hne]

theorem protected_handler_rejects_other_owner_witness :
    (sampleServer.run .createProduct malloryProductCtx 0).status = some StatusUnauthorized ∧
      (sampleServer.run .createProduct malloryProductCtx 0).calls = [] ∧
      (sampleServer.run .createProduct malloryProductCtx 0).state = 0 :=
  protected_handler_rejects_other_owner sampleServer .createProduct malloryProductCtx 0
    (NewPayload sampleEnv "mallory" (60 * Second)) "bob" (by decide) rfl (by decide) rfl
    (by decide)

/-- Every handler answers 400, without any store call, when one of its binding
calls fails (decoding error, or a `binding` rule the validator evaluates). -/
theorem run_bind_failure {σ Seg : Type} (server : Server σ Seg) (h : Handler)
    (ctx : Context h.Req) (st : σ) (hb : h.bindOk ctx = false) :
    (server.run h ctx st).status = some StatusBadRequest ∧
      (server.run h ctx st).calls = [] ∧ (server.run h ctx st).state = st := by
  cases h with
  | createUser =>
    cases hbind : createUserRequest.bind ctx with
    | ok r => simp [Handler.bindOk, hbind, bound] at hb
    | error e => simp [Server.run, Server.createUser, hbind, Outcome.status]
  | loginUser =>
    cases hbind : loginUserRequest.bind ctx with
    | ok r => simp [Handler.bindOk, hbind, bound] at hb
    | error e => simp [Server.run, Server.loginUser, hbind, Outcome.status]
  | getAllMenuItems =>
    cases hbind : getAllMenuItemsUri.bind ctx with
    | ok r => simp [Handler.bindOk, hbind, bound] at hb
    | error e => simp [Server.run, Server.getAllMenuItems, hbind, Outcome.status]
  | createOrders =>
    cases hbind : createOrderRequest.bind ctx with
    | ok r => simp [Handler.bindOk, hbind, bound] at hb
    | error e => simp [Server.run, Server.createOrders, hbind, Outcome.status]
  | getOrdersByOrderID =>
    cases hbind : getOrdersByOrderIDRequest.bind ctx with
    | ok r => simp [Handler.bindOk, hbind, bound] at hb
    | error e => simp [Server.run, Server.getOrdersByOrderID, hbind, Outcome.status]
  | getUser =>
    cases hbind : getUserRequest.bind ctx with
    | ok r => simp [Handler.bindOk, hbind, bound] at hb
    | error e => simp [Server.run, Server.getUser, hbind, Outcome.status]
  | createProduct =>
    cases hbind : createProductRequest.bind ctx with
    | ok r => simp [Handler.bindOk, hbind, bound] at hb
    | error e => simp [Server.run, Server.createProduct, hbind, Outcome.status]
  | deleteProduct =>
    cases hbind : deleteProductRequest.bind ctx with
    | ok r => simp [Handler.bindOk, hbind, bound] at hb
    | error e => simp [Server.run, Server.deleteProduct, hbind, Outcome.status]
  | addMenuItem =>
    cases hbind : addMenuItemRequest.bind ctx with
    | ok r => simp [Handler.bindOk, hbind, bound] at hb
    | error e => simp [Server.run, Server.addMenuItem, hbind, Outcome.status]
  | updateMenuItem =>
    cases hbind : updateMenuItemRequest.bind ctx with
    | ok r => simp [Handler.bindOk, hbind, bound] at hb
    | error e => simp [Server.run, Server.updateMenuItem, hbind, Outcome.status]
  | deleteMenuItem =>
    cases hbind : deleteMenuItemRequest.bind ctx with
    | ok r => simp [Handler.bindOk, hbind, bound] at hb
    | error e => simp [Server.run, Server.deleteMenuItem, hbind, Outcome.status]
  | updateOrderItem =>
    cases hbind : updateOrderItemRequest.bind ctx with
    | ok r => simp [Handler.bindOk, hbind, bound] at hb
    | error e => simp [Server.run, Server.updateOrderItem, hbind, Outcome.status]
  | getOrdersByDay =>
    cases hbind : getOrdersByDayRequest.bind ctx with
    | ok r => simp [Handler.bindOk, hbind, bound] at hb
    | error e => simp [Server.run, Server.getOrdersByDay, hbind, Outcome.status]
  | deleteOrderItem =>
    cases hbind : deleteOrderItemRequest.bind ctx with
    | ok r => simp [Handler.bindOk, hbind, bound] at hb
    | error e => simp [Server.run, Server.deleteOrderItem, hbind, Outcome.status]
  | getAllProducts =>
    cases huri : usersProductsUri.bind ctx with
    | error e => simp [Server.run, Server.getAllProducts, huri, Outcome.status]
    | ok uri =>
      cases hbind : getAllProductsRequest.bind ctx with
      | ok r => simp [Handler.bindOk, huri, hbind, bound] at hb
      | error e => simp [Server.run, Server.getAllProducts, huri, hbind, Outcome.status]
  | updateProduct =>
    cases huri : usersProductsUri.bind ctx with
    | error e => simp [Server.run, Server.updateProduct, huri, Outcome.status]
    | ok uri =>
      cases hbind : updateProductRequest.bind ctx with
      | ok r => simp [Handler.bindOk, huri, hbind, bound] at hb
      | error e => simp [Server.run, Server.updateProduct, huri, hbind, Outcome.status]

/-- C6: on every route registered behind the authorization middleware, a request
with no `Authorization` header, with a header not of the form `Bearer <token>`,
or with a token that `VerifyToken` rejects is answered 401 with the error of the
middleware; the handler of the route is not run, no store call is made and the
store is left as it was. -/
theorem auth_route_rejects_unauthenticated {σ Seg : Type} (server : Server σ Seg)
    (req : Request Seg) (st : σ) (route : Route) (params : List (String × String))
    (hroute : findRoute setupRouter req.method req.path = some (route, params))
    (hauth : route.auth = true)
    (hfail : req.authorization = .absent ∨ (∃ v, req.authorization = .malformed v) ∨
      ∃ tok err, req.authorization = .bearer tok ∧
        server.tokenMaker.VerifyToken server.jwt req.now tok = .error err) :
    ∃ err, authMiddleware server.jwt server.tokenMaker req.now req.authorization = .error err ∧
      server.ServeHTTP req st =
        ⟨.json StatusUnauthorized (errorResponse err), [], st⟩ ∧
      (server.ServeHTTP req st).status = some StatusUnauthorized ∧
      (server.ServeHTTP req st).calls = [] := by
  have hmw : ∃ err,
      authMiddleware server.jwt server.tokenMaker req.now req.authorization = .error err := by
    rcases hfail with h | ⟨v, h⟩ | ⟨tok, err, h, hv⟩
    · exact ⟨_, by rw [h]; rfl⟩
    · exact ⟨_, by rw [h]; rfl⟩
    · exact ⟨err, by rw [h]; exact hv⟩
  obtain ⟨err, herr⟩ := hmw
  have hs : server.ServeHTTP req st = ⟨.json StatusUnauthorized (errorResponse err), [], st⟩ := by
    simp only [Server.ServeHTTP, hroute, Server.serveRoute, hauth, herr, if_true]
  exact ⟨err, herr, hs, by rw [hs]; rfl, by rw [hs]⟩

theorem auth_route_rejects_unauthenticated_witness :
    ∃ err, authMiddleware sampleServer.jwt sampleServer.tokenMaker anonymousGetUser.now
        anonymousGetUser.authorization = .error err ∧
      sampleServer.ServeHTTP anonymousGetUser 0 =
        ⟨.json StatusUnauthorized (errorResponse err), [], 0⟩ ∧
      (sampleServer.ServeHTTP anonymousGetUser 0).status = some StatusUnauthorized ∧
      (sampleServer.ServeHTTP anonymousGetUser 0).calls = [] :=
  auth_route_rejects_unauthenticated sampleServer anonymousGetUser 0
    ⟨.GET, [.lit "users", .param "username"], .getUser, true⟩ [("username", "bob")]
    (by decide) rfl (Or.inl rfl)


/-- C9 (amended): a `POST /users/alice/products` carrying a valid token whose subject
is "bob" makes no store call whenever its body is not a body that passes binding
with the username field "bob": it is answered 401 when the body passes binding
(its username then differs from "bob") and 400 when the body fails binding. -/
theorem createProduct_under_alice_with_bob_token {σ Seg : Type} (server : Server σ Seg)
    (req : Request Seg) (st : σ) (payload : Payload)
    (hm : req.method = .POST) (hpath : req.path = ["users", "alice", "products"])
    (htok : authMiddleware server.jwt server.tokenMaker req.now req.authorization = .ok payload)
    (hsub : payload.Username = "bob")
    (hbody : ∀ body : createProductRequest, req.json .createProduct = .ok body →
      body.failed.isEmpty = true → body.Username ≠ "bob") :
    (server.ServeHTTP req st).calls = [] ∧ (server.ServeHTTP req st).state = st ∧
      (server.ServeHTTP req st).status =
        some (match req.json .createProduct with
          | .ok (body : createProductRequest) =>
            if body.failed.isEmpty then StatusUnauthorized else StatusBadRequest
          | .error _ => StatusBadRequest) := by
  simp only [Server.ServeHTTP, hm, hpath, findRoute_alice_products, Server.serveRoute, htok,
    if_true, Server.run, Server.createProduct, createProductRequest.bind, ShouldBindJSON]
  cases hj : req.json .createProduct with
  | error e => simp [Outcome.status]
  | ok body =>
    by_cases hf : (createProductRequest.failed body).isEmpty = true
    · have hne := hbody body hj hf
      simp [validateStruct, hf, hsub, hne, Outcome.status]
    · simp [validateStruct, hf, Outcome.status]

theorem createProduct_under_alice_with_bob_token_witness :
    (sampleServer.ServeHTTP bobPostsAliceBody 0).calls = [] ∧
      (sampleServer.ServeHTTP bobPostsAliceBody 0).state = 0 ∧
      (sampleServer.ServeHTTP bobPostsAliceBody 0).status =
        some (match bobPostsAliceBody.json .createProduct with
          | .ok (body : createProductRequest) =>
            if body.failed.isEmpty then StatusUnauthorized else StatusBadRequest
          | .error _ => StatusBadRequest) :=
  createProduct_under_alice_with_bob_token sampleServer bobPostsAliceBody 0
    (NewPayload sampleEnv "bob" (60 * Second)) rfl rfl bobToken_verifies rfl
    (by
      intro body hj _
      have hb : body = { bobProductBody with Username := "alice" } := by
        injection hj with hj; exact hj.symm
      rw [hb]
      decide)

/-- C10 (failing input): the body `{"order_id": <uuid 5>, "orders": [{}]}` of
`POST /shop/order` holds one item whose required fields are all absent, yet
`createOrders` answers 200 and calls `CreateOrderItem` once with the empty
fields: the `binding` tag of `Orders` has no `dive`, so the tags of
`createOrderItemRequest` are never evaluated. -/
theorem createOrders_accepts_item_without_required_fields :
    emptyItemOrder.json .createOrders =
        .ok { OrderID := 5, Orders := some [⟨"", "", "", ⟨false, 0, 0⟩, 0, ""⟩] } ∧
      requiredString "" = false ∧
      (sampleServer.ServeHTTP emptyItemOrder 0).status = some StatusOK ∧
      (sampleServer.ServeHTTP emptyItemOrder 0).calls =
        [.CreateOrderItem ⟨9, "", 5, "", "", "0.00", 0, ""⟩] := by
  refine ⟨rfl, rfl, rfl, rfl⟩


/-! ## Theorems on the user handlers -/

/-- C11: for a valid `createUser` request (binding passes, the password hashes),
the status is 403 exactly when the store's `CreateUser` returns a `*pq.Error` whose
code is 23505 ("unique_violation", as in `ErrUniqueViolation`); it is 500 for every
other `CreateUser` error, and 200 when `CreateUser` succeeds. -/
theorem createUser_status {σ Seg : Type} (server : Server σ Seg)
    (ctx : Context createUserRequest) (st : σ) (req : createUserRequest) (hashed : String)
    (res : Except GoError User) (st1 : σ)
    (hb : createUserRequest.bind ctx = .ok req)
    (hh : server.HashPassword req.Password = .ok hashed)
    (hs : server.store.CreateUser
      { ID := ctx.uuid 0, Username := req.Username, HashedPassword := hashed } st = (res, st1)) :
    ((server.createUser ctx st).status = some StatusForbidden ↔
        ∃ msg, res = .error (.pq UniqueViolation msg)) ∧
      (∀ err, res = .error err → (¬ ∃ msg, err = .pq UniqueViolation msg) →
        (server.createUser ctx st).status = some StatusInternalServerError) ∧
      (∀ user, res = .ok user → (server.createUser ctx st).status = some StatusOK) ∧
      isUniqueViolation ErrUniqueViolation = true := by
  refine ⟨?_, ?_, ?_, rfl⟩
  · cases res with
    | ok user => simp [Server.createUser, hb, hh, hs, Outcome.status, StatusOK, StatusForbidden]
    | error err =>
      simp only [Server.createUser, hb, hh, hs]
      split
      · simp [Outcome.status, UniqueViolation]
      · rename_i hne
        simp only [Outcome.status, StatusForbidden, StatusInternalServerError]
        constructor
        · intro h; simp at h
        · rintro ⟨msg, hmsg⟩
          injection hmsg with hmsg
          exact absurd hmsg (hne msg)
  · intro err he hne
    subst he
    simp only [Server.createUser, hb, hh, hs]
    split
    · rename_i msg
      exact absurd ⟨msg, rfl⟩ hne
    · rfl
  · intro user hu
    subst hu
    simp [Server.createUser, hb, hh, hs, Outcome.status]

theorem createUser_status_witness :
    (((errorServer ErrUniqueViolation).createUser aliceSignupCtx 0).status =
          some StatusForbidden ↔
        ∃ msg, (Except.error ErrUniqueViolation : Except GoError User) =
          .error (.pq UniqueViolation msg)) ∧
      (∀ err, (Except.error ErrUniqueViolation : Except GoError User) = .error err →
        (¬ ∃ msg, err = .pq UniqueViolation msg) →
        ((errorServer ErrUniqueViolation).createUser aliceSignupCtx 0).status =
          some StatusInternalServerError) ∧
      (∀ user, (Except.error ErrUniqueViolation : Except GoError User) = .ok user →
        ((errorServer ErrUniqueViolation).createUser aliceSignupCtx 0).status = some StatusOK) ∧
      isUniqueViolation ErrUniqueViolation = true :=
  createUser_status (errorServer ErrUniqueViolation) aliceSignupCtx 0 ⟨"alice", "password1"⟩
    "hash:password1" (.error ErrUniqueViolation) 1 (by rfl) rfl rfl

/-- C12: for `getUser` with a token whose subject equals the URI username, and for
`loginUser` with a valid body, the store's `GetUser` is called exactly once, with
the requested username; the status is 404 exactly when `GetUser` returns
`sql.ErrNoRows`, and 500 when it returns any other error. -/
theorem getUser_loginUser_lookup {σ Seg : Type} (server : Server σ Seg) (h : Handler)
    (ctx : Context h.Req) (st : σ) (name : String)
    (hh : h = .getUser ∨ h = .loginUser)
    (hb : h.bindOk ctx = true) (hname : h.requestedUsername ctx = some name)
    (hauth : h = .getUser → ∃ p, ctx.authPayload = some p ∧ p.Username = name) :
    (server.run h ctx st).calls = [.GetUser name] ∧
      ((server.run h ctx st).status = some StatusNotFound ↔
        (server.store.GetUser name st).1 = .error (.sentinel .sqlErrNoRows)) ∧
      ∀ err, (server.store.GetUser name st).1 = .error err → err ≠ .sentinel .sqlErrNoRows →
        (server.run h ctx st).status = some StatusInternalServerError := by
  rcases hh with hh | hh
  · subst hh
    obtain ⟨p, hp, hpn⟩ := hauth rfl
    obtain ⟨req, hreq⟩ := bound_ok _ hb
    obtain ⟨hu, hlen⟩ := getUserRequest_bind_ok ctx req hreq
    have hlen1 : (ctx.Param "username").utf8ByteSize ≠ 0 := by rw [← hu]; omega
    simp only [Handler.requestedUsername, Option.some.injEq] at hname
    subst hname
    simp only [Server.run, Server.getUser, hreq, hp, hu]
    rcases hs : server.store.GetUser (ctx.Param "username") st with ⟨res, st1⟩
    cases res with
    | ok user => simp [hlen1, hpn, hs, Outcome.status, StatusOK, StatusNotFound]
    | error err =>
      by_cases he : err = .sentinel .sqlErrNoRows
      · simp [hlen1, hpn, hs, he, Outcome.status]
      · simp [hlen1, hpn, hs, he, Outcome.status, StatusNotFound, StatusInternalServerError]
  · subst hh
    obtain ⟨req, hreq⟩ := bound_ok _ hb
    have hj := ShouldBindJSON_ok ctx _ _ req hreq
    simp only [Handler.requestedUsername, hj, Option.some.injEq] at hname
    subst hname
    simp only [Server.run, Server.loginUser, hreq]
    rcases hs : server.store.GetUser req.Username st with ⟨res, st1⟩
    cases res with
    | error err =>
      by_cases he : err = .sentinel .sqlErrNoRows
      · simp [hs, he, Outcome.status]
      · simp [hs, he, Outcome.status, StatusNotFound, StatusInternalServerError]
    | ok user =>
      simp only [hs]
      cases server.CheckPassword req.Password user.HashedPassword with
      | error e => simp [Outcome.status, StatusNotFound, StatusUnauthorized]
      | ok u =>
        cases server.tokenMaker.CreateToken server.jwt ctx.issue user.Username
            server.config.AccessTokenDuration with
        | error e => simp [Outcome.status, StatusNotFound, StatusInternalServerError]
        | ok tok => simp [Outcome.status, StatusNotFound, StatusOK]

theorem getUser_loginUser_lookup_witness :
    ((errorServer ErrRecordNotFound).run .getUser bobGetUserCtx 0).calls = [.GetUser "bob"] ∧
      (((errorServer ErrRecordNotFound).run .getUser bobGetUserCtx 0).status =
          some StatusNotFound ↔
        ((errorServer ErrRecordNotFound).store.GetUser "bob" 0).1 =
          .error (.sentinel .sqlErrNoRows)) ∧
      ∀ err, ((errorServer ErrRecordNotFound).store.GetUser "bob" 0).1 = .error err →
        err ≠ .sentinel .sqlErrNoRows →
        ((errorServer ErrRecordNotFound).run .getUser bobGetUserCtx 0).status =
          some StatusInternalServerError :=
  getUser_loginUser_lookup (errorServer ErrRecordNotFound) .getUser bobGetUserCtx 0 "bob"
    (Or.inl rfl) (by decide) rfl (fun _ => ⟨_, rfl, rfl⟩)

/-! ## Lemmas on store errors -/

theorem createOrdersLoop_error {σ Seg : Type} (server : Server σ Seg)
    (ctx : Context createOrderRequest) (orderID : UUID) (items : List createOrderItemRequest) :
    ∀ (i : Nat) (orders : List Order) (calls : List StoreCall) (st : σ),
      ∃ made, (createOrdersLoop server ctx orderID items i orders calls st).calls = calls ++ made ∧
        ∀ e, .error e ∈ (server.store.replay made st).1 →
          (createOrdersLoop server ctx orderID items i orders calls st).reply =
            .json StatusInternalServerError (errorResponse e) := by
  induction items with
  | nil =>
    intro i orders calls st
    refine ⟨[], ?_, ?_⟩
    · cases orders <;> simp [createOrdersLoop]
    · intro e he
      simp [Store.replay] at he
  | cons req rest ih =>
    intro i orders calls st
    rcases hs : server.store.CreateOrderItem (createOrderItemArg ctx orderID i req) st with
      ⟨res, st1⟩
    cases res with
    | error err =>
      refine ⟨[.CreateOrderItem (createOrderItemArg ctx orderID i req)], ?_, ?_⟩
      · simp [createOrdersLoop, hs]
      · intro e he
        simp [Store.replay, Store.apply, hs, Except.map] at he
        subst he
        simp [createOrdersLoop, hs]
    | ok orderItem =>
      obtain ⟨made, hcalls, herr⟩ := ih (i + 1) (orders ++ [orderItem])
        (calls ++ [.CreateOrderItem (createOrderItemArg ctx orderID i req)]) st1
      refine ⟨.CreateOrderItem (createOrderItemArg ctx orderID i req) :: made, ?_, ?_⟩
      · simp [createOrdersLoop, hs, hcalls]
      · intro e he
        simp only [Store.replay, Store.apply, hs, Except.map, List.mem_cons] at he
        rcases he with he | he
        · cases he
        · simp only [createOrdersLoop, hs]
          exact herr e he

theorem isUniqueViolation_pq (msg : String) : isUniqueViolation (.pq "23505" msg) = true := rfl

theorem isUniqueViolation_false (err : GoError) (h : ∀ msg, ¬ err = .pq "23505" msg) :
    isUniqueViolation err = false := by
  cases err with
  | pq code msg =>
    by_cases hc : code = "23505"
    · exact absurd (by rw [hc]) (h msg)
    · simp [isUniqueViolation, UniqueViolation, hc]
  | _ => rfl

/-- Every handler answers an error of the store with `errorResponse` of that
error and the status `errorStatus`. -/
theorem run_store_error {σ Seg : Type} (server : Server σ Seg) (h : Handler)
    (ctx : Context h.Req) (st : σ) (e : GoError)
    (he : .error e ∈ (server.run h ctx st).results server.store st) :
    (server.run h ctx st).reply = .json (errorStatus h e) (errorResponse e) := by
  generalize ho : server.run h ctx st = o at he ⊢
  cases h with
  | createOrders =>
    simp only [Server.run, Server.createOrders] at ho
    split at ho
    · subst ho
      simp [Outcome.results, Store.replay] at he
    · rename_i orderReq _
      obtain ⟨made, hcalls, herr⟩ := createOrdersLoop_error server ctx orderReq.OrderID
        (orderReq.Orders.getD []) 0 [] [] st
      subst ho
      simp only [Outcome.results, hcalls, List.nil_append] at he
      exact herr e he
  | createUser =>
    simp only [Server.run, Server.createUser] at ho
    repeat' split at ho
    all_goals
      subst ho
      simp_all [Outcome.results, Store.replay, Store.apply, Except.map, errorStatus,
        isUniqueViolation_pq, isUniqueViolation_false]
  | createProduct =>
    simp only [Server.run, Server.createProduct] at ho
    repeat' split at ho
    all_goals
      subst ho
      simp_all [Outcome.results, Store.replay, Store.apply, Except.map, errorStatus]
  | getUser =>
    simp only [Server.run, Server.getUser] at ho
    repeat' split at ho
    all_goals
      subst ho
      simp_all [Outcome.results, Store.replay, Store.apply, Except.map, errorStatus]
  | loginUser =>
    simp only [Server.run, Server.loginUser] at ho
    repeat' split at ho
    all_goals
      subst ho
      simp_all [Outcome.results, Store.replay, Store.apply, Except.map, errorStatus]
  | getAllMenuItems =>
    simp only [Server.run, Server.getAllMenuItems] at ho
    repeat' split at ho
    all_goals
      subst ho
      simp_all [Outcome.results, Store.replay, Store.apply, Except.map, errorStatus]
  | getOrdersByOrderID =>
    simp only [Server.run, Server.getOrdersByOrderID] at ho
    repeat' split at ho
    all_goals
      subst ho
      simp_all [Outcome.results, Store.replay, Store.apply, Except.map, errorStatus]
  | getAllProducts =>
    simp only [Server.run, Server.getAllProducts] at ho
    repeat' split at ho
    all_goals
      subst ho
      simp_all [Outcome.results, Store.replay, Store.apply, Except.map, errorStatus]
  | updateProduct =>
    simp only [Server.run, Server.updateProduct] at ho
    repeat' split at ho
    all_goals
      subst ho
      simp_all [Outcome.results, Store.replay, Store.apply, Except.map, errorStatus]
  | deleteProduct =>
    simp only [Server.run, Server.deleteProduct] at ho
    repeat' split at ho
    all_goals
      subst ho
      simp_all [Outcome.results, Store.replay, Store.apply, Except.map, errorStatus]
  | addMenuItem =>
    simp only [Server.run, Server.addMenuItem] at ho
    repeat' split at ho
    all_goals
      subst ho
      simp_all [Outcome.results, Store.replay, Store.apply, Except.map, errorStatus]
  | updateMenuItem =>
    simp only [Server.run, Server.updateMenuItem] at ho
    repeat' split at ho
    all_goals
      subst ho
      simp_all [Outcome.results, Store.replay, Store.apply, Except.map, errorStatus]
  | deleteMenuItem =>
    simp only [Server.run, Server.deleteMenuItem] at ho
    repeat' split at ho
    all_goals
      subst ho
      simp_all [Outcome.results, Store.replay, Store.apply, Except.map, errorStatus]
  | updateOrderItem =>
    simp only [Server.run, Server.updateOrderItem] at ho
    repeat' split at ho
    all_goals
      subst ho
      simp_all [Outcome.results, Store.replay, Store.apply, Except.map, errorStatus]
  | getOrdersByDay =>
    simp only [Server.run, Server.getOrdersByDay] at ho
    repeat' split at ho
    all_goals
      subst ho
      simp_all [Outcome.results, Store.replay, Store.apply, Except.map, errorStatus]
  | deleteOrderItem =>
    simp only [Server.run, Server.deleteOrderItem] at ho
    repeat' split at ho
    all_goals
      subst ho
      simp_all [Outcome.results, Store.replay, Store.apply, Except.map, errorStatus]

/-! ## Theorems on store errors -/

/-- C13 (as stated, refuted): `GET /NotExisted/menus` on a store whose
`GetAllMenuItems` returns `sql.ErrNoRows` is answered 500, not 404. -/
theorem getAllMenuItems_no_rows_is_500 :
    ((errorServer ErrRecordNotFound).ServeHTTP missingShopMenus 0).results
        (errorServer ErrRecordNotFound).store 0 = [.error (.sentinel .sqlErrNoRows)] ∧
      ((errorServer ErrRecordNotFound).ServeHTTP missingShopMenus 0).status =
        some StatusInternalServerError := by
  exact ⟨rfl, rfl⟩

/-- C13 (amended): when the store returns `sql.ErrNoRows` to a call of a handler
(the request passed validation and the ownership check), `getUser` and `loginUser`
answer 404 and every other handler answers 500. -/
theorem no_rows_status {σ Seg : Type} (server : Server σ Seg) (h : Handler)
    (ctx : Context h.Req) (st : σ)
    (he : .error (.sentinel .sqlErrNoRows) ∈ (server.run h ctx st).results server.store st) :
    (server.run h ctx st).status =
      some (if h = .getUser ∨ h = .loginUser then StatusNotFound
        else StatusInternalServerError) := by
  have hr := run_store_error server h ctx st _ he
  simp only [Outcome.status, hr]
  cases h <;> simp [errorStatus, isUniqueViolation]

theorem no_rows_status_witness :
    ((errorServer ErrRecordNotFound).run .getUser bobGetUserCtx 0).status =
      some (if Handler.getUser = .getUser ∨ Handler.getUser = .loginUser then StatusNotFound
        else StatusInternalServerError) :=
  no_rows_status (errorServer ErrRecordNotFound) .getUser bobGetUserCtx 0
    (List.mem_singleton.mpr rfl)

/-- C14: for every handler, when a store call returns an error that is neither
`sql.ErrNoRows` in `getUser` or `loginUser` nor a unique violation in `createUser`,
the response status is 500 and the body is the JSON object with the single key
"error" mapped to the text of the error. -/
theorem store_error_is_500 {σ Seg : Type} (server : Server σ Seg) (h : Handler)
    (ctx : Context h.Req) (st : σ) (e : GoError)
    (he : .error e ∈ (server.run h ctx st).results server.store st)
    (hrows : ¬ ((h = .getUser ∨ h = .loginUser) ∧ e = .sentinel .sqlErrNoRows))
    (huniq : ¬ (h = .createUser ∧ isUniqueViolation e = true)) :
    (server.run h ctx st).reply =
      .json StatusInternalServerError (.H [("error", e.Error)]) := by
  have hr := run_store_error server h ctx st _ he
  rw [hr]
  have hst : errorStatus h e = StatusInternalServerError := by
    cases h <;> simp_all [errorStatus]
  rw [hst]
  rfl

theorem store_error_is_500_witness :
    ((errorServer (.sentinel .sqlErrConnDone)).run .createProduct bobProductCtx 0).reply =
      .json StatusInternalServerError
        (.H [("error", (GoError.sentinel .sqlErrConnDone).Error)]) :=
  store_error_is_500 (errorServer (.sentinel .sqlErrConnDone)) .createProduct bobProductCtx 0
    (.sentinel .sqlErrConnDone) (List.mem_singleton.mpr rfl) (by decide) (by decide)

/-- C15: every JSON body written by `createUser`, `getUser` or `loginUser` is either
the error object of an error reported to the handler, or, with status 200, the
`userResponse` built from the ID, Username and CreatedAt of the user the store
returned (for `loginUser` together with the token issued for that Username): the
HashedPassword of the user is no part of any body. -/
theorem user_responses_hide_hash {σ Seg : Type} (server : Server σ Seg) (h : Handler)
    (ctx : Context h.Req) (st : σ) (status : Nat) (body : Body Seg)
    (hh : h = .createUser ∨ h = .getUser ∨ h = .loginUser)
    (hr : (server.run h ctx st).reply = .json status body) :
    (status = StatusOK →
      ∃ u, (server.run h ctx st).results server.store st = [.ok (.user u)] ∧
        (body = .user ⟨u.ID, u.Username, u.CreatedAt⟩ ∨
          ∃ tok, server.tokenMaker.CreateToken server.jwt ctx.issue u.Username
              server.config.AccessTokenDuration = .ok tok ∧
            body = .login ⟨tok, ⟨u.ID, u.Username, u.CreatedAt⟩⟩)) ∧
      (status ≠ StatusOK → ∃ e, body = errorResponse e) := by
  rcases hh with hh | hh | hh
  · subst hh
    generalize ho : server.run .createUser ctx st = o at hr ⊢
    simp only [Server.run, Server.createUser] at ho
    repeat' split at ho
    all_goals
      subst ho
      dsimp only at hr
      cases hr
      first
        | exact ⟨fun hc => absurd hc (by decide), fun _ => ⟨_, rfl⟩⟩
        | exact ⟨fun _ => ⟨_, by
            simp [Outcome.results, Store.replay, Store.apply, Except.map, *], Or.inl rfl⟩,
            fun hc => absurd rfl hc⟩
  · subst hh
    generalize ho : server.run .getUser ctx st = o at hr ⊢
    simp only [Server.run, Server.getUser] at ho
    repeat' split at ho
    all_goals
      subst ho
      dsimp only at hr
      cases hr <;> first
        | exact ⟨fun hc => absurd hc (by decide), fun _ => ⟨_, rfl⟩⟩
        | exact ⟨fun _ => ⟨_, by
            simp [Outcome.results, Store.replay, Store.apply, Except.map, *], Or.inl rfl⟩,
            fun hc => absurd rfl hc⟩
  · subst hh
    generalize ho : server.run .loginUser ctx st = o at hr ⊢
    simp only [Server.run, Server.loginUser] at ho
    repeat' split at ho
    all_goals
      subst ho
      dsimp only at hr
      cases hr
      first
        | exact ⟨fun hc => absurd hc (by decide), fun _ => ⟨_, rfl⟩⟩
        | exact ⟨fun _ => ⟨_, by
            simp [Outcome.results, Store.replay, Store.apply, Except.map, *],
            Or.inr ⟨_, by assumption, rfl⟩⟩, fun hc => absurd rfl hc⟩

/-- Witness of C15: the login of "bob" on the sample server answers 200 with the
token and the three public fields of the stored user. -/
theorem user_responses_hide_hash_witness :
    (sampleServer.run .loginUser bobLoginCtx 0).reply
        = .json StatusOK (.login ⟨bobToken, ⟨7, "bob", 0⟩⟩) ∧
      ∃ u, (sampleServer.run .loginUser bobLoginCtx 0).results sampleServer.store 0
            = [.ok (.user u)] ∧
        ((Body.login ⟨bobToken, ⟨7, "bob", 0⟩⟩ : Body StructSeg)
            = .user ⟨u.ID, u.Username, u.CreatedAt⟩ ∨
          ∃ tok, sampleServer.tokenMaker.CreateToken sampleServer.jwt bobLoginCtx.issue
              u.Username sampleServer.config.AccessTokenDuration = .ok tok ∧
            (Body.login ⟨bobToken, ⟨7, "bob", 0⟩⟩ : Body StructSeg)
              = .login ⟨tok, ⟨u.ID, u.Username, u.CreatedAt⟩⟩) :=
  ⟨rfl, (user_responses_hide_hash sampleServer .loginUser bobLoginCtx 0 StatusOK
    (.login ⟨bobToken, ⟨7, "bob", 0⟩⟩) (Or.inr (Or.inr rfl)) rfl).1 rfl⟩

/-- C16: in `loginUser`, once the body is bound and `GetUser` returned a user, a
failing `CheckPassword` (request password against the stored hash) gives 401 with
the single store call `GetUser`, and the outcome is the same whatever the token
maker is: no token is made. A passing check gives 200, and the access token of the
body is the one `CreateToken` issued for the Username of the stored user with the
configured `AccessTokenDuration`: its claims decode to a payload with that Username
and expiry `now + AccessTokenDuration`. Conversely every reply carrying a token
comes from a bound body, a user returned by `GetUser` and an accepted password. -/
theorem loginUser_token_after_password_check {σ Seg : Type} (server : Server σ Seg)
    (ctx : Context loginUserRequest) (st : σ)
    (hL : server.jwt.Lawful) (henv : ctx.issue.valid)
    (hdur : isInt64 server.config.AccessTokenDuration) :
    (∀ req user st1, loginUserRequest.bind ctx = .ok req →
      server.store.GetUser req.Username st = (.ok user, st1) →
      (∀ err, server.CheckPassword req.Password user.HashedPassword = .error err →
        ∀ maker, Server.loginUser { server with tokenMaker := maker } ctx st =
          ⟨.json StatusUnauthorized (errorResponse err), [.GetUser req.Username], st1⟩) ∧
      (server.CheckPassword req.Password user.HashedPassword = .ok () →
        ∃ c, server.jwt.decodeClaims c = .ok (issuedClaims ctx.issue user.Username
              server.config.AccessTokenDuration) ∧
          (issuedClaims ctx.issue user.Username
              server.config.AccessTokenDuration).payload.Username = user.Username ∧
          (issuedClaims ctx.issue user.Username
              server.config.AccessTokenDuration).payload.ExpiredAt
            = ctx.issue.now2 + server.config.AccessTokenDuration ∧
          server.tokenMaker.CreateToken server.jwt ctx.issue user.Username
              server.config.AccessTokenDuration
            = .ok (signedSegments server.jwt server.tokenMaker.secretKey c) ∧
          server.loginUser ctx st =
            ⟨.json StatusOK (.login ⟨signedSegments server.jwt server.tokenMaker.secretKey c,
              ⟨user.ID, user.Username, user.CreatedAt⟩⟩), [.GetUser req.Username], st1⟩)) ∧
    (∀ status tok u, (server.loginUser ctx st).reply = .json status (.login ⟨tok, u⟩) →
      ∃ req user st1, loginUserRequest.bind ctx = .ok req ∧
        server.store.GetUser req.Username st = (.ok user, st1) ∧
        server.CheckPassword req.Password user.HashedPassword = .ok () ∧
        server.tokenMaker.CreateToken server.jwt ctx.issue user.Username
          server.config.AccessTokenDuration = .ok tok ∧
        status = StatusOK ∧ u = ⟨user.ID, user.Username, user.CreatedAt⟩) := by
  refine ⟨fun req user st1 hb hs => ⟨fun err hc maker => ?_, fun hc => ?_⟩,
    fun status tok u hr => ?_⟩
  · simp only [Server.loginUser, hb, hs, hc]
  · obtain ⟨c, hdec, hc1⟩ := CreateToken_ok server.jwt hL server.tokenMaker ctx.issue
      user.Username server.config.AccessTokenDuration henv hdur
    refine ⟨c, hdec, rfl, rfl, hc1, ?_⟩
    simp only [Server.loginUser, hb, hs, hc, hc1]
  · generalize ho : server.loginUser ctx st = o at hr
    simp only [Server.loginUser] at ho
    repeat' split at ho
    all_goals
      subst ho
      simp only [errorResponse, Reply.json.injEq] at hr
    all_goals first
      | (obtain ⟨h1, h2⟩ := hr
         injection h2 with h2
         injection h2 with h3 h4
         subst h1 h3 h4
         exact ⟨_, _, _, by assumption, by assumption, by assumption, by assumption, rfl, rfl⟩)
      | cases hr.2

/-- Witness of C16: a login of "bob" with a wrong password on the sample server is
answered 401 after the one call `GetUser "bob"`. -/
theorem loginUser_token_after_password_check_witness :
    sampleServer.jwt.Lawful ∧ bobBadLoginCtx.issue.valid ∧
      isInt64 sampleServer.config.AccessTokenDuration ∧
      Server.loginUser sampleServer bobBadLoginCtx 0 =
        ⟨.json StatusUnauthorized
            (errorResponse (.other "hashedPassword is not the hash of the given password")),
          [.GetUser "bob"], 1⟩ :=
  ⟨structLib_lawful, by decide, by decide,
    ((loginUser_token_after_password_check sampleServer bobBadLoginCtx 0 structLib_lawful
      (by decide) (by decide)).1 ⟨"bob", "12345678"⟩ ⟨7, "bob", "hash:password", 0⟩ 1
      rfl rfl).1 _ rfl sampleServer.tokenMaker⟩

/-! ## Theorems on the expiry error -/

/-- C17 (as stated, refuted): the token `CreateToken("alice", -1m)` of the sample
maker is correctly signed and its expiry has passed; `VerifyToken` rejects it with
the error of the jwt library, "token has invalid claims: token is expired", which
is not `token.ErrExpiredToken` and does not wrap it. -/
theorem verifyToken_expired_is_not_ErrExpiredToken :
    ∃ tok err,
      (JWTMaker.mk sampleKey).CreateToken structLib sampleEnv "alice" (-(60 * Second))
        = .ok tok ∧
      (JWTMaker.mk sampleKey).VerifyToken structLib 1700000000500000001 tok = .error err ∧
      err ≠ .sentinel .ErrExpiredToken ∧ err.Is .ErrExpiredToken = false ∧
      err.Error = "token has invalid claims: token is expired" ∧
      err.Error ≠ (GoError.sentinel .ErrExpiredToken).Error := by
  refine ⟨_, newError "" .jwtErrTokenInvalidClaims
    [.wrapped "token is expired" [.jwtErrTokenExpired]], structLib_CreateToken _ _ _ _, ?_,
    by decide, by decide, by decide, by decide⟩
  rw [structLib_VerifyToken _ _ _ _ _ _ rfl, Validate_issued_expired _ _ _ _ (by decide)]

/-- C17 (amended): when `VerifyToken` meets a token whose segments decode, whose
header names an HMAC method, whose signature is the HMAC sum of the signing input
under the secret of the maker, and whose `exp` is not after the clock, it returns
no payload and an error of the jwt library that wraps `jwt.ErrTokenInvalidClaims`
and `jwt.ErrTokenExpired`; the error is not `token.ErrExpiredToken` and does not
wrap it; when no not-before claim fails, its text is
"token has invalid claims: token is expired". -/
theorem verifyToken_expired_error {Seg : Type} (L : JwtLib Seg) (maker : JWTMaker)
    (now : Time) (p0 p1 p2 : Seg) (header : Header) (claims : JWTClaims) (sig : Bytes)
    (alg : String) (h : CryptoHash) (exp : Time)
    (h0 : L.decodeHeader p0 = .ok header) (h1 : L.decodeClaims p1 = .ok claims)
    (h2 : L.decodeSegment p2 = .ok sig) (halg : header.alg = some alg)
    (hm : GetSigningMethod alg = some (.hmac h))
    (hsig : sig = hmacSum L h maker.secretKey (L.signingString p0 p1))
    (hexp : claims.registered.ExpiresAt = some exp) (hpast : ¬ now < exp) :
    ∃ err, maker.VerifyToken L now [p0, p1, p2] = .error err ∧
      err.Is .jwtErrTokenInvalidClaims = true ∧ err.Is .jwtErrTokenExpired = true ∧
      err.Is .ErrExpiredToken = false ∧ err ≠ .sentinel .ErrExpiredToken ∧
      ((∀ nbf, claims.registered.NotBefore = some nbf → ¬ now < nbf) →
        err.Error = "token has invalid claims: token is expired") := by
  have hv : maker.VerifyToken L now [p0, p1, p2] =
      match Validate now claims with
      | .error err => .error (newError "" .jwtErrTokenInvalidClaims [err])
      | .ok () => .ok claims.payload := by
    simp only [JWTMaker.VerifyToken, ParseWithClaims, ParseUnverified, h0, h1, h2, halg, hm,
      JWTMaker.keyFunc, SigningMethod.isHMAC, SigningMethod.Verify, hsig]
    simp only [Bool.not_true, Bool.false_eq_true, if_false, if_true]
    cases Validate now claims <;> rfl
  rw [hv]
  rcases hn : claims.registered.NotBefore with _ | nbf
  · refine ⟨newError "" .jwtErrTokenInvalidClaims
      [.wrapped "token is expired" [.jwtErrTokenExpired]], ?_, by decide, by decide, by decide,
      by decide, fun _ => by decide⟩
    simp only [Validate, hexp, hpast, hn, if_false, List.append_nil, List.map]
    rfl
  · by_cases hlt : now < nbf
    · refine ⟨newError "" .jwtErrTokenInvalidClaims
        [.wrapped "token is expired, token is not valid yet"
          [.jwtErrTokenExpired, .jwtErrTokenNotValidYet]], ?_, by decide, by decide,
        by decide, by decide, fun hall => absurd hlt (hall nbf rfl)⟩
      simp only [Validate, hexp, hpast, hn, hlt, if_false, if_true, List.map]
      rfl
    · refine ⟨newError "" .jwtErrTokenInvalidClaims
        [.wrapped "token is expired" [.jwtErrTokenExpired]], ?_, by decide, by decide,
        by decide, by decide, fun _ => by decide⟩
      simp only [Validate, hexp, hpast, hn, hlt, if_false, List.append_nil, List.map]
      rfl

theorem verifyToken_expired_error_witness :
    ∃ err, (JWTMaker.mk sampleKey).VerifyToken structLib 1700000000500000001
        [.header issuedHeader,
         .claims (issuedClaims sampleEnv "alice" (-(60 * Second))),
         .signature (hmacSum structLib .SHA256 sampleKey
           (structLib.signingString (.header issuedHeader)
             (.claims (issuedClaims sampleEnv "alice" (-(60 * Second))))))] = .error err ∧
      err.Is .jwtErrTokenInvalidClaims = true ∧ err.Is .jwtErrTokenExpired = true ∧
      err.Is .ErrExpiredToken = false ∧ err ≠ .sentinel .ErrExpiredToken ∧
      ((∀ nbf, (issuedClaims sampleEnv "alice" (-(60 * Second))).registered.NotBefore
          = some nbf → ¬ (1700000000500000001 : Time) < nbf) →
        err.Error = "token has invalid claims: token is expired") :=
  verifyToken_expired_error structLib ⟨sampleKey⟩ 1700000000500000001 _ _ _
    issuedHeader (issuedClaims sampleEnv "alice" (-(60 * Second))) _ "HS256" .SHA256
    (NewNumericDate (sampleEnv.now2 + -(60 * Second))) rfl rfl rfl rfl (by decide) rfl rfl
    (by decide)

/-! ## Lemmas on the price format -/

theorem digitChar_isDigit (k : Nat) (h : k < 10) : (Nat.digitChar k).isDigit = true := by
  interval_cases k <;> rfl

theorem toDigitsCore_all_isDigit (fuel : Nat) : ∀ (n : Nat) (acc : List Char),
    acc.all Char.isDigit = true → (Nat.toDigitsCore 10 fuel n acc).all Char.isDigit = true := by
  induction fuel with
  | zero => intro n acc h; simpa [Nat.toDigitsCore] using h
  | succ f ih =>
    intro n acc h
    have hd : (Nat.digitChar (n % 10)).isDigit = true := digitChar_isDigit _ (Nat.mod_lt _ (by decide))
    have hacc : (Nat.digitChar (n % 10) :: acc).all Char.isDigit = true := by
      rw [List.all_cons, hd, h]; rfl
    simp only [Nat.toDigitsCore]
    split
    · exact hacc
    · exact ih _ _ hacc

theorem toDigitsCore_ne_nil (fuel : Nat) : ∀ (n : Nat) (acc : List Char),
    acc ≠ [] → Nat.toDigitsCore 10 fuel n acc ≠ [] := by
  induction fuel with
  | zero => intro n acc h; simpa [Nat.toDigitsCore] using h
  | succ f ih =>
    intro n acc _
    simp only [Nat.toDigitsCore]
    split
    · exact List.cons_ne_nil _ _
    · exact ih _ _ (List.cons_ne_nil _ _)

theorem toString_data_all_isDigit (n : Nat) : (toString n).data.all Char.isDigit = true :=
  toDigitsCore_all_isDigit _ _ _ rfl

theorem toString_data_ne_nil (n : Nat) : (toString n).data ≠ [] := by
  show Nat.toDigitsCore 10 (n + 1) n [] ≠ []
  simp only [Nat.toDigitsCore]
  split
  · exact List.cons_ne_nil _ _
  · exact toDigitsCore_ne_nil _ _ _ (List.cons_ne_nil _ _)

theorem two_digits (m : Nat) (h : m < 100) :
    ∃ d1 d2, (if m < 10 then "0" else "").data ++ (toString m).data = [d1, d2] ∧
      d1.isDigit = true ∧ d2.isDigit = true := by
  interval_cases m <;> exact ⟨_, _, rfl, rfl, rfl⟩

theorem hasTwoDecimals_of (neg : Bool) (A : List Char) (d1 d2 : Char) (hA : A ≠ [])
    (hall : A.all Char.isDigit = true) (h1 : d1.isDigit = true) (h2 : d2.isDigit = true) :
    hasTwoDecimals ⟨(if neg then "-" else "").data ++ A ++ ['.'] ++ [d1, d2]⟩ = true := by
  have hrev : ((if neg then "-" else "").data ++ A ++ ['.'] ++ [d1, d2]).reverse
      = d2 :: d1 :: '.' :: ((if neg then "-" else "").data ++ A).reverse := by
    simp
  simp only [hasTwoDecimals, hrev, List.reverse_reverse, h1, h2, Bool.true_and]
  obtain ⟨a, as, rfl⟩ := List.exists_cons_of_ne_nil hA
  have ha : a.isDigit = true := by
    rw [List.all_cons] at hall
    exact (Bool.and_eq_true _ _ ▸ hall : _ ∧ _).1
  have hne : a ≠ '-' := by
    rintro rfl
    exact absurd ha (by decide)
  cases neg
  · split
    · rename_i ds heq
      simp at heq
      exact absurd heq.1 hne
    · simpa using hall
  · split
    · rename_i ds heq
      simp at heq
      subst heq
      simpa using hall
    · rename_i hno
      exact absurd rfl (hno (a :: as))

theorem FormottedDecimalToString_hasTwoDecimals (d : Float64) :
    hasTwoDecimals (FormottedDecimalToString d) = true := by
  simp only [FormottedDecimalToString]
  generalize (if 2 * (d.mant * 100 * 2 ^ d.exp.toNat % 2 ^ (-d.exp).toNat) < 2 ^ (-d.exp).toNat
    then d.mant * 100 * 2 ^ d.exp.toNat / 2 ^ (-d.exp).toNat else _) = n
  obtain ⟨d1, d2, hd, h1, h2⟩ := two_digits (n % 100) (Nat.mod_lt _ (by decide))
  have := hasTwoDecimals_of d.neg (toString (n / 100)).data d1 d2 (toString_data_ne_nil _)
    (toString_data_all_isDigit _) h1 h2
  refine Eq.trans (congrArg hasTwoDecimals ?_) this
  apply String.ext
  simp only [String.data_append, List.append_assoc]
  rw [← hd]

/-! ## Theorems on the product and order handlers -/

/-- C18: for a `createProduct` request whose body binds and whose username is the
subject of the token, the store is called once, with `CreateProduct`, whose
argument carries the UserID, Name and Description of the body and as Price the
two-decimal rendering of the price of the body (an optional sign, digits, a point,
two digits); when that call succeeds the response is 200 with the product the
store returned, and when it fails the response is 500. -/
theorem createProduct_forwards_body {σ Seg : Type} (server : Server σ Seg)
    (ctx : Context createProductRequest) (st : σ) (req : createProductRequest)
    (authPayload : Payload)
    (hb : createProductRequest.bind ctx = .ok req)
    (hauth : ctx.authPayload = some authPayload)
    (hname : req.Username = authPayload.Username) :
    ctx.json = .ok req ∧
    ∃ arg : CreateProductParams,
      (server.createProduct ctx st).calls = [.CreateProduct arg] ∧
      arg.ID = ctx.uuid 0 ∧ arg.UserID = req.UserID ∧ arg.Name = req.Name ∧
      arg.Description = req.Description ∧
      arg.Price = FormottedDecimalToString req.Price ∧ hasTwoDecimals arg.Price = true ∧
      (server.createProduct ctx st).state = (server.store.CreateProduct arg st).2 ∧
      (∀ product, (server.store.CreateProduct arg st).1 = .ok product →
        (server.createProduct ctx st).reply = .json StatusOK (.product product)) ∧
      (∀ err, (server.store.CreateProduct arg st).1 = .error err →
        (server.createProduct ctx st).reply
          = .json StatusInternalServerError (errorResponse err)) := by
  refine ⟨?_, ⟨ctx.uuid 0, req.UserID, req.Name, FormottedDecimalToString req.Price,
    req.Description⟩, ?_, rfl, rfl, rfl, rfl, rfl,
    FormottedDecimalToString_hasTwoDecimals _, ?_, ?_, ?_⟩
  · simp only [createProductRequest.bind, ShouldBindJSON] at hb
    revert hb
    cases ctx.json with
    | error e => intro hb; cases hb
    | ok v =>
      intro hb
      simp only [validateStruct] at hb
      split at hb
      · injection hb with hb; rw [hb]
      · cases hb
  all_goals
    simp only [Server.createProduct, hb, hauth, hname, ne_eq, not_true_eq_false, if_false]
    rcases hs : server.store.CreateProduct _ st with ⟨res, st1⟩
    rcases res with e | product
    all_goals simp

/-- Witness of C18: the request of "bob" for a product "tea" at 2.5 makes the one
call `CreateProduct` with the price "2.50". -/
theorem createProduct_forwards_body_witness :
    (createProductRequest.bind bobProductCtx = .ok bobProductBody ∧
      bobProductCtx.authPayload = some (NewPayload sampleEnv "bob" (60 * Second)) ∧
      FormottedDecimalToString bobProductBody.Price = "2.50") ∧
    bobProductCtx.json = .ok bobProductBody ∧
    ∃ arg : CreateProductParams,
      (sampleServer.createProduct bobProductCtx 0).calls = [.CreateProduct arg] ∧
      arg.ID = bobProductCtx.uuid 0 ∧ arg.UserID = bobProductBody.UserID ∧
      arg.Name = bobProductBody.Name ∧ arg.Description = bobProductBody.Description ∧
      arg.Price = FormottedDecimalToString bobProductBody.Price ∧
      hasTwoDecimals arg.Price = true ∧
      (sampleServer.createProduct bobProductCtx 0).state
        = (sampleServer.store.CreateProduct arg 0).2 ∧
      (∀ product, (sampleServer.store.CreateProduct arg 0).1 = .ok product →
        (sampleServer.createProduct bobProductCtx 0).reply
          = .json StatusOK (.product product)) ∧
      (∀ err, (sampleServer.store.CreateProduct arg 0).1 = .error err →
        (sampleServer.createProduct bobProductCtx 0).reply
          = .json StatusInternalServerError (errorResponse err)) :=
  ⟨⟨rfl, rfl, by decide⟩,
    createProduct_forwards_body sampleServer bobProductCtx 0 bobProductBody
      (NewPayload sampleEnv "bob" (60 * Second)) rfl rfl rfl⟩

/-! ## Lemmas on the loop of createOrders -/

theorem createOrderItemArgs_length (ctx : Context createOrderRequest) (orderID : UUID)
    (items : List createOrderItemRequest) :
    ∀ i, (createOrderItemArgs ctx orderID items i).length = items.length := by
  induction items with
  | nil => intro i; rfl
  | cons req rest ih => intro i; simp [createOrderItemArgs, ih]

theorem createOrderItemArgs_getElem? (ctx : Context createOrderRequest) (orderID : UUID)
    (items : List createOrderItemRequest) :
    ∀ (i k : Nat) (item : createOrderItemRequest), items[k]? = some item →
      (createOrderItemArgs ctx orderID items i)[k]?
        = some (createOrderItemArg ctx orderID (i + k) item) := by
  induction items with
  | nil => intro i k item h; simp at h
  | cons req rest ih =>
    intro i k item h
    cases k with
    | zero =>
      simp at h
      subst h
      simp [createOrderItemArgs]
    | succ k =>
      simp at h
      simp only [createOrderItemArgs, List.getElem?_cons_succ]
      rw [ih (i + 1) k item h]
      congr 2
      omega

/-- The loop of `createOrders` when every call it makes succeeds: one call per
remaining item, in order, and 200 with the accumulated rows. -/
theorem createOrdersLoop_ok {σ Seg : Type} (server : Server σ Seg)
    (ctx : Context createOrderRequest) (orderID : UUID) (items : List createOrderItemRequest) :
    ∀ (i : Nat) (orders : List Order) (calls : List StoreCall) (st : σ),
      (∀ r ∈ (server.store.replay
          ((createOrderItemArgs ctx orderID items i).map .CreateOrderItem) st).1,
        ∃ row, r = .ok row) →
      ∃ rows body,
        (server.store.replay
          ((createOrderItemArgs ctx orderID items i).map .CreateOrderItem) st).1
          = rows.map (fun o => .ok (.order o)) ∧
        createOrdersLoop server ctx orderID items i orders calls st =
          ⟨.json StatusOK body,
            calls ++ (createOrderItemArgs ctx orderID items i).map .CreateOrderItem,
            (server.store.replay
              ((createOrderItemArgs ctx orderID items i).map .CreateOrderItem) st).2⟩ ∧
        body.orderRows = some (orders ++ rows) ∧
        (orders ++ rows = [] → body = .null) ∧
        (orders ++ rows ≠ [] → body = .orders (orders ++ rows)) := by
  induction items with
  | nil =>
    intro i orders calls st _
    cases orders with
    | nil => exact ⟨[], .null, rfl, by simp [createOrdersLoop, createOrderItemArgs, Store.replay],
        rfl, fun _ => rfl, fun h => absurd rfl h⟩
    | cons o os =>
      exact ⟨[], .orders (o :: os), rfl,
        by simp [createOrdersLoop, createOrderItemArgs, Store.replay],
        by simp [Body.orderRows], fun h => by simp at h, fun _ => by simp⟩
  | cons req rest ih =>
    intro i orders calls st hok
    rcases hs : server.store.CreateOrderItem (createOrderItemArg ctx orderID i req) st with
      ⟨res, st1⟩
    cases res with
    | error err =>
      obtain ⟨row, hrow⟩ := hok (.error err)
        (by simp [createOrderItemArgs, Store.replay, Store.apply, hs, Except.map])
      cases hrow
    | ok orderItem =>
      have hok1 : ∀ r ∈ (server.store.replay
          ((createOrderItemArgs ctx orderID rest (i + 1)).map .CreateOrderItem) st1).1,
          ∃ row, r = .ok row := by
        intro r hr
        apply hok
        simp only [createOrderItemArgs, List.map_cons, Store.replay, Store.apply, hs]
        exact List.mem_cons_of_mem _ hr
      obtain ⟨rows, body, hres, hloop, hrows, hnil, hcons⟩ := ih (i + 1) (orders ++ [orderItem])
        (calls ++ [.CreateOrderItem (createOrderItemArg ctx orderID i req)]) st1 hok1
      refine ⟨orderItem :: rows, body, ?_, ?_, ?_, ?_, ?_⟩
      · simp [createOrderItemArgs, Store.replay, Store.apply, hs, Except.map, hres]
      · simp [createOrdersLoop, createOrderItemArgs, Store.replay, Store.apply, hs, hloop]
      · simpa using hrows
      · intro h
        simp at h
      · intro _
        simpa using hcons (by simp)

theorem createOrdersLoop_calls_length {σ Seg : Type} (server : Server σ Seg)
    (ctx : Context createOrderRequest) (orderID : UUID) (items : List createOrderItemRequest) :
    ∀ (i : Nat) (orders : List Order) (calls : List StoreCall) (st : σ),
      (createOrdersLoop server ctx orderID items i orders calls st).calls.length
        ≤ calls.length + items.length := by
  induction items with
  | nil =>
    intro i orders calls st
    cases orders <;> simp [createOrdersLoop]
  | cons req rest ih =>
    intro i orders calls st
    rcases hs : server.store.CreateOrderItem (createOrderItemArg ctx orderID i req) st with
      ⟨res, st1⟩
    cases res with
    | error err => simp [createOrdersLoop, hs]
    | ok orderItem =>
      have h1 := ih (i + 1) (orders ++ [orderItem])
        (calls ++ [.CreateOrderItem (createOrderItemArg ctx orderID i req)]) st1
      simp only [createOrdersLoop, hs]
      simp only [List.length_append, List.length_singleton, List.length_cons,
        List.length_nil] at h1 ⊢
      omega

theorem createOrdersLoop_ok_length {σ Seg : Type} (server : Server σ Seg)
    (ctx : Context createOrderRequest) (orderID : UUID) (items : List createOrderItemRequest) :
    ∀ (i : Nat) (orders : List Order) (calls : List StoreCall) (st : σ),
      (createOrdersLoop server ctx orderID items i orders calls st).status = some StatusOK →
      (createOrdersLoop server ctx orderID items i orders calls st).calls.length
        = calls.length + items.length := by
  induction items with
  | nil =>
    intro i orders calls st _
    cases orders <;> simp [createOrdersLoop]
  | cons req rest ih =>
    intro i orders calls st hst
    rcases hs : server.store.CreateOrderItem (createOrderItemArg ctx orderID i req) st with
      ⟨res, st1⟩
    cases res with
    | error err =>
      simp only [createOrdersLoop, hs, Outcome.status] at hst
      exact absurd hst (by decide)
    | ok orderItem =>
      simp only [createOrdersLoop, hs] at hst ⊢
      have h1 := ih (i + 1) (orders ++ [orderItem])
        (calls ++ [.CreateOrderItem (createOrderItemArg ctx orderID i req)]) st1 hst
      simp only [List.length_append, List.length_singleton, List.length_cons,
        List.length_nil] at h1 ⊢
      omega

theorem bind_ok_json {β : Type} (ctx : Context β) (structName : String)
    (failed : β → List (String × String)) (req : β)
    (hb : ShouldBindJSON ctx structName failed = .ok req) : ctx.json = .ok req := by
  simp only [ShouldBindJSON] at hb
  revert hb
  cases ctx.json with
  | error e => intro hb; cases hb
  | ok v =>
    intro hb
    simp only [validateStruct] at hb
    split at hb
    · injection hb with hb; rw [hb]
    · cases hb

/-- C19: for a `createOrders` request whose body binds, with items i_1..i_n, when
every `CreateOrderItem` call succeeds: the store is called exactly n times, the
k-th call being `CreateOrderItem` with the shop name, order day, product name,
amount and status of i_k, the order id of the request, a fresh id and the price of
i_k rendered with two decimals; the response is 200 and the slice it writes is the
rows the store returned, in the order of the calls (with n = 0 the slice is nil and
the body is JSON null). -/
theorem createOrders_calls_in_order {σ Seg : Type} (server : Server σ Seg)
    (ctx : Context createOrderRequest) (st : σ) (req : createOrderRequest)
    (items : List createOrderItemRequest)
    (hb : createOrderRequest.bind ctx = .ok req) (hitems : req.Orders = some items)
    (hok : ∀ r ∈ (server.store.replay
        ((createOrderItemArgs ctx req.OrderID items 0).map .CreateOrderItem) st).1,
      ∃ row, r = .ok row) :
    ∃ (args : List CreateOrderItemParams) (rows : List Order) (body : Body Seg),
      (server.createOrders ctx st).calls = args.map .CreateOrderItem ∧
      args.length = items.length ∧
      (∀ (k : Nat) (item : createOrderItemRequest), items[k]? = some item →
        args[k]? = some ⟨ctx.uuid k, item.ShopName, req.OrderID, item.OrderDay,
          item.ProductName, FormottedDecimalToString item.ProductPrice, item.Amount,
          item.Status⟩ ∧
        hasTwoDecimals (FormottedDecimalToString item.ProductPrice) = true) ∧
      (server.createOrders ctx st).results server.store st
        = rows.map (fun o => .ok (.order o)) ∧
      rows.length = items.length ∧
      (server.createOrders ctx st).state = (server.store.replay (args.map .CreateOrderItem) st).2 ∧
      (server.createOrders ctx st).reply = .json StatusOK body ∧
      body.orderRows = some rows ∧ (rows = [] → body = .null) ∧
      (rows ≠ [] → body = .orders rows) := by
  obtain ⟨rows, body, hres, hloop, hrows, hnil, hcons⟩ :=
    createOrdersLoop_ok server ctx req.OrderID items 0 [] [] st hok
  have hrun : server.createOrders ctx st =
      createOrdersLoop server ctx req.OrderID items 0 [] [] st := by
    simp only [Server.createOrders, hb, hitems, Option.getD_some]
  have hlen : rows.length = items.length := by
    have h1 := congrArg List.length hres
    have h2 : ∀ (cs : List StoreCall) (s : σ), (server.store.replay cs s).1.length = cs.length := by
      intro cs
      induction cs with
      | nil => intro s; rfl
      | cons c cs ih => intro s; simp [Store.replay, ih]
    rw [h2, List.length_map, List.length_map, createOrderItemArgs_length] at h1
    exact h1.symm
  refine ⟨createOrderItemArgs ctx req.OrderID items 0, rows, body, ?_,
    createOrderItemArgs_length _ _ _ _, ?_, ?_, hlen, ?_, ?_, ?_, ?_, ?_⟩
  · rw [hrun, hloop]; rfl
  · intro k item hk
    refine ⟨?_, FormottedDecimalToString_hasTwoDecimals _⟩
    rw [createOrderItemArgs_getElem? ctx req.OrderID items 0 k item hk, Nat.zero_add]
    rfl
  · rw [hrun, hloop]
    simpa [Outcome.results] using hres
  · rw [hrun, hloop]
  · rw [hrun, hloop]
  · simpa using hrows
  · simpa using hnil
  · simpa using hcons

/-- Witness of C19: the order 5 of two items at 2.5 and 4 on the sample server
makes two calls, with the prices "2.50" and "4.00", and answers the two rows. -/
theorem createOrders_calls_in_order_witness :
    (sampleServer.createOrders twoItemOrderCtx 0).calls.map
        (fun c => match c with
          | .CreateOrderItem a => (a.ProductName, a.ProductPrice)
          | _ => ("", "")) = [("tea", "2.50"), ("cake", "4.00")] ∧
    ∃ (args : List CreateOrderItemParams) (rows : List Order) (body : Body StructSeg),
      (sampleServer.createOrders twoItemOrderCtx 0).calls = args.map .CreateOrderItem ∧
      args.length = twoItems.length ∧
      (∀ (k : Nat) (item : createOrderItemRequest), twoItems[k]? = some item →
        args[k]? = some ⟨twoItemOrderCtx.uuid k, item.ShopName, 5, item.OrderDay,
          item.ProductName, FormottedDecimalToString item.ProductPrice, item.Amount,
          item.Status⟩ ∧
        hasTwoDecimals (FormottedDecimalToString item.ProductPrice) = true) ∧
      (sampleServer.createOrders twoItemOrderCtx 0).results sampleServer.store 0
        = rows.map (fun o => .ok (.order o)) ∧
      rows.length = twoItems.length ∧
      (sampleServer.createOrders twoItemOrderCtx 0).state
        = (sampleServer.store.replay (args.map .CreateOrderItem) 0).2 ∧
      (sampleServer.createOrders twoItemOrderCtx 0).reply = .json StatusOK body ∧
      body.orderRows = some rows ∧ (rows = [] → body = .null) ∧
      (rows ≠ [] → body = .orders rows) :=
  ⟨by decide, createOrders_calls_in_order sampleServer twoItemOrderCtx 0 ⟨5, some twoItems⟩
    twoItems rfl rfl (by
      intro r hr
      have hr1 : r ∈ [Except.ok (StoreRow.order ⟨100, "bob", 5, "2022-01-01", "tea", "2.50", 1,
          "Pending", 0⟩), Except.ok (StoreRow.order ⟨101, "bob", 5, "2022-01-01", "cake",
          "4.00", 2, "Pending", 0⟩)] := hr
      simp only [List.mem_cons, List.mem_singleton, List.not_mem_nil, or_false] at hr1
      rcases hr1 with h | h <;> exact ⟨_, h⟩)⟩

/-! ## Theorems on the number of store calls -/

/-- C20 (as stated, refuted): the request `twoItemOrderCtx` of two order items makes
`createOrders` call the store twice. -/
theorem createOrders_calls_store_twice :
    createOrderRequest.bind twoItemOrderCtx = .ok ⟨5, some twoItems⟩ ∧
    (sampleServer.run .createOrders twoItemOrderCtx 0).calls.length = 2 ∧
    (sampleServer.run .createOrders twoItemOrderCtx 0).status = some StatusOK :=
  ⟨rfl, rfl, rfl⟩

/-- C20 (amended): every handler other than `createOrders` calls the store at most
once per request; `createOrders` calls it once per order item until a call fails,
hence at most as many times as the body has items, and exactly that many times
when every call succeeds. -/
theorem store_calls_per_request {σ Seg : Type} (server : Server σ Seg) (h : Handler)
    (ctx : Context h.Req) (st : σ) (octx : Context createOrderRequest) :
    (h ≠ .createOrders → (server.run h ctx st).calls.length ≤ 1) ∧
    (server.run .createOrders octx st).calls.length ≤ (requestItems octx).length ∧
    ((server.run .createOrders octx st).status = some StatusOK →
      (server.run .createOrders octx st).calls.length = (requestItems octx).length) := by
  refine ⟨fun hne => ?_, ?_, ?_⟩
  · cases h with
    | createOrders => exact absurd rfl hne
    | createUser =>
      generalize ho : server.run .createUser ctx st = o
      simp only [Server.run, Server.createUser] at ho
      repeat' split at ho
      all_goals
        subst ho
        simp
    | loginUser =>
      generalize ho : server.run .loginUser ctx st = o
      simp only [Server.run, Server.loginUser] at ho
      repeat' split at ho
      all_goals
        subst ho
        simp
    | getAllMenuItems =>
      generalize ho : server.run .getAllMenuItems ctx st = o
      simp only [Server.run, Server.getAllMenuItems] at ho
      repeat' split at ho
      all_goals
        subst ho
        simp
    | getOrdersByOrderID =>
      generalize ho : server.run .getOrdersByOrderID ctx st = o
      simp only [Server.run, Server.getOrdersByOrderID] at ho
      repeat' split at ho
      all_goals
        subst ho
        simp
    | getUser =>
      generalize ho : server.run .getUser ctx st = o
      simp only [Server.run, Server.getUser] at ho
      repeat' split at ho
      all_goals
        subst ho
        simp
    | getAllProducts =>
      generalize ho : server.run .getAllProducts ctx st = o
      simp only [Server.run, Server.getAllProducts] at ho
      repeat' split at ho
      all_goals
        subst ho
        simp
    | createProduct =>
      generalize ho : server.run .createProduct ctx st = o
      simp only [Server.run, Server.createProduct] at ho
      repeat' split at ho
      all_goals
        subst ho
        simp
    | updateProduct =>
      generalize ho : server.run .updateProduct ctx st = o
      simp only [Server.run, Server.updateProduct] at ho
      repeat' split at ho
      all_goals
        subst ho
        simp
    | deleteProduct =>
      generalize ho : server.run .deleteProduct ctx st = o
      simp only [Server.run, Server.deleteProduct] at ho
      repeat' split at ho
      all_goals
        subst ho
        simp
    | addMenuItem =>
      generalize ho : server.run .addMenuItem ctx st = o
      simp only [Server.run, Server.addMenuItem] at ho
      repeat' split at ho
      all_goals
        subst ho
        simp
    | updateMenuItem =>
      generalize ho : server.run .updateMenuItem ctx st = o
      simp only [Server.run, Server.updateMenuItem] at ho
      repeat' split at ho
      all_goals
        subst ho
        simp
    | deleteMenuItem =>
      generalize ho : server.run .deleteMenuItem ctx st = o
      simp only [Server.run, Server.deleteMenuItem] at ho
      repeat' split at ho
      all_goals
        subst ho
        simp
    | updateOrderItem =>
      generalize ho : server.run .updateOrderItem ctx st = o
      simp only [Server.run, Server.updateOrderItem] at ho
      repeat' split at ho
      all_goals
        subst ho
        simp
    | getOrdersByDay =>
      generalize ho : server.run .getOrdersByDay ctx st = o
      simp only [Server.run, Server.getOrdersByDay] at ho
      repeat' split at ho
      all_goals
        subst ho
        simp
    | deleteOrderItem =>
      generalize ho : server.run .deleteOrderItem ctx st = o
      simp only [Server.run, Server.deleteOrderItem] at ho
      repeat' split at ho
      all_goals
        subst ho
        simp
  · simp only [Server.run, Server.createOrders]
    split
    · simp
    · rename_i orderReq hb
      have hj := bind_ok_json octx _ _ orderReq hb
      have h1 := createOrdersLoop_calls_length server octx orderReq.OrderID
        (orderReq.Orders.getD []) 0 [] [] st
      simpa [requestItems, hj] using h1
  · intro hst
    simp only [Server.run, Server.createOrders] at hst ⊢
    split at hst
    · simp only [Outcome.status] at hst
      exact absurd hst (by decide)
    · rename_i orderReq hb
      have hj := bind_ok_json octx _ _ orderReq hb
      have h1 := createOrdersLoop_ok_length server octx orderReq.OrderID
        (orderReq.Orders.getD []) 0 [] [] st hst
      simpa [requestItems, hj] using h1

/-- Witness of C20: on the sample server `createProduct` makes one call and the
order of two items makes two. -/
theorem store_calls_per_request_witness :
    Handler.createProduct ≠ .createOrders ∧
    (sampleServer.run .createProduct bobProductCtx 0).calls.length ≤ 1 ∧
    (sampleServer.run .createOrders twoItemOrderCtx 0).calls.length
      ≤ (requestItems twoItemOrderCtx).length ∧
    (sampleServer.run .createOrders twoItemOrderCtx 0).calls.length
      = (requestItems twoItemOrderCtx).length ∧
    (requestItems twoItemOrderCtx).length = 2 :=
  ⟨by decide,
    (store_calls_per_request sampleServer .createProduct bobProductCtx 0 twoItemOrderCtx).1
      (by decide),
    (store_calls_per_request sampleServer .createProduct bobProductCtx 0 twoItemOrderCtx).2.1,
    (store_calls_per_request sampleServer .createProduct bobProductCtx 0 twoItemOrderCtx).2.2
      rfl,
    rfl⟩

/-! ## Theorems on the instants of a payload -/

/-- C24 (as stated, refuted): when the clock advances by one microsecond between
the two calls of `time.Now()` in `NewPayload`, the ExpiredAt of the payload is not
IssuedAt plus the duration. -/
theorem newPayload_expiry_is_not_issuedAt_plus_ttl :
    driftEnv.valid ∧ driftEnv.now1 ≤ driftEnv.now2 ∧
    (NewPayload driftEnv "alice" (60 * Second)).Username = "alice" ∧
    (NewPayload driftEnv "alice" (60 * Second)).ExpiredAt
      ≠ (NewPayload driftEnv "alice" (60 * Second)).IssuedAt + 60 * Second := by
  decide

/-- C24 (amended): for every username and duration ttl, the payload of `NewPayload`
has the Username given, IssuedAt equal to the first reading of the clock and
ExpiredAt equal to the second reading plus ttl; so ExpiredAt exceeds IssuedAt plus
ttl by the time elapsed between the two readings, is at least IssuedAt plus ttl
when the clock did not go back, and is IssuedAt plus ttl exactly when both readings
coincide. -/
theorem newPayload_instants (env : IssueEnv) (username : String) (ttl : Duration) :
    (NewPayload env username ttl).Username = username ∧
    (NewPayload env username ttl).ID = env.uuid ∧
    (NewPayload env username ttl).IssuedAt = env.now1 ∧
    (NewPayload env username ttl).ExpiredAt = env.now2 + ttl ∧
    (NewPayload env username ttl).ExpiredAt - ((NewPayload env username ttl).IssuedAt + ttl)
      = env.now2 - env.now1 ∧
    (env.now1 ≤ env.now2 →
      (NewPayload env username ttl).IssuedAt + ttl ≤ (NewPayload env username ttl).ExpiredAt) ∧
    ((NewPayload env username ttl).ExpiredAt = (NewPayload env username ttl).IssuedAt + ttl ↔
      env.now1 = env.now2) := by
  refine ⟨rfl, rfl, rfl, rfl, ?_, ?_, ?_⟩
  · show env.now2 + ttl - (env.now1 + ttl) = env.now2 - env.now1
    ring
  · intro h
    show env.now1 + ttl ≤ env.now2 + ttl
    linarith
  · show env.now2 + ttl = env.now1 + ttl ↔ env.now1 = env.now2
    constructor
    · intro h; linarith
    · intro h; rw [h]

/-- Witness of C24: with the two readings one microsecond apart, ExpiredAt is
IssuedAt plus the duration plus that microsecond. -/
theorem newPayload_instants_witness :
    (NewPayload driftEnv "alice" (60 * Second)).ExpiredAt
        - ((NewPayload driftEnv "alice" (60 * Second)).IssuedAt + 60 * Second) = 1000 ∧
      (NewPayload driftEnv "alice" (60 * Second)).IssuedAt + 60 * Second
        ≤ (NewPayload driftEnv "alice" (60 * Second)).ExpiredAt :=
  ⟨(newPayload_instants driftEnv "alice" (60 * Second)).2.2.2.2.1,
    (newPayload_instants driftEnv "alice" (60 * Second)).2.2.2.2.2.1 (by decide)⟩

/-- A maker under whose secret the HS256 sum of the signing input differs from the
signature rejects the token. -/
theorem VerifyToken_other_sum {Seg : Type} (L : JwtLib Seg) (hL : L.Lawful)
    (key : Bytes) (verifier : JWTMaker) (now : Time) (c : Seg) (claims : JWTClaims)
    (hdec : L.decodeClaims c = .ok claims)
    (hkey : hmacSum L .SHA256 verifier.secretKey
        (L.signingString (L.encodeHeader issuedHeader) c) ≠
      hmacSum L .SHA256 key (L.signingString (L.encodeHeader issuedHeader) c)) :
    ∃ err, verifier.VerifyToken L now (signedSegments L key c) = .error err := by
  simp only [JWTMaker.VerifyToken, signedSegments, ParseWithClaims, ParseUnverified, hL.header,
    hdec, hL.segment, issuedHeader, GetSigningMethod_HS256, JWTMaker.keyFunc,
    SigningMethod.isHMAC, SigningMethod.Verify]
  simp only [Bool.not_true, Bool.false_eq_true, if_false]
  simp only [issuedHeader] at hkey
  rw [if_neg (fun h => hkey h.symm)]
  exact ⟨_, rfl⟩

/-- C25: whenever `VerifyToken`, of the issuing maker or of any other, accepts at
clock reading `now` a token issued by `CreateToken`, `now` is strictly before the
registered `exp` claim, which is the ExpiredAt of the payload truncated down to
whole seconds, hence strictly before ExpiredAt: no token is accepted at or after the
ExpiredAt of its payload. The clock readings at issuance are within the range of
`UnixNano` and the ttl is an `int64`. -/
theorem verifyToken_accepts_only_before_expiry {Seg : Type} (L : JwtLib Seg) (hL : L.Lawful)
    (maker verifier : JWTMaker) (env : IssueEnv) (S : String) (ttl : Duration) (now : Time)
    (tok : List Seg) (payload : Payload) (henv : env.valid) (hdur : isInt64 ttl)
    (hc : maker.CreateToken L env S ttl = .ok tok)
    (hv : verifier.VerifyToken L now tok = .ok payload) :
    payload = NewPayload env S ttl ∧
    (issuedClaims env S ttl).registered.ExpiresAt = some (NewNumericDate payload.ExpiredAt) ∧
    NewNumericDate payload.ExpiredAt % Second = 0 ∧
    NewNumericDate payload.ExpiredAt ≤ payload.ExpiredAt ∧
    payload.ExpiredAt - Second < NewNumericDate payload.ExpiredAt ∧
    now < NewNumericDate payload.ExpiredAt ∧ now < payload.ExpiredAt := by
  obtain ⟨c, hdec, hc1⟩ := CreateToken_ok L hL maker env S ttl henv hdur
  rw [hc1] at hc
  injection hc with hc
  subst hc
  by_cases hkey : hmacSum L .SHA256 verifier.secretKey
      (L.signingString (L.encodeHeader issuedHeader) c) =
    hmacSum L .SHA256 maker.secretKey (L.signingString (L.encodeHeader issuedHeader) c)
  · rw [VerifyToken_signed L hL _ _ _ _ _ hdec hkey] at hv
    by_cases hlt : now < NewNumericDate (env.now2 + ttl)
    · rw [Validate_issued_ok _ _ _ _ hlt] at hv
      injection hv with hv
      subst hv
      have hle := NewNumericDate_le (env.now2 + ttl)
      refine ⟨rfl, rfl, NewNumericDate_emod _, hle, NewNumericDate_gt _, hlt, ?_⟩
      show now < env.now2 + ttl
      linarith
    · rw [Validate_issued_expired _ _ _ _ hlt] at hv
      cases hv
  · obtain ⟨err, he⟩ := VerifyToken_other_sum L hL _ verifier now c _ hdec hkey
    rw [he] at hv
    cases hv

/-- Witness of C25: the sample token of one minute, issued at 1700000000.5s and
accepted nine nanoseconds later, has `exp` 1700000060s, half a second before its
ExpiredAt. -/
theorem verifyToken_accepts_only_before_expiry_witness :
    (issuedClaims sampleEnv "alice" (60 * Second)).registered.ExpiresAt
      = some (NewNumericDate (NewPayload sampleEnv "alice" (60 * Second)).ExpiredAt) ∧
    NewNumericDate (NewPayload sampleEnv "alice" (60 * Second)).ExpiredAt % Second = 0 ∧
    NewNumericDate (NewPayload sampleEnv "alice" (60 * Second)).ExpiredAt
      ≤ (NewPayload sampleEnv "alice" (60 * Second)).ExpiredAt ∧
    (NewPayload sampleEnv "alice" (60 * Second)).ExpiredAt - Second
      < NewNumericDate (NewPayload sampleEnv "alice" (60 * Second)).ExpiredAt ∧
    (1700000000500000009 : Time)
      < NewNumericDate (NewPayload sampleEnv "alice" (60 * Second)).ExpiredAt ∧
    (1700000000500000009 : Time) < (NewPayload sampleEnv "alice" (60 * Second)).ExpiredAt :=
  (verifyToken_accepts_only_before_expiry structLib structLib_lawful ⟨sampleKey⟩ ⟨sampleKey⟩
    sampleEnv "alice" (60 * Second) 1700000000500000009 _
    (NewPayload sampleEnv "alice" (60 * Second)) (by decide) (by decide)
    (structLib_CreateToken _ _ _ _)
    (by
      rw [structLib_VerifyToken _ _ _ _ _ _ rfl, Validate_issued_ok _ _ _ _ (by decide)])).2

/-! ## Theorems on the catalog of a menu item -/

theorem validateStruct_failed {β : Type} (name : String) (failed : List (String × String))
    (r r1 : β) (h : validateStruct name failed r = .ok r1) : failed = [] := by
  unfold validateStruct at h
  split at h
  · rename_i hf
    exact List.isEmpty_iff.mp hf
  · cases h

theorem checkField_required (field : String) (s : String) (h : s ≠ "") :
    checkField field [("required", requiredString s)] = [] := by
  simp [checkField, requiredString, h]

/-- The run of `addMenuItem` on a bound body whose shop name is the subject of the
token: the single call `AddMenuItem`. -/
theorem addMenuItem_bound {σ Seg : Type} (server : Server σ Seg)
    (ctx : Context addMenuItemRequest) (st : σ) (req : addMenuItemRequest) (p : Payload)
    (hb : addMenuItemRequest.bind ctx = .ok req) (hp : ctx.authPayload = some p)
    (hname : p.Username = req.ShopName) :
    server.addMenuItem ctx st =
      match server.store.AddMenuItem ⟨ctx.uuid 0, req.UserID, req.ShopName, req.ProductID,
          req.ProductName, FormottedDecimalToString req.ProductPrice, req.Catalog,
          req.Description⟩ st with
      | (.error err, st1) =>
        ⟨.json StatusInternalServerError (errorResponse err),
          [.AddMenuItem ⟨ctx.uuid 0, req.UserID, req.ShopName, req.ProductID, req.ProductName,
            FormottedDecimalToString req.ProductPrice, req.Catalog, req.Description⟩], st1⟩
      | (.ok menuItem, st1) =>
        ⟨.json StatusOK (.menu menuItem),
          [.AddMenuItem ⟨ctx.uuid 0, req.UserID, req.ShopName, req.ProductID, req.ProductName,
            FormottedDecimalToString req.ProductPrice, req.Catalog, req.Description⟩], st1⟩ := by
  simp only [Server.addMenuItem, hb, hp, hname, ne_eq, not_true_eq_false, if_false]

/-- The run of `updateMenuItem` on a bound body whose shop name is the subject of
the token: the single call `UpdateMenuItem`. -/
theorem updateMenuItem_bound {σ Seg : Type} (server : Server σ Seg)
    (ctx : Context updateMenuItemRequest) (st : σ) (req : updateMenuItemRequest) (p : Payload)
    (hb : updateMenuItemRequest.bind ctx = .ok req) (hp : ctx.authPayload = some p)
    (hname : p.Username = req.ShopName) :
    server.updateMenuItem ctx st =
      match server.store.UpdateMenuItem ⟨req.UserID, req.ID, req.ProductName,
          FormottedDecimalToString req.ProductPrice, req.Catalog, req.Description⟩ st with
      | (.error err, st1) =>
        ⟨.json StatusInternalServerError (errorResponse err),
          [.UpdateMenuItem ⟨req.UserID, req.ID, req.ProductName,
            FormottedDecimalToString req.ProductPrice, req.Catalog, req.Description⟩], st1⟩
      | (.ok updatedItem, st1) =>
        ⟨.json StatusOK (.menu updatedItem),
          [.UpdateMenuItem ⟨req.UserID, req.ID, req.ProductName,
            FormottedDecimalToString req.ProductPrice, req.Catalog, req.Description⟩], st1⟩ := by
  simp only [Server.updateMenuItem, hb, hp, hname, ne_eq, not_true_eq_false, if_false]

/-- C30: `IsValidCatalog` holds exactly of "breakfast", "lunch" and "dinner", and
`addMenuItem` and `updateMenuItem` do not consult it: in a request whose body binds
and whose shop name is the subject of the token, the catalog may be replaced by any
non-empty string; the body still binds, the store receives that string unchanged
as the Catalog of the single call, and the answer is 200 with the returned row when
the call succeeds. -/
theorem menu_catalog_is_not_validated {σ Seg : Type} (server : Server σ Seg) (st : σ) :
    (∀ c, IsValidCatalog c = true ↔ c = "breakfast" ∨ c = "lunch" ∨ c = "dinner") ∧
    (∀ (ctx : Context addMenuItemRequest) (req : addMenuItemRequest) (p : Payload) (c : String),
      addMenuItemRequest.bind ctx = .ok req → ctx.authPayload = some p →
      p.Username = req.ShopName → c ≠ "" →
      addMenuItemRequest.bind { ctx with json := .ok { req with Catalog := c } }
        = .ok { req with Catalog := c } ∧
      ∃ arg : AddMenuItemParams,
        (server.addMenuItem { ctx with json := .ok { req with Catalog := c } } st).calls
          = [.AddMenuItem arg] ∧
        arg.Catalog = c ∧
        ∀ m, (server.store.AddMenuItem arg st).1 = .ok m →
          (server.addMenuItem { ctx with json := .ok { req with Catalog := c } } st).reply
            = .json StatusOK (.menu m)) ∧
    (∀ (ctx : Context updateMenuItemRequest) (req : updateMenuItemRequest) (p : Payload)
        (c : String),
      updateMenuItemRequest.bind ctx = .ok req → ctx.authPayload = some p →
      p.Username = req.ShopName → c ≠ "" →
      updateMenuItemRequest.bind { ctx with json := .ok { req with Catalog := c } }
        = .ok { req with Catalog := c } ∧
      ∃ arg : UpdateMenuItemParams,
        (server.updateMenuItem { ctx with json := .ok { req with Catalog := c } } st).calls
          = [.UpdateMenuItem arg] ∧
        arg.Catalog = c ∧
        ∀ m, (server.store.UpdateMenuItem arg st).1 = .ok m →
          (server.updateMenuItem { ctx with json := .ok { req with Catalog := c } } st).reply
            = .json StatusOK (.menu m)) := by
  refine ⟨fun c => ?_, ?_, ?_⟩
  · simp [IsValidCatalog, Breakfast, Lunch, Dinner]
  · intro ctx req p c hb hp hname hc
    have hj := ShouldBindJSON_ok ctx _ _ req hb
    have hf : addMenuItemRequest.failed req = [] := by
      simp only [addMenuItemRequest.bind, ShouldBindJSON, hj] at hb
      exact validateStruct_failed _ _ _ _ hb
    simp only [addMenuItemRequest.failed, List.append_eq_nil] at hf
    obtain ⟨⟨⟨⟨⟨⟨h1, h2⟩, h3⟩, h4⟩, h5⟩, _⟩, h7⟩ := hf
    have hb1 : addMenuItemRequest.bind { ctx with json := .ok { req with Catalog := c } }
        = .ok { req with Catalog := c } := by
      simp [addMenuItemRequest.bind, ShouldBindJSON, validateStruct, addMenuItemRequest.failed,
        h1, h2, h3, h4, h5, h7, checkField_required _ c hc]
    have hrun := addMenuItem_bound server _ st _ p hb1 hp hname
    refine ⟨hb1, ⟨ctx.uuid 0, req.UserID, req.ShopName, req.ProductID, req.ProductName,
      FormottedDecimalToString req.ProductPrice, c, req.Description⟩, ?_, rfl, ?_⟩
    all_goals
      rw [hrun]
      rcases hs : server.store.AddMenuItem _ st with ⟨res, st1⟩
      rcases res with e | m
      all_goals simp
  · intro ctx req p c hb hp hname hc
    have hj := ShouldBindJSON_ok ctx _ _ req hb
    have hf : updateMenuItemRequest.failed req = [] := by
      simp only [updateMenuItemRequest.bind, ShouldBindJSON, hj] at hb
      exact validateStruct_failed _ _ _ _ hb
    simp only [updateMenuItemRequest.failed, List.append_eq_nil] at hf
    obtain ⟨⟨⟨⟨⟨⟨h1, h2⟩, h3⟩, h4⟩, h5⟩, _⟩, h7⟩ := hf
    have hb1 : updateMenuItemRequest.bind { ctx with json := .ok { req with Catalog := c } }
        = .ok { req with Catalog := c } := by
      simp [updateMenuItemRequest.bind, ShouldBindJSON, validateStruct,
        updateMenuItemRequest.failed, h1, h2, h3, h4, h5, h7, checkField_required _ c hc]
    have hrun := updateMenuItem_bound server _ st _ p hb1 hp hname
    refine ⟨hb1, ⟨req.UserID, req.ID, req.ProductName,
      FormottedDecimalToString req.ProductPrice, c, req.Description⟩, ?_, rfl, ?_⟩
    all_goals
      rw [hrun]
      rcases hs : server.store.UpdateMenuItem _ st with ⟨res, st1⟩
      rcases res with e | m
      all_goals simp

/-- Witness of C30: the catalog "brunch", which `IsValidCatalog` rejects, reaches
the store unchanged and the request is answered 200. -/
theorem menu_catalog_is_not_validated_witness :
    IsValidCatalog "brunch" = false ∧
    addMenuItemRequest.bind (bobMenuCtx "breakfast") = .ok (bobMenuBody "breakfast") ∧
    (sampleServer.addMenuItem (bobMenuCtx "brunch") 0).status = some StatusOK ∧
    ∃ arg : AddMenuItemParams,
      (sampleServer.addMenuItem (bobMenuCtx "brunch") 0).calls = [.AddMenuItem arg] ∧
      arg.Catalog = "brunch" ∧
      ∀ m, (sampleServer.store.AddMenuItem arg 0).1 = .ok m →
        (sampleServer.addMenuItem (bobMenuCtx "brunch") 0).reply = .json StatusOK (.menu m) :=
  ⟨by decide, rfl, rfl,
    ((menu_catalog_is_not_validated sampleServer 0).2.1 (bobMenuCtx "breakfast")
      (bobMenuBody "breakfast") (NewPayload sampleEnv "bob" (60 * Second)) "brunch"
      rfl rfl rfl (by decide)).2⟩

/-! ## Theorems on what the handlers read -/

/-- The loop of `createOrders` reads its context only through `uuid.New()`. -/
theorem createOrdersLoop_ctx {σ Seg : Type} (server : Server σ Seg)
    (ctx ctx1 : Context createOrderRequest) (hu : ctx1.uuid = ctx.uuid) (orderID : UUID)
    (items : List createOrderItemRequest) :
    ∀ (i : Nat) (orders : List Order) (calls : List StoreCall) (st : σ),
      createOrdersLoop server ctx1 orderID items i orders calls st
        = createOrdersLoop server ctx orderID items i orders calls st := by
  induction items with
  | nil => intro i orders calls st; rfl
  | cons req rest ih =>
    intro i orders calls st
    have ha : createOrderItemArg ctx1 orderID i req = createOrderItemArg ctx orderID i req := by
      simp only [createOrderItemArg, hu]
    simp only [createOrdersLoop, ha]
    rcases server.store.CreateOrderItem (createOrderItemArg ctx orderID i req) st with ⟨res, st1⟩
    cases res with
    | error err => rfl
    | ok orderItem => exact ih _ _ _ _

/-- The handlers of `pathFreeHandlers` give the same outcome whatever the path
parameters are. -/
theorem run_path_free {σ Seg : Type} (server : Server σ Seg) (h : Handler)
    (ctx : Context h.Req) (params1 : List (String × String)) (st : σ)
    (hh : h ∈ pathFreeHandlers) :
    server.run h { ctx with params := params1 } st = server.run h ctx st := by
  simp only [pathFreeHandlers, List.mem_cons, List.mem_singleton, List.not_mem_nil,
    or_false] at hh
  rcases hh with rfl | rfl | rfl | rfl | rfl | rfl | rfl | rfl | rfl | rfl
  case inr.inr.inr.inr.inr.inr.inr.inr.inl =>
    show Server.createOrders server _ st = Server.createOrders server ctx st
    simp only [Server.createOrders]
    show (match createOrderRequest.bind ctx with
      | .error err => (⟨.json StatusBadRequest (errorResponse err), [], st⟩ : Outcome σ Seg)
      | .ok orderReq => createOrdersLoop server { ctx with params := params1 } orderReq.OrderID
          (orderReq.Orders.getD []) 0 [] [] st) = _
    cases createOrderRequest.bind ctx with
    | error err => rfl
    | ok orderReq =>
      exact createOrdersLoop_ctx server ctx { ctx with params := params1 } rfl _ _ _ _ _ _
  all_goals rfl

/-- C26: for createProduct, deleteProduct, addMenuItem, updateMenuItem,
deleteMenuItem, updateOrderItem, deleteOrderItem, getOrdersByDay, createOrders and
getOrdersByOrderID, the outcome (status, body, store calls, state of the store)
does not depend on the path parameters: the handler gives the same outcome on
contexts that differ only in them, and two requests that differ only in their path
and are routed to the same route of such a handler get the same response and cause
the same store calls, the results of `uuid.New()` being the same. Routing is the
walk of the route tree: a path that does not reach the handler is outside the
statement, as `POST /users/order`, which the tree answers 404 although it has the
shape of `/:shop_name/order`. -/
theorem path_parameters_are_ignored {σ Seg : Type} (server : Server σ Seg) (h : Handler)
    (hh : h ∈ pathFreeHandlers) (st : σ) :
    (∀ (ctx : Context h.Req) (params1 : List (String × String)),
      server.run h { ctx with params := params1 } st = server.run h ctx st) ∧
    (∀ (route : Route) (params params1 : List (String × String)) (req : Request Seg),
      route.handler = h →
      server.serveRoute route params1 req st = server.serveRoute route params req st) ∧
    (∀ (req : Request Seg) (path1 : List String) (route : Route)
        (params params1 : List (String × String)),
      route.handler = h →
      findRoute setupRouter req.method req.path = some (route, params) →
      findRoute setupRouter req.method path1 = some (route, params1) →
      server.ServeHTTP { req with path := path1 } st = server.ServeHTTP req st) ∧
    (∀ (req : Request Seg), req.method = .POST → req.path = ["users", "order"] →
      server.ServeHTTP req st = ⟨.plain StatusNotFound "404 page not found", [], st⟩) := by
  have hroute : ∀ (route : Route) (params params1 : List (String × String)) (req : Request Seg),
      route.handler = h →
      server.serveRoute route params1 req st = server.serveRoute route params req st := by
    intro route params params1 req hr
    subst hr
    simp only [Server.serveRoute]
    split
    · split
      · rfl
      · rename_i payload _
        exact run_path_free server route.handler
          { params := params, json := req.json route.handler, authPayload := some payload,
            uuid := req.uuid, issue := req.issue } params1 st hh
    · exact run_path_free server route.handler
        { params := params, json := req.json route.handler, authPayload := Option.none,
          uuid := req.uuid, issue := req.issue } params1 st hh
  refine ⟨fun ctx params1 => run_path_free server h ctx params1 st hh, hroute, ?_, ?_⟩
  · intro req path1 route params params1 hr h0 h1
    have hs := hroute route params params1 req hr
    have hs1 : server.serveRoute route params1 { req with path := path1 } st
        = server.serveRoute route params1 req st := rfl
    simp only [Server.ServeHTTP, h0, h1, hs1, hs]
  · intro req hm hp
    have hf : findRoute setupRouter .POST ["users", "order"] = Option.none := by decide
    simp only [Server.ServeHTTP, hm, hp, hf]

/-- Witness of C26: the product request of "bob" gets the same response and causes
the same store call under `/users/alice/products` as under `/users/bob/products`;
the order request sent to `/shop/order` is answered 200 and the same request sent
to `/users/order` is answered 404 by the router, with no store call. -/
theorem path_parameters_are_ignored_witness :
    Handler.createProduct ∈ pathFreeHandlers ∧
    sampleServer.ServeHTTP bobPostsUnderBob 0 = sampleServer.ServeHTTP bobPostsUnderAlice 0 ∧
    (sampleServer.ServeHTTP bobPostsUnderAlice 0).status = some StatusOK ∧
    (sampleServer.ServeHTTP emptyItemOrder 0).status = some StatusOK ∧
    findRoute setupRouter .POST ["users", "order"] = Option.none ∧
    sampleServer.ServeHTTP { emptyItemOrder with path := ["users", "order"] } 0
      = ⟨.plain StatusNotFound "404 page not found", [], 0⟩ :=
  ⟨by decide,
    (path_parameters_are_ignored sampleServer .createProduct (by decide) 0).2.2.1
      bobPostsUnderAlice ["users", "bob", "products"]
      ⟨.POST, [.lit "users", .param "username", .lit "products"], .createProduct, true⟩
      [("username", "alice")] [("username", "bob")] rfl rfl rfl,
    rfl, rfl, by decide,
    (path_parameters_are_ignored sampleServer .createProduct (by decide) 0).2.2.2
      { emptyItemOrder with path := ["users", "order"] } rfl rfl⟩

/-! ## Theorems on the payload in the context -/

theorem createOrdersLoop_json {σ Seg : Type} (server : Server σ Seg)
    (ctx : Context createOrderRequest) (orderID : UUID) (items : List createOrderItemRequest) :
    ∀ (i : Nat) (orders : List Order) (calls : List StoreCall) (st : σ),
      ∃ status body,
        (createOrdersLoop server ctx orderID items i orders calls st).reply
          = .json status body := by
  induction items with
  | nil =>
    intro i orders calls st
    cases orders with
    | nil => exact ⟨_, _, rfl⟩
    | cons o os => exact ⟨_, _, rfl⟩
  | cons req rest ih =>
    intro i orders calls st
    rcases hs : server.store.CreateOrderItem (createOrderItemArg ctx orderID i req) st with
      ⟨res, st1⟩
    cases res with
    | error err =>
      refine ⟨StatusInternalServerError, errorResponse err, ?_⟩
      simp only [createOrdersLoop, hs]
    | ok orderItem =>
      obtain ⟨status, body, hr⟩ := ih (i + 1) (orders ++ [orderItem])
        (calls ++ [.CreateOrderItem (createOrderItemArg ctx orderID i req)]) st1
      exact ⟨status, body, by simp only [createOrdersLoop, hs, hr]⟩

/-- A handler panics only in `MustGet`: it reads the payload and the context has
none. -/
theorem run_panic {σ Seg : Type} (server : Server σ Seg) (h : Handler) (ctx : Context h.Req)
    (st : σ) (hp : (server.run h ctx st).reply = .panic) :
    h.readsPayload = true ∧ ctx.authPayload = Option.none := by
  cases h with
  | createOrders =>
    simp only [Server.run, Server.createOrders] at hp
    split at hp
    · cases hp
    · rename_i orderReq _
      obtain ⟨status, body, hr⟩ := createOrdersLoop_json server ctx orderReq.OrderID
        (orderReq.Orders.getD []) 0 [] [] st
      rw [hr] at hp
      cases hp
  | createUser =>
    generalize ho : server.run .createUser ctx st = o at hp
    simp only [Server.run, Server.createUser] at ho
    repeat' split at ho
    all_goals
      subst ho
      simp_all [Handler.readsPayload]
  | loginUser =>
    generalize ho : server.run .loginUser ctx st = o at hp
    simp only [Server.run, Server.loginUser] at ho
    repeat' split at ho
    all_goals
      subst ho
      simp_all [Handler.readsPayload]
  | getAllMenuItems =>
    generalize ho : server.run .getAllMenuItems ctx st = o at hp
    simp only [Server.run, Server.getAllMenuItems] at ho
    repeat' split at ho
    all_goals
      subst ho
      simp_all [Handler.readsPayload]
  | getOrdersByOrderID =>
    generalize ho : server.run .getOrdersByOrderID ctx st = o at hp
    simp only [Server.run, Server.getOrdersByOrderID] at ho
    repeat' split at ho
    all_goals
      subst ho
      simp_all [Handler.readsPayload]
  | getUser =>
    simp only [Server.run, Server.getUser] at hp
    split at hp
    · cases hp
    · rename_i req hb
      have hlen := (getUserRequest_bind_ok ctx req hb).2
      rw [if_neg hlen] at hp
      split at hp
      · rename_i hnone
        exact ⟨rfl, hnone⟩
      · repeat' split at hp
        all_goals cases hp
  | getAllProducts =>
    generalize ho : server.run .getAllProducts ctx st = o at hp
    simp only [Server.run, Server.getAllProducts] at ho
    repeat' split at ho
    all_goals
      subst ho
      simp_all [Handler.readsPayload]
  | createProduct =>
    generalize ho : server.run .createProduct ctx st = o at hp
    simp only [Server.run, Server.createProduct] at ho
    repeat' split at ho
    all_goals
      subst ho
      simp_all [Handler.readsPayload]
  | updateProduct =>
    generalize ho : server.run .updateProduct ctx st = o at hp
    simp only [Server.run, Server.updateProduct] at ho
    repeat' split at ho
    all_goals
      subst ho
      simp_all [Handler.readsPayload]
  | deleteProduct =>
    generalize ho : server.run .deleteProduct ctx st = o at hp
    simp only [Server.run, Server.deleteProduct] at ho
    repeat' split at ho
    all_goals
      subst ho
      simp_all [Handler.readsPayload]
  | addMenuItem =>
    generalize ho : server.run .addMenuItem ctx st = o at hp
    simp only [Server.run, Server.addMenuItem] at ho
    repeat' split at ho
    all_goals
      subst ho
      simp_all [Handler.readsPayload]
  | updateMenuItem =>
    generalize ho : server.run .updateMenuItem ctx st = o at hp
    simp only [Server.run, Server.updateMenuItem] at ho
    repeat' split at ho
    all_goals
      subst ho
      simp_all [Handler.readsPayload]
  | deleteMenuItem =>
    generalize ho : server.run .deleteMenuItem ctx st = o at hp
    simp only [Server.run, Server.deleteMenuItem] at ho
    repeat' split at ho
    all_goals
      subst ho
      simp_all [Handler.readsPayload]
  | updateOrderItem =>
    generalize ho : server.run .updateOrderItem ctx st = o at hp
    simp only [Server.run, Server.updateOrderItem] at ho
    repeat' split at ho
    all_goals
      subst ho
      simp_all [Handler.readsPayload]
  | getOrdersByDay =>
    generalize ho : server.run .getOrdersByDay ctx st = o at hp
    simp only [Server.run, Server.getOrdersByDay] at ho
    repeat' split at ho
    all_goals
      subst ho
      simp_all [Handler.readsPayload]
  | deleteOrderItem =>
    generalize ho : server.run .deleteOrderItem ctx st = o at hp
    simp only [Server.run, Server.deleteOrderItem] at ho
    repeat' split at ho
    all_goals
      subst ho
      simp_all [Handler.readsPayload]

/-- A handler that does not read the payload gives the same outcome whatever the
context holds under `authorizationPayloadKey`. -/
theorem run_payload_free {σ Seg : Type} (server : Server σ Seg) (h : Handler)
    (ctx : Context h.Req) (p : Option Payload) (st : σ) (hh : h.readsPayload = false) :
    server.run h { ctx with authPayload := p } st = server.run h ctx st := by
  cases h with
  | createOrders =>
    show Server.createOrders server _ st = Server.createOrders server ctx st
    simp only [Server.createOrders]
    show (match createOrderRequest.bind ctx with
      | .error err => (⟨.json StatusBadRequest (errorResponse err), [], st⟩ : Outcome σ Seg)
      | .ok orderReq => createOrdersLoop server { ctx with authPayload := p } orderReq.OrderID
          (orderReq.Orders.getD []) 0 [] [] st) = _
    cases createOrderRequest.bind ctx with
    | error err => rfl
    | ok orderReq =>
      exact createOrdersLoop_ctx server ctx { ctx with authPayload := p } rfl _ _ _ _ _ _
  | createUser => rfl
  | loginUser => rfl
  | getAllMenuItems => rfl
  | getOrdersByOrderID => rfl
  | getUser => cases hh
  | getAllProducts => cases hh
  | createProduct => cases hh
  | updateProduct => cases hh
  | deleteProduct => cases hh
  | addMenuItem => cases hh
  | updateMenuItem => cases hh
  | deleteMenuItem => cases hh
  | updateOrderItem => cases hh
  | getOrdersByDay => cases hh
  | deleteOrderItem => cases hh

theorem literalChild_mem (node : List (List PathSeg × Route)) (seg : String)
    (ps : List PathSeg) (r : Route) (h : (ps, r) ∈ literalChild node seg) :
    ∃ qs, (qs, r) ∈ node := by
  simp only [literalChild, List.mem_filterMap] at h
  obtain ⟨e, he, hm⟩ := h
  split at hm
  · split at hm
    · injection hm with hm
      injection hm with _ h2
      exact ⟨e.1, by rw [← h2]; exact he⟩
    · cases hm
  · cases hm

theorem paramChild_mem (node : List (List PathSeg × Route))
    (ps : List PathSeg) (r : Route) (h : (ps, r) ∈ paramChild node) :
    ∃ qs, (qs, r) ∈ node := by
  simp only [paramChild, List.mem_filterMap] at h
  obtain ⟨e, he, hm⟩ := h
  split at hm
  · injection hm with hm
    injection hm with _ h2
    exact ⟨e.1, by rw [← h2]; exact he⟩
  · cases hm

theorem handlersAt_mem (node : List (List PathSeg × Route)) (r : Route)
    (h : handlersAt node = some r) : ∃ qs, (qs, r) ∈ node := by
  simp only [handlersAt, Option.map_eq_some'] at h
  obtain ⟨e, he, hr⟩ := h
  exact ⟨e.1, by rw [← hr]; exact List.mem_of_find?_eq_some he⟩

/-- The route a walk ends at is one of the routes below the node it started from. -/
theorem getValue_mem (path : List String) :
    ∀ (node : List (List PathSeg × Route)) (r : Route),
      getValue node path = .found r → ∃ qs, (qs, r) ∈ node := by
  induction path with
  | nil =>
    intro node r h
    simp only [getValue] at h
    split at h
    · rename_i r1 hr1
      injection h with h
      subst h
      exact handlersAt_mem node _ hr1
    · cases h
  | cons seg rest ih =>
    intro node r h
    have hparam : ∀ r1,
        (if (paramChild node).isEmpty then Lookup.rollback
          else
            match rest with
            | [] =>
              match handlersAt (paramChild node) with
              | some r => .found r
              | Option.none => .notFound
            | _ :: _ =>
              if (paramChild node).all (fun e => e.1.isEmpty) then .notFound
              else getValue (paramChild node) rest) = .found r1 →
        ∃ qs, (qs, r1) ∈ node := by
      intro r1 h1
      split at h1
      · cases h1
      · split at h1
        · split at h1
          · rename_i r2 hr2
            injection h1 with h1
            subst h1
            obtain ⟨qs, hq⟩ := handlersAt_mem _ _ hr2
            exact paramChild_mem node qs _ hq
          · cases h1
        · split at h1
          · cases h1
          · obtain ⟨qs, hq⟩ := ih _ _ h1
            exact paramChild_mem node qs _ hq
    simp only [getValue] at h
    split at h
    · exact hparam r h
    · split at h
      · exact hparam r h
      · obtain ⟨qs, hq⟩ := ih _ _ h
        exact literalChild_mem node seg qs _ hq

/-- The route `findRoute` selects is one of the routes it was given. -/
theorem findRoute_mem (routes : List Route) (method : Method) (path : List String)
    (route : Route) (params : List (String × String))
    (h : findRoute routes method path = some (route, params)) : route ∈ routes := by
  simp only [findRoute] at h
  split at h
  · rename_i r hr
    simp only [Option.map_eq_some', Prod.mk.injEq] at h
    obtain ⟨ps, _, hrr, _⟩ := h
    subst hrr
    obtain ⟨qs, hq⟩ := getValue_mem path _ _ hr
    simp only [List.mem_map, Prod.mk.injEq] at hq
    obtain ⟨r1, hr1, _, hr2⟩ := hq
    subst hr2
    exact (List.mem_filter.mp hr1).1
  · cases h

/-- C29: the handlers that read the payload with `MustGet` are exactly the handlers
of the routes registered on the group with the middleware, and the handlers of the
public routes give the same outcome whatever the context holds under the key; a
handler panics only when it reads the payload and the context has none; so, the
middleware attaching the payload of the token it accepted, no route of the table
ever answers with a panic and the router never has to recover one. -/
theorem handlers_never_panic {σ Seg : Type} (server : Server σ Seg) (st : σ) :
    (∀ r ∈ setupRouter, r.handler.readsPayload = r.auth) ∧
    (∀ (h : Handler) (ctx : Context h.Req) (p : Option Payload), h.readsPayload = false →
      server.run h { ctx with authPayload := p } st = server.run h ctx st) ∧
    (∀ (h : Handler) (ctx : Context h.Req), (server.run h ctx st).reply = .panic →
      h.readsPayload = true ∧ ctx.authPayload = Option.none) ∧
    (∀ (route : Route) (params : List (String × String)) (req : Request Seg),
      route ∈ setupRouter → (server.serveRoute route params req st).reply ≠ .panic) ∧
    (∀ (req : Request Seg) (route : Route) (params : List (String × String)),
      findRoute setupRouter req.method req.path = some (route, params) →
      server.ServeHTTP req st = server.serveRoute route params req st) := by
  have hreg : ∀ r ∈ setupRouter, r.handler.readsPayload = r.auth := by decide
  have hserve : ∀ (route : Route) (params : List (String × String)) (req : Request Seg),
      route ∈ setupRouter → (server.serveRoute route params req st).reply ≠ .panic := by
    intro route params req hr hp
    have hra := hreg route hr
    simp only [Server.serveRoute] at hp
    split at hp
    · split at hp
      · cases hp
      · have h2 := (run_panic server _ _ st hp).2
        cases h2
    · rename_i hna
      have h1 := (run_panic server _ _ st hp).1
      rw [hra] at h1
      exact hna h1
  refine ⟨hreg, fun h ctx p hh => run_payload_free server h ctx p st hh,
    fun h ctx hp => run_panic server h ctx st hp, hserve, ?_⟩
  intro req route params hf
  have hne := hserve route params req (findRoute_mem _ _ _ _ _ hf)
  simp only [Server.ServeHTTP, hf]

/-- Witness of C29: `getUser` reads the payload and `GET /users/bob` without a
header is answered by the middleware; `getOrdersByOrderID` does not read it. -/
theorem handlers_never_panic_witness :
    Handler.getUser.readsPayload = true ∧ Handler.getOrdersByOrderID.readsPayload = false ∧
    (sampleServer.run .getUser { bobGetUserCtx with authPayload := Option.none } 0).reply
      = .panic ∧
    sampleServer.ServeHTTP anonymousGetUser 0
      = sampleServer.serveRoute ⟨.GET, [.lit "users", .param "username"], .getUser, true⟩
          [("username", "bob")] anonymousGetUser 0 ∧
    (sampleServer.ServeHTTP anonymousGetUser 0).status = some StatusUnauthorized :=
  ⟨rfl, rfl, rfl,
    (handlers_never_panic sampleServer 0).2.2.2.2 anonymousGetUser
      ⟨.GET, [.lit "users", .param "username"], .getUser, true⟩ [("username", "bob")] rfl,
    rfl⟩

/-! ## Theorems on the owner id -/

theorem ShouldBindJSON_cases {β : Type} (ctx : Context β) (name : String)
    (failed : β → List (String × String)) (req : β) (hj : ctx.json = .ok req) :
    ShouldBindJSON ctx name failed = .ok req ∨ ∃ e, ShouldBindJSON ctx name failed = .error e := by
  simp only [ShouldBindJSON, hj, validateStruct]
  split
  · exact Or.inl rfl
  · exact Or.inr ⟨_, rfl⟩

theorem usersProductsUri_bind_cases {β : Type} (ctx : Context β) :
    usersProductsUri.bind ctx = .ok ⟨ctx.Param "username"⟩ ∨
      ∃ e, usersProductsUri.bind ctx = .error e := by
  simp only [usersProductsUri.bind, validateStruct]
  split
  · exact Or.inl rfl
  · exact Or.inr ⟨_, rfl⟩

/-- C27: in createProduct, getAllProducts, updateProduct, deleteProduct, addMenuItem,
updateMenuItem and deleteMenuItem the `UserID` handed to the store is the `user_id`
of the body: every store call of the handler carries it, and whenever the request
binds and the subject of the token equals the owner name the handler compares
(URI username, body username or body shop name), the call is made with that
`user_id`, whatever it is and whatever else the payload of the token holds: the
handler does not relate it to the subject of the token. -/
theorem owner_id_comes_from_body {σ Seg : Type} (server : Server σ Seg) (h : Handler)
    (ctx : Context h.Req) (st : σ) (uid : UUID)
    (hh : h ∈ ownerIdHandlers) (hid : h.bodyUserID ctx = some uid) :
    (∀ c ∈ (server.run h ctx st).calls, c.UserID = some uid) ∧
    (h.bindOk ctx = true → ∀ p : Payload, ctx.authPayload = some p →
      h.owner ctx = some p.Username →
      ∃ c, (server.run h ctx st).calls = [c] ∧ c.UserID = some uid) := by
  simp only [ownerIdHandlers, List.mem_cons, List.mem_singleton, List.not_mem_nil,
    or_false] at hh
  rcases hh with rfl | rfl | rfl | rfl | rfl | rfl | rfl
  · rcases hj : ctx.json with e | req
    · simp [Handler.bodyUserID, hj, Except.toOption] at hid
    · simp only [Handler.bodyUserID, hj, Except.toOption, Option.map_some',
        Option.some.injEq] at hid
      subst hid
      have hv : createProductRequest.bind ctx = .ok req ∨ ∃ e, createProductRequest.bind ctx = .error e :=
        ShouldBindJSON_cases ctx _ _ req hj
      refine ⟨?_, ?_⟩
      · generalize ho : server.run .createProduct ctx st = o
        rcases hv with hv | ⟨e, hv⟩
        all_goals simp only [Server.run, Server.createProduct, hv] at ho
        all_goals repeat' split at ho
        all_goals
          subst ho
          simp_all [StoreCall.UserID]
      · intro hb p hp hown
        generalize ho : server.run .createProduct ctx st = o
        rcases hv with hv | ⟨e, hv⟩
        all_goals simp only [Handler.bindOk, Handler.owner, hj, hv, bound] at hb hown
        all_goals simp only [Server.run, Server.createProduct, hv] at ho
        all_goals repeat' split at ho
        all_goals
          subst ho
          simp_all [StoreCall.UserID]
  · rcases hj : ctx.json with e | req
    · simp [Handler.bodyUserID, hj, Except.toOption] at hid
    · simp only [Handler.bodyUserID, hj, Except.toOption, Option.map_some',
        Option.some.injEq] at hid
      subst hid
      have hv : getAllProductsRequest.bind ctx = .ok req ∨ ∃ e, getAllProductsRequest.bind ctx = .error e :=
        ShouldBindJSON_cases ctx _ _ req hj
      have hu := usersProductsUri_bind_cases ctx
      refine ⟨?_, ?_⟩
      · generalize ho : server.run .getAllProducts ctx st = o
        rcases hv with hv | ⟨e, hv⟩
        all_goals rcases hu with hu | ⟨e1, hu⟩
        all_goals simp only [Server.run, Server.getAllProducts, hv, hu] at ho
        all_goals repeat' split at ho
        all_goals
          subst ho
          simp_all [StoreCall.UserID]
      · intro hb p hp hown
        generalize ho : server.run .getAllProducts ctx st = o
        rcases hv with hv | ⟨e, hv⟩
        all_goals rcases hu with hu | ⟨e1, hu⟩
        all_goals simp only [Handler.bindOk, Handler.owner, hj, hv, hu, bound] at hb hown
        all_goals simp only [Server.run, Server.getAllProducts, hv, hu] at ho
        all_goals repeat' split at ho
        all_goals
          subst ho
          simp_all [StoreCall.UserID]
  · rcases hj : ctx.json with e | req
    · simp [Handler.bodyUserID, hj, Except.toOption] at hid
    · simp only [Handler.bodyUserID, hj, Except.toOption, Option.map_some',
        Option.some.injEq] at hid
      subst hid
      have hv : updateProductRequest.bind ctx = .ok req ∨ ∃ e, updateProductRequest.bind ctx = .error e :=
        ShouldBindJSON_cases ctx _ _ req hj
      have hu := usersProductsUri_bind_cases ctx
      refine ⟨?_, ?_⟩
      · generalize ho : server.run .updateProduct ctx st = o
        rcases hv with hv | ⟨e, hv⟩
        all_goals rcases hu with hu | ⟨e1, hu⟩
        all_goals simp only [Server.run, Server.updateProduct, hv, hu] at ho
        all_goals repeat' split at ho
        all_goals
          subst ho
          simp_all [StoreCall.UserID]
      · intro hb p hp hown
        generalize ho : server.run .updateProduct ctx st = o
        rcases hv with hv | ⟨e, hv⟩
        all_goals rcases hu with hu | ⟨e1, hu⟩
        all_goals simp only [Handler.bindOk, Handler.owner, hj, hv, hu, bound] at hb hown
        all_goals simp only [Server.run, Server.updateProduct, hv, hu] at ho
        all_goals repeat' split at ho
        all_goals
          subst ho
          simp_all [StoreCall.UserID]
  · rcases hj : ctx.json with e | req
    · simp [Handler.bodyUserID, hj, Except.toOption] at hid
    · simp only [Handler.bodyUserID, hj, Except.toOption, Option.map_some',
        Option.some.injEq] at hid
      subst hid
      have hv : deleteProductRequest.bind ctx = .ok req ∨ ∃ e, deleteProductRequest.bind ctx = .error e :=
        ShouldBindJSON_cases ctx _ _ req hj
      refine ⟨?_, ?_⟩
      · generalize ho : server.run .deleteProduct ctx st = o
        rcases hv with hv | ⟨e, hv⟩
        all_goals simp only [Server.run, Server.deleteProduct, hv] at ho
        all_goals repeat' split at ho
        all_goals
          subst ho
          simp_all [StoreCall.UserID]
      · intro hb p hp hown
        generalize ho : server.run .deleteProduct ctx st = o
        rcases hv with hv | ⟨e, hv⟩
        all_goals simp only [Handler.bindOk, Handler.owner, hj, hv, bound] at hb hown
        all_goals simp only [Server.run, Server.deleteProduct, hv] at ho
        all_goals repeat' split at ho
        all_goals
          subst ho
          simp_all [StoreCall.UserID]
  · rcases hj : ctx.json with e | req
    · simp [Handler.bodyUserID, hj, Except.toOption] at hid
    · simp only [Handler.bodyUserID, hj, Except.toOption, Option.map_some',
        Option.some.injEq] at hid
      subst hid
      have hv : addMenuItemRequest.bind ctx = .ok req ∨ ∃ e, addMenuItemRequest.bind ctx = .error e :=
        ShouldBindJSON_cases ctx _ _ req hj
      refine ⟨?_, ?_⟩
      · generalize ho : server.run .addMenuItem ctx st = o
        rcases hv with hv | ⟨e, hv⟩
        all_goals simp only [Server.run, Server.addMenuItem, hv] at ho
        all_goals repeat' split at ho
        all_goals
          subst ho
          simp_all [StoreCall.UserID]
      · intro hb p hp hown
        generalize ho : server.run .addMenuItem ctx st = o
        rcases hv with hv | ⟨e, hv⟩
        all_goals simp only [Handler.bindOk, Handler.owner, hj, hv, bound] at hb hown
        all_goals simp only [Server.run, Server.addMenuItem, hv] at ho
        all_goals repeat' split at ho
        all_goals
          subst ho
          simp_all [StoreCall.UserID]
  · rcases hj : ctx.json with e | req
    · simp [Handler.bodyUserID, hj, Except.toOption] at hid
    · simp only [Handler.bodyUserID, hj, Except.toOption, Option.map_some',
        Option.some.injEq] at hid
      subst hid
      have hv : updateMenuItemRequest.bind ctx = .ok req ∨ ∃ e, updateMenuItemRequest.bind ctx = .error e :=
        ShouldBindJSON_cases ctx _ _ req hj
      refine ⟨?_, ?_⟩
      · generalize ho : server.run .updateMenuItem ctx st = o
        rcases hv with hv | ⟨e, hv⟩
        all_goals simp only [Server.run, Server.updateMenuItem, hv] at ho
        all_goals repeat' split at ho
        all_goals
          subst ho
          simp_all [StoreCall.UserID]
      · intro hb p hp hown
        generalize ho : server.run .updateMenuItem ctx st = o
        rcases hv with hv | ⟨e, hv⟩
        all_goals simp only [Handler.bindOk, Handler.owner, hj, hv, bound] at hb hown
        all_goals simp only [Server.run, Server.updateMenuItem, hv] at ho
        all_goals repeat' split at ho
        all_goals
          subst ho
          simp_all [StoreCall.UserID]
  · rcases hj : ctx.json with e | req
    · simp [Handler.bodyUserID, hj, Except.toOption] at hid
    · simp only [Handler.bodyUserID, hj, Except.toOption, Option.map_some',
        Option.some.injEq] at hid
      subst hid
      have hv : deleteMenuItemRequest.bind ctx = .ok req ∨ ∃ e, deleteMenuItemRequest.bind ctx = .error e :=
        ShouldBindJSON_cases ctx _ _ req hj
      refine ⟨?_, ?_⟩
      · generalize ho : server.run .deleteMenuItem ctx st = o
        rcases hv with hv | ⟨e, hv⟩
        all_goals simp only [Server.run, Server.deleteMenuItem, hv] at ho
        all_goals repeat' split at ho
        all_goals
          subst ho
          simp_all [StoreCall.UserID]
      · intro hb p hp hown
        generalize ho : server.run .deleteMenuItem ctx st = o
        rcases hv with hv | ⟨e, hv⟩
        all_goals simp only [Handler.bindOk, Handler.owner, hj, hv, bound] at hb hown
        all_goals simp only [Server.run, Server.deleteMenuItem, hv] at ho
        all_goals repeat' split at ho
        all_goals
          subst ho
          simp_all [StoreCall.UserID]

/-- Witness of C27: a product request of "bob" whose body names the owner id 4242,
not the id 7 of the stored user "bob", is answered 200 and `CreateProduct` is
called with the owner id 4242. -/
theorem owner_id_comes_from_body_witness :
    Handler.createProduct ∈ ownerIdHandlers ∧
    Handler.bodyUserID .createProduct bobForeignIdCtx = some 4242 ∧
    (sampleServer.store.GetUser "bob" 0).1 = .ok ⟨7, "bob", "hash:password", 0⟩ ∧
    (sampleServer.run .createProduct bobForeignIdCtx 0).status = some StatusOK ∧
    ∃ c, (sampleServer.run .createProduct bobForeignIdCtx 0).calls = [c] ∧
      c.UserID = some 4242 :=
  ⟨by decide, rfl, rfl, rfl,
    (owner_id_comes_from_body sampleServer .createProduct bobForeignIdCtx 0 4242 (by decide)
      rfl).2 rfl (NewPayload sampleEnv "bob" (60 * Second)) rfl rfl⟩

/-! ## Theorems on a failure in the middle of createOrders -/

/-- The loop of `createOrders` when the calls for the items `pre` succeed and the
call for the next item `x` fails: it stops there with 500. -/
theorem createOrdersLoop_fails {σ Seg : Type} (server : Server σ Seg)
    (ctx : Context createOrderRequest) (orderID : UUID) (pre : List createOrderItemRequest)
    (x : createOrderItemRequest) (post : List createOrderItemRequest) :
    ∀ (i : Nat) (orders : List Order) (calls : List StoreCall) (st : σ) (rows : List Order)
      (err : GoError), rows.length = pre.length →
      (server.store.replay
          ((createOrderItemArgs ctx orderID (pre ++ [x]) i).map .CreateOrderItem) st).1
        = rows.map (fun o => .ok (.order o)) ++ [.error err] →
      createOrdersLoop server ctx orderID (pre ++ x :: post) i orders calls st =
        ⟨.json StatusInternalServerError (errorResponse err),
          calls ++ (createOrderItemArgs ctx orderID (pre ++ [x]) i).map .CreateOrderItem,
          (server.store.replay
            ((createOrderItemArgs ctx orderID (pre ++ [x]) i).map .CreateOrderItem) st).2⟩ := by
  induction pre with
  | nil =>
    intro i orders calls st rows err hlen hres
    have hr : rows = [] := List.length_eq_zero.mp hlen
    subst hr
    rcases hs : server.store.CreateOrderItem (createOrderItemArg ctx orderID i x) st with
      ⟨res, st1⟩
    simp only [List.nil_append, createOrderItemArgs, List.map_cons, List.map_nil, Store.replay,
      Store.apply, hs, List.cons.injEq, and_true] at hres
    cases res with
    | ok row => cases hres
    | error e =>
      simp only [Except.map, Except.error.injEq] at hres
      subst hres
      simp [createOrdersLoop, createOrderItemArgs, Store.replay, Store.apply, hs]
  | cons p pre1 ih =>
    intro i orders calls st rows err hlen hres
    rcases hs : server.store.CreateOrderItem (createOrderItemArg ctx orderID i p) st with
      ⟨res, st1⟩
    cases rows with
    | nil => cases hlen
    | cons r rows1 =>
      simp only [List.cons_append, createOrderItemArgs, List.map_cons, Store.replay, Store.apply,
        hs, List.cons.injEq] at hres
      obtain ⟨hhead, htail⟩ := hres
      cases res with
      | error e => cases hhead
      | ok row =>
        have hrun := ih (i + 1) (orders ++ [row])
          (calls ++ [.CreateOrderItem (createOrderItemArg ctx orderID i p)]) st1 rows1 err
          (by simpa using hlen) htail
        simpa [createOrdersLoop, hs, createOrderItemArgs, Store.replay, Store.apply] using hrun

theorem createOrderItemArgs_take (ctx : Context createOrderRequest) (orderID : UUID)
    (pre post : List createOrderItemRequest) :
    ∀ i, (createOrderItemArgs ctx orderID (pre ++ post) i).take pre.length
      = createOrderItemArgs ctx orderID pre i := by
  induction pre with
  | nil => intro i; simp [createOrderItemArgs]
  | cons p pre1 ih => intro i; simp [createOrderItemArgs, ih]

/-- C28: `createOrders` is not atomic. For a request whose body binds, with items
i_1..i_n, when `CreateOrderItem` succeeds for the first k items and fails on item
k+1, the handler makes exactly k+1 store calls, the `CreateOrderItem` calls for the
first k+1 items in order; it answers 500 with the error object of that failure,
which holds none of the rows; it makes no call for the later items and no other
store call (no delete), and the store is left in the state reached after those
k+1 calls. -/
theorem createOrders_is_not_atomic {σ Seg : Type} (server : Server σ Seg)
    (ctx : Context createOrderRequest) (st : σ) (req : createOrderRequest)
    (pre : List createOrderItemRequest) (x : createOrderItemRequest)
    (post : List createOrderItemRequest) (rows : List Order) (err : GoError)
    (hb : createOrderRequest.bind ctx = .ok req) (hitems : req.Orders = some (pre ++ x :: post))
    (hlen : rows.length = pre.length)
    (hres : (server.store.replay
        ((createOrderItemArgs ctx req.OrderID (pre ++ [x]) 0).map .CreateOrderItem) st).1
      = rows.map (fun o => .ok (.order o)) ++ [.error err]) :
    (server.createOrders ctx st).reply
      = .json StatusInternalServerError (.H [("error", err.Error)]) ∧
    (server.createOrders ctx st).calls
      = ((createOrderItemArgs ctx req.OrderID (pre ++ x :: post) 0).take (pre.length + 1)).map
          .CreateOrderItem ∧
    (server.createOrders ctx st).calls.length = pre.length + 1 ∧
    (∀ c ∈ (server.createOrders ctx st).calls, ∃ a, c = .CreateOrderItem a) ∧
    (server.createOrders ctx st).results server.store st
      = rows.map (fun o => .ok (.order o)) ++ [.error err] ∧
    (server.createOrders ctx st).state
      = (server.store.replay (server.createOrders ctx st).calls st).2 := by
  have hrun : server.createOrders ctx st =
      ⟨.json StatusInternalServerError (errorResponse err),
        (createOrderItemArgs ctx req.OrderID (pre ++ [x]) 0).map .CreateOrderItem,
        (server.store.replay
          ((createOrderItemArgs ctx req.OrderID (pre ++ [x]) 0).map .CreateOrderItem) st).2⟩ := by
    simp only [Server.createOrders, hb, hitems, Option.getD_some]
    rw [createOrdersLoop_fails server ctx req.OrderID pre x post 0 [] [] st rows err hlen hres]
    simp
  have htake : (createOrderItemArgs ctx req.OrderID (pre ++ x :: post) 0).take (pre.length + 1)
      = createOrderItemArgs ctx req.OrderID (pre ++ [x]) 0 := by
    have h1 := createOrderItemArgs_take ctx req.OrderID (pre ++ [x]) post 0
    simpa using h1
  rw [hrun]
  refine ⟨rfl, by rw [htake], ?_, ?_, hres, rfl⟩
  · simp [createOrderItemArgs_length]
  · intro c hc
    simp only [List.mem_map] at hc
    obtain ⟨a, _, ha⟩ := hc
    exact ⟨a, ha.symm⟩

/-- Witness of C28: on a store that accepts one row and then fails, the order of
three items makes two calls, is answered 500, and the row of the first item stays
in the table. -/
theorem createOrders_is_not_atomic_witness :
    ((limitedServer 1).createOrders threeItemOrderCtx []).state
      = [⟨100, "bob", 5, "2022-01-01", "tea", "2.50", 1, "Pending", 0⟩] ∧
    ((limitedServer 1).createOrders threeItemOrderCtx []).reply
      = .json StatusInternalServerError
          (.H [("error", (GoError.sentinel .sqlErrConnDone).Error)]) ∧
    ((limitedServer 1).createOrders threeItemOrderCtx []).calls
      = ((createOrderItemArgs threeItemOrderCtx 5 threeItems 0).take 2).map
          .CreateOrderItem ∧
    ((limitedServer 1).createOrders threeItemOrderCtx []).calls.length = 2 :=
  ⟨rfl,
    (createOrders_is_not_atomic (limitedServer 1) threeItemOrderCtx [] ⟨5, some threeItems⟩
      [⟨"bob", "2022-01-01", "tea", ⟨false, 5, -1⟩, 1, "Pending"⟩]
      ⟨"bob", "2022-01-01", "cake", ⟨false, 4, 0⟩, 2, "Pending"⟩
      [⟨"bob", "2022-01-01", "water", ⟨false, 1, 0⟩, 3, "Pending"⟩]
      [⟨100, "bob", 5, "2022-01-01", "tea", "2.50", 1, "Pending", 0⟩]
      (.sentinel .sqlErrConnDone) rfl rfl rfl rfl).1,
    (createOrders_is_not_atomic (limitedServer 1) threeItemOrderCtx [] ⟨5, some threeItems⟩
      [⟨"bob", "2022-01-01", "tea", ⟨false, 5, -1⟩, 1, "Pending"⟩]
      ⟨"bob", "2022-01-01", "cake", ⟨false, 4, 0⟩, 2, "Pending"⟩
      [⟨"bob", "2022-01-01", "water", ⟨false, 1, 0⟩, 3, "Pending"⟩]
      [⟨100, "bob", 5, "2022-01-01", "tea", "2.50", 1, "Pending", 0⟩]
      (.sentinel .sqlErrConnDone) rfl rfl rfl rfl).2.1,
    rfl⟩

/-! ## Theorems on the statement updateOrderItem -/

/-- C23: on a table `orders` in which no two rows have the same id and which holds
a row `r` with the given shop name and id, `UpdateOrderItem` returns `r` with its
amount and status replaced by the arguments and its id, shop name, order id, order
day, product name, product price and creation time unchanged; in the table that
row is replaced by the returned one and every other row is unchanged, at the same
position; the ids of the table are unchanged. -/
theorem updateOrderItem_frame (arg : UpdateOrderItemParams) (table : List Order) (r : Order)
    (hkey : ordersKey table) (hr : r ∈ table) (hshop : r.ShopName = arg.ShopName)
    (hid : r.ID = arg.ID) :
    (Queries.UpdateOrderItem arg table).1
      = .ok ⟨r.ID, r.ShopName, r.OrderID, r.OrderDay, r.ProductName, r.ProductPrice,
          arg.Amount, arg.Status, r.CreatedAt⟩ ∧
    (Queries.UpdateOrderItem arg table).2.length = table.length ∧
    (∀ (i : Nat) (o : Order), table[i]? = some o →
      (Queries.UpdateOrderItem arg table).2[i]?
        = some (if o = r then ⟨r.ID, r.ShopName, r.OrderID, r.OrderDay, r.ProductName,
            r.ProductPrice, arg.Amount, arg.Status, r.CreatedAt⟩ else o)) ∧
    ordersKey (Queries.UpdateOrderItem arg table).2 := by
  have huniq : ∀ o ∈ table, updateOrderItemWhere arg o = true → o = r := by
    intro o ho hw
    simp only [updateOrderItemWhere, Bool.and_eq_true, beq_iff_eq] at hw
    exact List.inj_on_of_nodup_map hkey ho hr (by rw [hw.2, hid])
  have hwr : updateOrderItemWhere arg r = true := by
    simp [updateOrderItemWhere, hshop, hid]
  have hmatch : ∀ o ∈ table, (updateOrderItemWhere arg o = true ↔ o = r) :=
    fun o ho => ⟨huniq o ho, fun h => h ▸ hwr⟩
  have hset : updateOrderItemSet arg r = ⟨r.ID, r.ShopName, r.OrderID, r.OrderDay,
      r.ProductName, r.ProductPrice, arg.Amount, arg.Status, r.CreatedAt⟩ := rfl
  have hsnd : (Queries.UpdateOrderItem arg table).2 =
      table.map (fun o => if updateOrderItemWhere arg o then updateOrderItemSet arg o else o) := by
    simp only [Queries.UpdateOrderItem]
    split <;> rfl
  refine ⟨?_, ?_, ?_, ?_⟩
  · have hmem : r ∈ table.filter (updateOrderItemWhere arg) := List.mem_filter.mpr ⟨hr, hwr⟩
    simp only [Queries.UpdateOrderItem]
    rcases hf : table.filter (updateOrderItemWhere arg) with _ | ⟨i, rest⟩
    · rw [hf] at hmem
      cases hmem
    · have hi : i ∈ table.filter (updateOrderItemWhere arg) := by
        rw [hf]
        exact List.mem_cons_self _ _
      have hir := huniq i (List.mem_filter.mp hi).1 (List.mem_filter.mp hi).2
      subst hir
      simp only [List.map_cons]
      rfl
  · rw [hsnd, List.length_map]
  · intro i o ho
    have hom : o ∈ table := List.getElem?_mem ho
    rw [hsnd, List.getElem?_map, ho, Option.map_some']
    by_cases hor : o = r
    · rw [if_pos ((hmatch o hom).mpr hor), if_pos hor, hor, hset]
    · have hw : ¬ updateOrderItemWhere arg o = true := fun h => hor ((hmatch o hom).mp h)
      rw [if_neg hw, if_neg hor]
  · unfold ordersKey
    rw [hsnd, List.map_map]
    have hfun : ((fun o : Order => o.ID) ∘
        fun o => if updateOrderItemWhere arg o then updateOrderItemSet arg o else o)
        = fun o : Order => o.ID := by
      funext o
      simp only [Function.comp]
      split <;> rfl
    rw [hfun]
    exact hkey

/-- Witness of C23: the row 101 of the sample table gets the amount 1000 and the
status "accepted"; the row 100 is unchanged. -/
theorem updateOrderItem_frame_witness :
    (Queries.UpdateOrderItem ⟨"bob", 101, 1000, "accepted"⟩ sampleOrders).1
      = .ok ⟨101, "bob", 5, "2022-01-01", "cake", "4.00", 1000, "accepted", 12⟩ ∧
    (Queries.UpdateOrderItem ⟨"bob", 101, 1000, "accepted"⟩ sampleOrders).2.length
      = sampleOrders.length ∧
    (∀ (i : Nat) (o : Order), sampleOrders[i]? = some o →
      (Queries.UpdateOrderItem ⟨"bob", 101, 1000, "accepted"⟩ sampleOrders).2[i]?
        = some (if o = ⟨101, "bob", 5, "2022-01-01", "cake", "4.00", 2, "Pending", 12⟩
            then ⟨101, "bob", 5, "2022-01-01", "cake", "4.00", 1000, "accepted", 12⟩
            else o)) ∧
    ordersKey (Queries.UpdateOrderItem ⟨"bob", 101, 1000, "accepted"⟩ sampleOrders).2 :=
  updateOrderItem_frame ⟨"bob", 101, 1000, "accepted"⟩ sampleOrders
    ⟨101, "bob", 5, "2022-01-01", "cake", "4.00", 2, "Pending", 12⟩
    (by decide) (by decide) rfl rfl

/-! ## Theorems on the route table -/

/-- C22: in the route table of `setupRouter` the routes registered without the
authorization middleware are exactly POST /users, POST /users/login,
GET /:shop_name/menus, POST /:shop_name/order and GET /:shop_name/order/:order_id;
the other eleven routes are those under /users/:username and are registered on the
group that runs the middleware first. A route without the middleware gives the same
outcome whatever the `Authorization` header is; a route with it answers a request
that has no header 401 without running its handler. So a request without header
routed to `getOrdersByOrderID` is answered by the handler, while one routed to
`getOrdersByDay`, `updateOrderItem` or `deleteOrderItem` is answered 401 with no
store call. -/
theorem public_routes_are_five {σ Seg : Type} (server : Server σ Seg) (st : σ) :
    (setupRouter.filter (fun r => !r.auth)).map (fun r => (r.method, r.pattern, r.handler))
      = [(.POST, [.lit "users"], .createUser),
         (.POST, [.lit "users", .lit "login"], .loginUser),
         (.GET, [.param "shop_name", .lit "menus"], .getAllMenuItems),
         (.POST, [.param "shop_name", .lit "order"], .createOrders),
         (.GET, [.param "shop_name", .lit "order", .param "order_id"], .getOrdersByOrderID)] ∧
    (setupRouter.filter (fun r => r.auth)).length = 11 ∧
    (∀ r ∈ setupRouter,
      (r.auth = true ↔ r.pattern.take 2 = [.lit "users", .param "username"])) ∧
    (∀ (route : Route) (params : List (String × String)) (req : Request Seg)
        (a : AuthorizationHeader Seg), route.auth = false →
      server.serveRoute route params { req with authorization := a } st
        = server.serveRoute route params req st) ∧
    (∀ (route : Route) (params : List (String × String)) (req : Request Seg),
      route.auth = true → req.authorization = .absent →
      server.serveRoute route params req st
        = ⟨.json StatusUnauthorized (errorResponse (.other "MissingOrMalformedHeader")),
            [], st⟩) ∧
    (∀ (req : Request Seg) (params : List (String × String)),
      findRoute setupRouter req.method req.path
        = some (⟨.GET, [.param "shop_name", .lit "order", .param "order_id"],
            .getOrdersByOrderID, false⟩, params) →
      server.ServeHTTP req st
        = server.getOrdersByOrderID
            { params := params, json := req.json .getOrdersByOrderID,
              authPayload := Option.none, uuid := req.uuid, issue := req.issue } st) ∧
    (∀ (req : Request Seg) (route : Route) (params : List (String × String)),
      findRoute setupRouter req.method req.path = some (route, params) →
      route.handler = .getOrdersByDay ∨ route.handler = .updateOrderItem ∨
        route.handler = .deleteOrderItem →
      req.authorization = .absent →
      server.ServeHTTP req st
        = ⟨.json StatusUnauthorized (errorResponse (.other "MissingOrMalformedHeader")),
            [], st⟩) := by
  have hserve : ∀ (route : Route) (params : List (String × String)) (req : Request Seg),
      route.auth = true → req.authorization = .absent →
      server.serveRoute route params req st
        = ⟨.json StatusUnauthorized (errorResponse (.other "MissingOrMalformedHeader")),
            [], st⟩ := by
    intro route params req ha hh
    simp only [Server.serveRoute, ha, hh, authMiddleware, if_true]
  refine ⟨by decide, by decide, by decide, ?_, hserve, ?_, ?_⟩
  · intro route params req a ha
    simp only [Server.serveRoute, ha, Bool.false_eq_true, if_false]
  · intro req params hf
    have hne : (server.run .getOrdersByOrderID
        { params := params, json := req.json .getOrdersByOrderID,
          authPayload := Option.none, uuid := req.uuid, issue := req.issue } st).reply
        ≠ .panic := by
      intro hp
      have h1 := (run_panic server _ _ st hp).1
      cases h1
    simp only [Server.run] at hne
    simp only [Server.ServeHTTP, hf, Server.serveRoute, Bool.false_eq_true, if_false,
      Server.run]
  · intro req route params hf hh ha
    have hmem := findRoute_mem _ _ _ _ _ hf
    have hauth : ∀ r ∈ setupRouter,
        r.handler = .getOrdersByDay ∨ r.handler = .updateOrderItem ∨
          r.handler = .deleteOrderItem → r.auth = true := by decide
    have hs := hserve route params req (hauth route hmem hh) ha
    simp only [Server.ServeHTTP, hf, hs]

/-- Witness of C22: without a header `GET /bob/order/5` is answered 200 by
`getOrdersByOrderID` after one store call, and `GET /users/bob/orders` is answered
401 with no store call. -/
theorem public_routes_are_five_witness :
    sampleServer.ServeHTTP anonymousOrderLookup 0
      = ⟨.json StatusOK (.orders []), [.GetOrdersByOrderID ⟨"bob", 5⟩], 1⟩ ∧
    sampleServer.ServeHTTP anonymousOrderLookup 0
      = sampleServer.getOrdersByOrderID
          { params := [("shop_name", "bob"), ("order_id", "5")],
            json := anonymousOrderLookup.json .getOrdersByOrderID,
            authPayload := Option.none, uuid := anonymousOrderLookup.uuid,
            issue := anonymousOrderLookup.issue } 0 ∧
    sampleServer.ServeHTTP anonymousOrdersByDay 0
      = ⟨.json StatusUnauthorized (errorResponse (.other "MissingOrMalformedHeader")),
          [], 0⟩ :=
  ⟨rfl,
    (public_routes_are_five sampleServer 0).2.2.2.2.2.1 anonymousOrderLookup
      [("shop_name", "bob"), ("order_id", "5")] rfl,
    (public_routes_are_five sampleServer 0).2.2.2.2.2.2 anonymousOrdersByDay
      ⟨.GET, [.lit "users", .param "username", .lit "orders"], .getOrdersByDay, true⟩
      [("username", "bob")] rfl (Or.inl rfl) rfl⟩

/-! ## Theorems on the body of a success -/

/-- The loop of `createOrders` when it answers 200: every call it made succeeded
and the body is the slice of the returned rows. -/
theorem createOrdersLoop_ok_rows {σ Seg : Type} (server : Server σ Seg)
    (ctx : Context createOrderRequest) (orderID : UUID) (items : List createOrderItemRequest) :
    ∀ (i : Nat) (orders : List Order) (calls : List StoreCall) (st : σ) (body : Body Seg),
      (createOrdersLoop server ctx orderID items i orders calls st).reply
        = .json StatusOK body →
      ∃ rows,
        (createOrdersLoop server ctx orderID items i orders calls st).calls
          = calls ++ (createOrderItemArgs ctx orderID items i).map .CreateOrderItem ∧
        (server.store.replay
          ((createOrderItemArgs ctx orderID items i).map .CreateOrderItem) st).1
          = rows.map (fun o => .ok (.order o)) ∧
        body.orderRows = some (orders ++ rows) := by
  induction items with
  | nil =>
    intro i orders calls st body hr
    refine ⟨[], ?_, rfl, ?_⟩
    · cases orders <;> simp [createOrdersLoop, createOrderItemArgs]
    · cases orders with
      | nil =>
        simp only [createOrdersLoop, Reply.json.injEq, true_and] at hr
        subst hr
        rfl
      | cons o os =>
        simp only [createOrdersLoop, Reply.json.injEq, true_and] at hr
        subst hr
        simp [Body.orderRows]
  | cons req rest ih =>
    intro i orders calls st body hr
    rcases hs : server.store.CreateOrderItem (createOrderItemArg ctx orderID i req) st with
      ⟨res, st1⟩
    cases res with
    | error err =>
      simp only [createOrdersLoop, hs, Reply.json.injEq] at hr
      exact absurd hr.1 (by decide)
    | ok orderItem =>
      simp only [createOrdersLoop, hs] at hr
      obtain ⟨rows, hcalls, hres, hrows⟩ := ih (i + 1) (orders ++ [orderItem])
        (calls ++ [.CreateOrderItem (createOrderItemArg ctx orderID i req)]) st1 body hr
      refine ⟨orderItem :: rows, ?_, ?_, ?_⟩
      · simp [createOrdersLoop, hs, hcalls, createOrderItemArgs]
      · simp [createOrderItemArgs, Store.replay, Store.apply, hs, Except.map, hres]
      · simpa using hrows

/-- The body of a 200 response of each handler: a row or a list of rows as the store
returned it; or the view of the user row the store returned, alone or next to a
token; or the slice of the rows `createOrders` collected; or the object
`textResponse "delete successfully"`, after `deleteMenuItem` and `deleteOrderItem`;
or, after `deleteProduct`, the bare string "delete successfully". -/
theorem run_ok_body {σ Seg : Type} (server : Server σ Seg) (h : Handler)
    (ctx : Context h.Req) (st : σ) (body : Body Seg)
    (hr : (server.run h ctx st).reply = .json StatusOK body) :
    (∃ row, (server.run h ctx st).results server.store st = [.ok row] ∧
      row.body = some body) ∨
    (∃ u, (server.run h ctx st).results server.store st = [.ok (.user u)] ∧
      (body = .user ⟨u.ID, u.Username, u.CreatedAt⟩ ∨
        ∃ tok, body = .login ⟨tok, ⟨u.ID, u.Username, u.CreatedAt⟩⟩)) ∨
    (h = .createOrders ∧ ∃ rows,
      (server.run h ctx st).results server.store st = rows.map (fun o => .ok (.order o)) ∧
      body.orderRows = some rows) ∨
    ((h = .deleteMenuItem ∨ h = .deleteOrderItem) ∧
      (server.run h ctx st).results server.store st = [.ok .done] ∧
      body = .H [("respond", "delete successfully")]) ∨
    (h = .deleteProduct ∧
      (server.run h ctx st).results server.store st = [.ok .done] ∧
      body = .str "delete successfully") := by
  cases h with
  | createOrders =>
    refine Or.inr (Or.inr (Or.inl ⟨rfl, ?_⟩))
    simp only [Server.run, Server.createOrders] at hr ⊢
    split at hr
    · simp only [Reply.json.injEq] at hr
      exact absurd hr.1 (by decide)
    · rename_i orderReq hb
      obtain ⟨rows, hcalls, hres, hrows⟩ := createOrdersLoop_ok_rows server ctx
        orderReq.OrderID (orderReq.Orders.getD []) 0 [] [] st body hr
      refine ⟨rows, ?_, by simpa using hrows⟩
      simp only [hb, Outcome.results, hcalls, List.nil_append]
      exact hres
  | createUser =>
    generalize ho : server.run .createUser ctx st = o at hr ⊢
    simp only [Server.run, Server.createUser] at ho
    repeat' split at ho
    all_goals
      subst ho
      simp only [Reply.json.injEq] at hr
    all_goals first
      | exact absurd hr.1 (by decide)
      | (obtain ⟨_, hr2⟩ := hr
         subst hr2
         simp [Outcome.results, Store.replay, Store.apply, Except.map, StoreRow.body,
           textResponse, *])
  | getUser =>
    generalize ho : server.run .getUser ctx st = o at hr ⊢
    simp only [Server.run, Server.getUser] at ho
    repeat' split at ho
    all_goals
      subst ho
      simp only [Reply.json.injEq] at hr
    all_goals first
      | exact absurd hr.1 (by decide)
      | (obtain ⟨_, hr2⟩ := hr
         subst hr2
         simp [Outcome.results, Store.replay, Store.apply, Except.map, StoreRow.body,
           textResponse, *])
      | cases hr
  | loginUser =>
    generalize ho : server.run .loginUser ctx st = o at hr ⊢
    simp only [Server.run, Server.loginUser] at ho
    repeat' split at ho
    all_goals
      subst ho
      simp only [Reply.json.injEq] at hr
    all_goals first
      | exact absurd hr.1 (by decide)
      | (obtain ⟨_, hr2⟩ := hr
         subst hr2
         simp [Outcome.results, Store.replay, Store.apply, Except.map, StoreRow.body,
           textResponse, *])
  | getAllMenuItems =>
    generalize ho : server.run .getAllMenuItems ctx st = o at hr ⊢
    simp only [Server.run, Server.getAllMenuItems] at ho
    repeat' split at ho
    all_goals
      subst ho
      simp only [Reply.json.injEq] at hr
    all_goals first
      | exact absurd hr.1 (by decide)
      | (obtain ⟨_, hr2⟩ := hr
         subst hr2
         simp [Outcome.results, Store.replay, Store.apply, Except.map, StoreRow.body,
           textResponse, *])
  | getOrdersByOrderID =>
    generalize ho : server.run .getOrdersByOrderID ctx st = o at hr ⊢
    simp only [Server.run, Server.getOrdersByOrderID] at ho
    repeat' split at ho
    all_goals
      subst ho
      simp only [Reply.json.injEq] at hr
    all_goals first
      | exact absurd hr.1 (by decide)
      | (obtain ⟨_, hr2⟩ := hr
         subst hr2
         simp [Outcome.results, Store.replay, Store.apply, Except.map, StoreRow.body,
           textResponse, *])
  | getAllProducts =>
    generalize ho : server.run .getAllProducts ctx st = o at hr ⊢
    simp only [Server.run, Server.getAllProducts] at ho
    repeat' split at ho
    all_goals
      subst ho
      simp only [Reply.json.injEq] at hr
    all_goals first
      | exact absurd hr.1 (by decide)
      | (obtain ⟨_, hr2⟩ := hr
         subst hr2
         simp [Outcome.results, Store.replay, Store.apply, Except.map, StoreRow.body,
           textResponse, *])
      | cases hr
  | createProduct =>
    generalize ho : server.run .createProduct ctx st = o at hr ⊢
    simp only [Server.run, Server.createProduct] at ho
    repeat' split at ho
    all_goals
      subst ho
      simp only [Reply.json.injEq] at hr
    all_goals first
      | exact absurd hr.1 (by decide)
      | (obtain ⟨_, hr2⟩ := hr
         subst hr2
         simp [Outcome.results, Store.replay, Store.apply, Except.map, StoreRow.body,
           textResponse, *])
      | cases hr
  | updateProduct =>
    generalize ho : server.run .updateProduct ctx st = o at hr ⊢
    simp only [Server.run, Server.updateProduct] at ho
    repeat' split at ho
    all_goals
      subst ho
      simp only [Reply.json.injEq] at hr
    all_goals first
      | exact absurd hr.1 (by decide)
      | (obtain ⟨_, hr2⟩ := hr
         subst hr2
         simp [Outcome.results, Store.replay, Store.apply, Except.map, StoreRow.body,
           textResponse, *])
      | cases hr
  | addMenuItem =>
    generalize ho : server.run .addMenuItem ctx st = o at hr ⊢
    simp only [Server.run, Server.addMenuItem] at ho
    repeat' split at ho
    all_goals
      subst ho
      simp only [Reply.json.injEq] at hr
    all_goals first
      | exact absurd hr.1 (by decide)
      | (obtain ⟨_, hr2⟩ := hr
         subst hr2
         simp [Outcome.results, Store.replay, Store.apply, Except.map, StoreRow.body,
           textResponse, *])
      | cases hr
  | updateMenuItem =>
    generalize ho : server.run .updateMenuItem ctx st = o at hr ⊢
    simp only [Server.run, Server.updateMenuItem] at ho
    repeat' split at ho
    all_goals
      subst ho
      simp only [Reply.json.injEq] at hr
    all_goals first
      | exact absurd hr.1 (by decide)
      | (obtain ⟨_, hr2⟩ := hr
         subst hr2
         simp [Outcome.results, Store.replay, Store.apply, Except.map, StoreRow.body,
           textResponse, *])
      | cases hr
  | updateOrderItem =>
    generalize ho : server.run .updateOrderItem ctx st = o at hr ⊢
    simp only [Server.run, Server.updateOrderItem] at ho
    repeat' split at ho
    all_goals
      subst ho
      simp only [Reply.json.injEq] at hr
    all_goals first
      | exact absurd hr.1 (by decide)
      | (obtain ⟨_, hr2⟩ := hr
         subst hr2
         simp [Outcome.results, Store.replay, Store.apply, Except.map, StoreRow.body,
           textResponse, *])
      | cases hr
  | getOrdersByDay =>
    generalize ho : server.run .getOrdersByDay ctx st = o at hr ⊢
    simp only [Server.run, Server.getOrdersByDay] at ho
    repeat' split at ho
    all_goals
      subst ho
      simp only [Reply.json.injEq] at hr
    all_goals first
      | exact absurd hr.1 (by decide)
      | (obtain ⟨_, hr2⟩ := hr
         subst hr2
         simp [Outcome.results, Store.replay, Store.apply, Except.map, StoreRow.body,
           textResponse, *])
      | cases hr
  | deleteProduct =>
    generalize ho : server.run .deleteProduct ctx st = o at hr ⊢
    simp only [Server.run, Server.deleteProduct] at ho
    repeat' split at ho
    all_goals
      subst ho
      simp only [Reply.json.injEq] at hr
    all_goals first
      | exact absurd hr.1 (by decide)
      | (obtain ⟨_, hr2⟩ := hr
         subst hr2
         simp [Outcome.results, Store.replay, Store.apply, Except.map, StoreRow.body,
           textResponse, *])
      | cases hr
  | deleteMenuItem =>
    generalize ho : server.run .deleteMenuItem ctx st = o at hr ⊢
    simp only [Server.run, Server.deleteMenuItem] at ho
    repeat' split at ho
    all_goals
      subst ho
      simp only [Reply.json.injEq] at hr
    all_goals first
      | exact absurd hr.1 (by decide)
      | (obtain ⟨_, hr2⟩ := hr
         subst hr2
         simp [Outcome.results, Store.replay, Store.apply, Except.map, StoreRow.body,
           textResponse, *])
      | cases hr
  | deleteOrderItem =>
    generalize ho : server.run .deleteOrderItem ctx st = o at hr ⊢
    simp only [Server.run, Server.deleteOrderItem] at ho
    repeat' split at ho
    all_goals
      subst ho
      simp only [Reply.json.injEq] at hr
    all_goals first
      | exact absurd hr.1 (by decide)
      | (obtain ⟨_, hr2⟩ := hr
         subst hr2
         simp [Outcome.results, Store.replay, Store.apply, Except.map, StoreRow.body,
           textResponse, *])
      | cases hr

/-- C21 (divergence of `deleteProduct`): the request `DELETE /users/bob/products/3`
of "bob" is answered 200 after the one call `DeleteProduct`, and the body is the
bare JSON string "delete successfully", which is not the object
`textResponse "delete successfully"`; the same delete of a menu item and of an
order item is answered with that object. -/
theorem deleteProduct_answers_bare_string :
    sampleServer.ServeHTTP bobDeletesProduct 0
      = ⟨.json StatusOK (.str "delete successfully"), [.DeleteProduct ⟨7, 3⟩], 1⟩ ∧
    (Body.str "delete successfully" : Body StructSeg) ≠ textResponse "delete successfully" ∧
    sampleServer.ServeHTTP bobDeletesMenuItem 0
      = ⟨.json StatusOK (.H [("respond", "delete successfully")]),
          [.DeleteMenuItem ⟨7, 3⟩], 1⟩ ∧
    sampleServer.ServeHTTP bobDeletesOrderItem 0
      = ⟨.json StatusOK (.H [("respond", "delete successfully")]),
          [.DeleteOrderItem ⟨"bob", 100⟩], 1⟩ := by
  refine ⟨rfl, by decide, rfl, rfl⟩

end PosBackend
